import Mathlib

/-!
# ChipmunkDebugDraw: a shallow embedding

Source: `co.lanica.chipmunk2d.debugdraw.js`.  The module keeps four JavaScript
objects used as tables keyed by native pointer (`getCPtr()`): `pBodies`,
`pDebugCanvas` (body sprites), `pConstraintDebugCanvas` (constraint-anchor
sprites, keyed by BODY pointer) and `pConstraintJointDebugCanvas` (connection
sprites, keyed by constraint pointer), plus the flag `forceReloadAll`.

Modelling decisions.
* Numbers are `JsNum`: exact rationals extended with `Infinity`, `-Infinity`
  and `NaN`.  Rounding and the sign of zero are not modelled.
* The physics engine and the host game are read through a snapshot `World`
  that every public method receives; the engine may change between calls.
* The rendering layer is write-only for the module: every method call on a
  sprite and every assignment to a rendering property is appended to
  `State.log`.  A sprite record stores the properties as independent fields.
* `Math.cos`, `Math.sin`, `Math.sqrt`, `Math.atan2` and `Math.PI` are taken
  as a parameter `MathLib`.
* Tables are association lists in insertion order; `for (var key in pBodies)`
  visits `State.pBodies` from left to right.  The theorems below hold for
  every order of `pBodies`.
* A body or constraint is identified with its pointer; `a.equals(b)` is
  equality of pointers.  `chipmunk.cpBodyGetPos` returns a fresh value at every
  call.
* A `TypeError` raised by the module itself (reading `vertStart.x` while
  `vertStart` is still undefined) is modelled by `Outcome.threw`; what the
  engine or the rendering layer may raise is outside the model.
-/

namespace DebugDraw

/-! ## Numbers -/

/-- JavaScript number: a finite value (exact), `Infinity`, `-Infinity` or `NaN`.
A property that is `undefined` and only ever used in arithmetic is `nan`. -/
inductive JsNum where
  | fin (q : ℚ)
  | pinf
  | ninf
  | nan
  deriving DecidableEq

namespace JsNum

/-- Unary minus. -/
def neg : JsNum → JsNum
  | fin q => fin (-q)
  | pinf => ninf
  | ninf => pinf
  | nan => nan

/-- Addition `a + b`. -/
def add : JsNum → JsNum → JsNum
  | fin a, fin b => fin (a + b)
  | fin _, pinf => pinf
  | fin _, ninf => ninf
  | pinf, fin _ => pinf
  | pinf, pinf => pinf
  | ninf, fin _ => ninf
  | ninf, ninf => ninf
  | _, _ => nan

/-- Subtraction `a - b`. -/
def sub (a b : JsNum) : JsNum := add a (neg b)

/-- Sign-directed infinity: the product of an infinity of sign `pos` with `q`. -/
def infTimes (pos : Bool) (q : ℚ) : JsNum :=
  if q = 0 then nan else if (0 < q) = pos then pinf else ninf

/-- Multiplication `a * b`. -/
def mul : JsNum → JsNum → JsNum
  | fin a, fin b => fin (a * b)
  | fin a, pinf => infTimes true a
  | fin a, ninf => infTimes false a
  | pinf, fin b => infTimes true b
  | ninf, fin b => infTimes false b
  | pinf, pinf => pinf
  | ninf, ninf => pinf
  | pinf, ninf => ninf
  | ninf, pinf => ninf
  | _, _ => nan

/-- Division `a / b` (a zero divisor is `+0`). -/
def div : JsNum → JsNum → JsNum
  | fin a, fin b =>
      if b = 0 then (if a = 0 then nan else if 0 < a then pinf else ninf) else fin (a / b)
  | fin _, pinf => fin 0
  | fin _, ninf => fin 0
  | pinf, fin b => if 0 ≤ b then pinf else ninf
  | ninf, fin b => if 0 ≤ b then ninf else pinf
  | _, _ => nan

/-- Comparison `a <= b`; every comparison with `NaN` is false. -/
def le : JsNum → JsNum → Bool
  | fin a, fin b => decide (a ≤ b)
  | fin _, pinf => true
  | ninf, fin _ => true
  | ninf, ninf => true
  | ninf, pinf => true
  | pinf, pinf => true
  | _, _ => false

instance : Neg JsNum := ⟨neg⟩
instance : Add JsNum := ⟨add⟩
instance : Sub JsNum := ⟨sub⟩
instance : Mul JsNum := ⟨mul⟩
instance : Div JsNum := ⟨div⟩
instance (n : Nat) : OfNat JsNum n := ⟨fin n⟩

end JsNum

namespace Math

/-- JavaScript `Math.abs`. -/
def abs : JsNum → JsNum
  | .fin q => .fin |q|
  | .pinf => .pinf
  | .ninf => .pinf
  | .nan => .nan

/-- JavaScript `Math.min` of two arguments. -/
def min : JsNum → JsNum → JsNum
  | .nan, _ => .nan
  | _, .nan => .nan
  | a, b => if JsNum.le a b then a else b

/-- JavaScript `Math.max` of two arguments. -/
def max : JsNum → JsNum → JsNum
  | .nan, _ => .nan
  | _, .nan => .nan
  | a, b => if JsNum.le a b then b else a

end Math

/-- The transcendental part of JavaScript's `Math`, taken as a parameter. -/
structure MathLib where
  cos : JsNum → JsNum
  sin : JsNum → JsNum
  sqrt : JsNum → JsNum
  atan2 : JsNum → JsNum → JsNum
  PI : JsNum

/-! ## Coordinate conversion (source lines 70-83) -/

/-- Source `cpY(y) = game.screen.height - y`. -/
def cpY {K : Type} [Sub K] (screenHeight : K) (y : K) : K :=
  screenHeight - y

/-- Source `cpAngle(angle) = -(angle) * 180 / Math.PI`. -/
def cpAngle {K : Type} [Neg K] [Mul K] [Div K] [OfNat K 180] (PI : K) (angle : K) : K :=
  -(angle) * 180 / PI

/-- Source `toRad(angle) = -(angle) * Math.PI / 180`. -/
def toRad {K : Type} [Neg K] [Mul K] [Div K] [OfNat K 180] (PI : K) (angle : K) : K :=
  -(angle) * PI / 180

/-! ## Data model -/

/-- Native pointer returned by `getCPtr()`; the key of every table. -/
abbrev Ptr := Nat

/-- A `cpVect`-like value `{x, y}`. -/
structure Vec where
  x : JsNum
  y : JsNum
  deriving DecidableEq

/-- Result of `chipmunk.cpShapeGetShapeType`. -/
inductive ShapeType where
  | circle
  | segment
  | poly
  deriving DecidableEq

/-- Bounding box `shape.bb`. -/
structure BB where
  l : JsNum
  b : JsNum
  r : JsNum
  t : JsNum
  deriving DecidableEq

/-- A shape as the module reads it: type, cached bounding box and, for a
polygon, the vertices `cpPolyShapeGetVert(shape, 0 .. numVerts-1)`. -/
structure Shape where
  shapeType : ShapeType
  bb : BB
  verts : List Vec
  deriving DecidableEq

/-- Which `chipmunk.cpConstraintIs...` predicate holds for a constraint. -/
inductive JointKind where
  | pinJoint
  | slideJoint
  | pivotJoint
  | grooveJoint
  | dampedSpring
  | dampedRotarySpring
  | rotaryLimitJoint
  | ratchetJoint
  | gearJoint
  | simpleMotor
  | other
  deriving DecidableEq

/-- The two fields the module reads from a joint object; `none` is
`null`/`undefined`. -/
structure Joint where
  anchr1 : Option Vec
  anchr2 : Option Vec
  deriving DecidableEq

/-- A constraint as the module reads it: its two bodies, its kind and the
joint object the matching `chipmunk.cpConstraintGet...` returns. -/
structure Constraint where
  a : Ptr
  b : Ptr
  kind : JointKind
  joint : Joint
  deriving DecidableEq

/-- Snapshot of what the module reads from the physics engine and the game. -/
structure World where
  screenHeight : JsNum
  shapes : Ptr → List Shape
  constraints : Ptr → List Ptr
  constraint : Ptr → Constraint
  sleeping : Ptr → Bool
  pos : Ptr → Vec
  angle : Ptr → JsNum

/-- The `options` record after the constructor filled in the defaults. -/
structure Options where
  BB : Bool
  Circle : Bool
  Poly : Bool
  Vertex : Bool
  Constraint : Bool
  ConstraintConnection : Bool
  z : JsNum
  stroke : JsNum
  red : JsNum
  green : JsNum
  blue : JsNum
  dotsize : JsNum
  deriving DecidableEq

/-- The defaults of source lines 46-62. -/
def defaultOptions : Options :=
  { BB := true, Circle := true, Poly := false, Vertex := false,
    Constraint := false, ConstraintConnection := false,
    z := 9999, stroke := 2, red := 0, green := 1, blue := 0, dotsize := 2 }

/-- Field `options.strokex2 = options.stroke * 2`. -/
def Options.strokex2 (o : Options) : JsNum := o.stroke * 2

/-- A sprite: rendering properties the module assigns or reads, and the
properties the module itself hangs on the object. -/
structure Sprite where
  width : JsNum
  height : JsNum
  x : JsNum
  y : JsNum
  angle : JsNum
  z : JsNum
  anchorPoint : Option Vec
  center : Option Vec
  v_xmin : JsNum
  v_xmax : JsNum
  v_ymin : JsNum
  v_ymax : JsNum
  _start_x : JsNum
  _start_y : JsNum
  _width : JsNum
  _height : JsNum
  _local_center_x : JsNum
  _local_center_y : JsNum
  _halfw : JsNum
  _halfh : JsNum
  sleeping : Option Bool
  deriving DecidableEq

/-- What `platino.createCanvasSprite({width, height})` and
`platino.createSprite({width, height})` return: the given size, the rendering
layer's zero transform, and every module-side property still undefined. -/
def Sprite.blank (width height : JsNum) : Sprite :=
  { width := width, height := height, x := 0, y := 0, angle := 0, z := 0,
    anchorPoint := none, center := none,
    v_xmin := .nan, v_xmax := .nan, v_ymin := .nan, v_ymax := .nan,
    _start_x := .nan, _start_y := .nan, _width := .nan, _height := .nan,
    _local_center_x := .nan, _local_center_y := .nan, _halfw := .nan, _halfh := .nan,
    sleeping := none }

/-- Which sprite a rendering call addresses: the entry of `pDebugCanvas`,
`pConstraintDebugCanvas` or `pConstraintJointDebugCanvas` under a key. -/
inductive Target where
  | body (key : Ptr)
  | anchor (key : Ptr)
  | joint (key : Ptr)
  deriving DecidableEq

/-- A call into the rendering layer. -/
inductive Call where
  | createCanvasSprite (width height : JsNum)
  | createSprite (width height : JsNum)
  | sceneAdd
  | sceneRemove
  | color (r g b : JsNum)
  | setStrokeWidth (w : JsNum)
  | drawRect (x y w h : JsNum)
  | drawCircle (x y r : JsNum)
  | fillRect (x y w h : JsNum)
  | drawLine (x1 y1 x2 y2 : JsNum)
  | reload
  | show
  | hide
  | dispose
  | setWidth (v : JsNum)
  | setHeight (v : JsNum)
  | setX (v : JsNum)
  | setY (v : JsNum)
  | setAngle (v : JsNum)
  | setZ (v : JsNum)
  | setAnchorPoint (v : Vec)
  | setCenter (v : Vec)
  deriving DecidableEq

/-- One logged rendering call. -/
structure Event where
  target : Target
  call : Call
  deriving DecidableEq

/-- The overlay state: the four tables, `forceReloadAll`, and the log of
rendering calls issued so far (oldest first). -/
structure State where
  pBodies : List Ptr
  pDebugCanvas : List (Ptr × Sprite)
  pConstraintDebugCanvas : List (Ptr × Sprite)
  pConstraintJointDebugCanvas : List (Ptr × Sprite)
  forceReloadAll : Bool
  log : List Event
  deriving DecidableEq

/-- The state right after construction. -/
def State.init : State :=
  { pBodies := [], pDebugCanvas := [], pConstraintDebugCanvas := [],
    pConstraintJointDebugCanvas := [], forceReloadAll := false, log := [] }

/-- Result of a method that may raise: the state reached and whether a
`TypeError` ended the call there. -/
structure Outcome where
  st : State
  threw : Bool
  deriving DecidableEq

/-- Sequencing: nothing runs after a throw. -/
def Outcome.andThen (r : Outcome) (f : State → Outcome) : Outcome :=
  if r.threw then r else f r.st

/-! ## Tables -/

namespace Table

/-- Lookup `table[key]`. -/
def get {α : Type} : List (Ptr × α) → Ptr → Option α
  | [], _ => none
  | e :: t, k => if e.1 = k then some e.2 else get t k

/-- Assignment `table[key] = v`: replace in place, or append a new key. -/
def set {α : Type} : List (Ptr × α) → Ptr → α → List (Ptr × α)
  | [], k, v => [(k, v)]
  | e :: t, k, v => if e.1 = k then (k, v) :: t else e :: set t k v

/-- Statement `delete table[key]`. -/
def del {α : Type} (t : List (Ptr × α)) (k : Ptr) : List (Ptr × α) :=
  t.filter (fun e => e.1 != k)

/-- Mutation of the object stored under `key` (no effect if absent). -/
def modify {α : Type} (t : List (Ptr × α)) (k : Ptr) (f : α → α) : List (Ptr × α) :=
  t.map (fun e => if e.1 = k then (e.1, f e.2) else e)

end Table

/-- Assignment `pBodies[key] = body`. -/
def addKey (l : List Ptr) (k : Ptr) : List Ptr :=
  if k ∈ l then l else l ++ [k]

/-- Table lookup by target. -/
def getSprite (st : State) : Target → Option Sprite
  | .body k => Table.get st.pDebugCanvas k
  | .anchor k => Table.get st.pConstraintDebugCanvas k
  | .joint k => Table.get st.pConstraintJointDebugCanvas k

/-- Table assignment by target. -/
def putSprite (t : Target) (s : Sprite) (st : State) : State :=
  match t with
  | .body k => { st with pDebugCanvas := Table.set st.pDebugCanvas k s }
  | .anchor k => { st with pConstraintDebugCanvas := Table.set st.pConstraintDebugCanvas k s }
  | .joint k =>
      { st with pConstraintJointDebugCanvas := Table.set st.pConstraintJointDebugCanvas k s }

/-- Statement `delete table[key]` by target. -/
def delSprite (t : Target) (st : State) : State :=
  match t with
  | .body k => { st with pDebugCanvas := Table.del st.pDebugCanvas k }
  | .anchor k => { st with pConstraintDebugCanvas := Table.del st.pConstraintDebugCanvas k }
  | .joint k =>
      { st with pConstraintJointDebugCanvas := Table.del st.pConstraintJointDebugCanvas k }

/-- Mutation of a property of the sprite object a table holds. -/
def modSprite (t : Target) (f : Sprite → Sprite) (st : State) : State :=
  match t with
  | .body k => { st with pDebugCanvas := Table.modify st.pDebugCanvas k f }
  | .anchor k =>
      { st with pConstraintDebugCanvas := Table.modify st.pConstraintDebugCanvas k f }
  | .joint k =>
      { st with
        pConstraintJointDebugCanvas := Table.modify st.pConstraintJointDebugCanvas k f }

/-- A method call on a sprite (or a scene call about it), appended to the log. -/
def emit (t : Target) (c : Call) (st : State) : State :=
  { st with log := st.log ++ [⟨t, c⟩] }

/-! ### Assignments to rendering properties -/

/-- Assignment `sprite.width = v`. -/
def setWidth (t : Target) (v : JsNum) (st : State) : State :=
  emit t (.setWidth v) (modSprite t (fun s => { s with width := v }) st)

/-- Assignment `sprite.height = v`. -/
def setHeight (t : Target) (v : JsNum) (st : State) : State :=
  emit t (.setHeight v) (modSprite t (fun s => { s with height := v }) st)

/-- Assignment `sprite.x = v`. -/
def setX (t : Target) (v : JsNum) (st : State) : State :=
  emit t (.setX v) (modSprite t (fun s => { s with x := v }) st)

/-- Assignment `sprite.y = v`. -/
def setY (t : Target) (v : JsNum) (st : State) : State :=
  emit t (.setY v) (modSprite t (fun s => { s with y := v }) st)

/-- Assignment `sprite.angle = v`. -/
def setAngle (t : Target) (v : JsNum) (st : State) : State :=
  emit t (.setAngle v) (modSprite t (fun s => { s with angle := v }) st)

/-- Assignment `sprite.z = v`. -/
def setZ (t : Target) (v : JsNum) (st : State) : State :=
  emit t (.setZ v) (modSprite t (fun s => { s with z := v }) st)

/-- Assignment `sprite.anchorPoint = v`. -/
def setAnchorPoint (t : Target) (v : Vec) (st : State) : State :=
  emit t (.setAnchorPoint v) (modSprite t (fun s => { s with anchorPoint := some v }) st)

/-- Assignment `sprite.center = v`. -/
def setCenter (t : Target) (v : Vec) (st : State) : State :=
  emit t (.setCenter v) (modSprite t (fun s => { s with center := some v }) st)

/-! ## Drawing (source lines 89-284) -/

/-- Source `drawBoundingBox(canvas)`. -/
def drawBoundingBox (o : Options) (t : Target) (st : State) : State :=
  if !o.BB then st
  else
    match getSprite st t with
    | none => st
    | some canvas =>
        emit t (.drawRect canvas._start_x canvas._start_y canvas._width canvas._height)
          (emit t (.setStrokeWidth o.stroke) st)

/-- Source `getShapeBounding(shape)`: `(width, height)`. -/
def getShapeBounding (o : Options) (shape : Shape) : JsNum × JsNum :=
  (Math.abs (shape.bb.r - shape.bb.l) + o.strokex2,
   Math.abs (shape.bb.t - shape.bb.b) + o.strokex2)

/-- Source `drawCircle(canvas)`. -/
def drawCircle (o : Options) (t : Target) (st : State) : State :=
  match getSprite st t with
  | none => st
  | some canvas =>
      emit t (.drawCircle canvas._local_center_x canvas._local_center_y (canvas._width / 2))
        (emit t (.setStrokeWidth o.stroke) st)

/-- Source `drawDot(canvas, x, y)`. -/
def drawDot (o : Options) (t : Target) (x y : JsNum) (st : State) : State :=
  match getSprite st t with
  | none => st
  | some canvas =>
      let w := o.dotsize * 4
      let w2 := w / 2
      emit t (.fillRect (canvas._local_center_x + x - w2) (canvas._local_center_y + y - w2) w w) st

/-- The vertex loop of `cpBodyEachShapeDrawCallback`.  `prev` is `none` at
`i = 0` and `some (lastVert, vertStart)` afterwards.  At `i = numVerts - 1 = 0`
with `Poly` set the source reads `vertStart.x` before `vertStart` is assigned,
which raises a `TypeError`. -/
def polyLoop (o : Options) (t : Target) (canvas : Sprite) :
    List Vec → Option (Vec × Vec) → State → Outcome
  | [], _, st => ⟨st, false⟩
  | vert :: rest, prev, st =>
      let point : Vec :=
        ⟨vert.x + canvas._local_center_x, canvas.height - (vert.y + canvas._local_center_y)⟩
      let st1 := if o.Vertex then drawDot o t vert.x (-vert.y) st else st
      let r : Outcome :=
        if o.Poly then
          let st2 :=
            match prev with
            | some (lastVert, _) => emit t (.drawLine lastVert.x lastVert.y point.x point.y) st1
            | none => st1
          if rest.isEmpty then
            match prev with
            | some (_, vertStart) =>
                ⟨emit t (.drawLine point.x point.y vertStart.x vertStart.y) st2, false⟩
            | none => ⟨st2, true⟩
          else ⟨st2, false⟩
        else ⟨st1, false⟩
      r.andThen fun st3 =>
        polyLoop o t canvas rest
          (some (point, match prev with
                        | some (_, vertStart) => vertStart
                        | none => point)) st3

/-- Source `cpBodyEachShapeDrawCallback(body, shape, data)`. -/
def cpBodyEachShapeDrawCallback (o : Options) (body : Ptr) (st : State) (shape : Shape) :
    Outcome :=
  match getSprite st (.body body) with
  | none => ⟨st, false⟩
  | some canvas =>
      if o.Circle && shape.shapeType = .circle then
        ⟨drawCircle o (.body body) st, false⟩
      else if (o.Poly || o.Vertex) && shape.shapeType = .poly then
        polyLoop o (.body body) canvas shape.verts none st
      else ⟨st, false⟩

/-- Source `getJointFromConstraint(constraint)`. -/
def getJointFromConstraint (constraint : Constraint) : Joint :=
  match constraint.kind with
  | .pinJoint => constraint.joint
  | .slideJoint => constraint.joint
  | .pivotJoint => constraint.joint
  | .grooveJoint => constraint.joint
  | .dampedSpring => constraint.joint
  | .dampedRotarySpring => constraint.joint
  | .rotaryLimitJoint => constraint.joint
  | .ratchetJoint => constraint.joint
  | .gearJoint => constraint.joint
  | .simpleMotor => constraint.joint
  | .other => { anchr1 := none, anchr2 := none }

/-- The body of `if (!empty(joint_canvas) && ...)` in
`cpBodyEachConstraintDrawCallback` (source lines 213-242). -/
def connectBodies (m : MathLib) (w : World) (constraint : Constraint) (cptr : Ptr)
    (anchr1 anchr2 : Vec) (st : State) : State :=
  let posA := w.pos constraint.a
  let posB := w.pos constraint.b
  let rad := w.angle constraint.a
  let c := m.cos rad
  let s := m.sin rad
  let posAx := posA.x + (anchr1.x * c - anchr1.y * s)
  let posAy := posA.y + (anchr1.x * s + anchr1.y * c)
  let rad := w.angle constraint.b
  let c := m.cos rad
  let s := m.sin rad
  let posBx := posB.x + (anchr2.x * c - anchr2.y * s)
  let posBy := posB.y + (anchr2.x * s + anchr2.y * c)
  let posAy := cpY w.screenHeight posAy
  let posBy := cpY w.screenHeight posBy
  let distx := posBx - posAx
  let disty := posBy - posAy
  let distance := m.sqrt (distx * distx + disty * disty)
  let angle := cpAngle m.PI (m.atan2 disty distx)
  let angle := angle - (angle * 2)
  setAngle (.joint cptr) angle
    (setY (.joint cptr) posAy
      (setX (.joint cptr) posAx
        (setWidth (.joint cptr) distance st)))

/-- Source lines 191-197: the anchor sprite takes over position and angle of
the body sprite, when there is one. -/
def followParent (body : Ptr) (st : State) : State :=
  match getSprite st (.body body) with
  | none => st
  | some parent =>
      setAngle (.anchor body) parent.angle
        (setAnchorPoint (.anchor body) ⟨.fin (1 / 2), .fin (1 / 2)⟩
          (setY (.anchor body) parent.y
            (setX (.anchor body) parent.x st)))

/-- Statement `if (!empty(anchr) && end.equals(body)) drawDot(canvas, anchr.x, -anchr.y)`
for one end (`constraint.a` with `anchr1`, `constraint.b` with `anchr2`). -/
def anchorDot (o : Options) (body : Ptr) (anchr : Option Vec) (owner : Ptr) (st : State) :
    State :=
  match anchr with
  | some p => if owner = body then drawDot o (.anchor body) p.x (-p.y) st else st
  | none => st

/-- Whether that statement sets `dirty`. -/
def anchorDirty (body : Ptr) (anchr : Option Vec) (owner : Ptr) : Bool :=
  anchr.isSome && decide (owner = body)

/-- Source lines 190-209: the block `if (!empty(canvas)) ...` of
`cpBodyEachConstraintDrawCallback`. -/
def drawAnchors (o : Options) (body : Ptr) (constraint : Constraint) (joint : Joint)
    (st : State) : State :=
  match getSprite st (.anchor body) with
  | none => st
  | some _ =>
      let sc :=
        anchorDot o body joint.anchr2 constraint.b
          (anchorDot o body joint.anchr1 constraint.a (followParent body st))
      if anchorDirty body joint.anchr1 constraint.a || anchorDirty body joint.anchr2 constraint.b
      then emit (.anchor body) .reload sc
      else sc

/-- Source `cpBodyEachConstraintDrawCallback(body, constraint, data)`; the constraint
is given by its pointer. -/
def cpBodyEachConstraintDrawCallback (o : Options) (m : MathLib) (w : World) (body : Ptr)
    (st : State) (cptr : Ptr) : State :=
  let constraint := w.constraint cptr
  let joint_canvas := getSprite st (.joint cptr)
  let joint := getJointFromConstraint constraint
  let st1 := drawAnchors o body constraint joint st
  match joint_canvas, joint.anchr1, joint.anchr2 with
  | some _, some anchr1, some anchr2 =>
      if constraint.b = body then connectBodies m w constraint cptr anchr1 anchr2 st1
      else st1
  | _, _, _ => st1

/-- Call `chipmunk.cpBodyEachShape(body, cpBodyEachShapeDrawCallback, ...)`. -/
def eachShapeDraw (o : Options) (w : World) (body : Ptr) (st : State) : Outcome :=
  (w.shapes body).foldl
    (fun r shape => r.andThen fun s => cpBodyEachShapeDrawCallback o body s shape) ⟨st, false⟩

/-- Call `chipmunk.cpBodyEachConstraint(body, cpBodyEachConstraintDrawCallback, ...)`. -/
def eachConstraintDraw (o : Options) (m : MathLib) (w : World) (body : Ptr) (st : State) :
    State :=
  (w.constraints body).foldl (cpBodyEachConstraintDrawCallback o m w body) st

/-- Source lines 259-269: colour and transform of the body sprite. -/
def refreshTransform (o : Options) (m : MathLib) (w : World) (body : Ptr) (sleeping : Bool)
    (st : State) : State :=
  let t := Target.body body
  let pos : Vec := ⟨(w.pos body).x, cpY w.screenHeight (w.pos body).y⟩
  let angle := cpAngle m.PI (w.angle body)
  if !sleeping then
    setAngle t angle
      (setCenter t ⟨pos.x, pos.y⟩
        (setAnchorPoint t ⟨.fin (1 / 2), .fin (1 / 2)⟩
          (emit t (.color o.red o.green o.blue) st)))
  else emit t (.color 1 1 1) st

/-- Source lines 271-277: the block `if (reload) ...` of `drawBody`. -/
def reloadGeometry (o : Options) (w : World) (body : Ptr) (st : State) : Outcome :=
  let sb := drawBoundingBox o (.body body) st
  let rs : Outcome :=
    if o.Circle || o.Poly || o.Vertex then eachShapeDraw o w body sb else ⟨sb, false⟩
  rs.andThen fun s => ⟨emit (.body body) .reload s, false⟩

/-- Source lines 279-283: constraint drawing and `canvas.sleeping = sleeping`. -/
def finishDraw (o : Options) (m : MathLib) (w : World) (body : Ptr) (sleeping : Bool)
    (st : State) : State :=
  let s3 := if o.Constraint then eachConstraintDraw o m w body st else st
  modSprite (.body body) (fun c => { c with sleeping := some sleeping }) s3

/-- The part of `drawBody` after the sleep test (source lines 259-283), with
`reload` already decided. -/
def drawBodyCore (o : Options) (m : MathLib) (w : World) (body : Ptr) (sleeping reload : Bool)
    (st : State) : Outcome :=
  let st1 := refreshTransform o m w body sleeping st
  let r2 : Outcome := if reload then reloadGeometry o w body st1 else ⟨st1, false⟩
  r2.andThen fun s2 => ⟨finishDraw o m w body sleeping s2, false⟩

/-- Source `drawBody(body, reload)`. -/
def drawBody (o : Options) (m : MathLib) (w : World) (reload : Bool) (st : State)
    (body : Ptr) : Outcome :=
  match getSprite st (.body body) with
  | none => ⟨st, false⟩
  | some canvas =>
      let sleeping := w.sleeping body
      if st.forceReloadAll then drawBodyCore o m w body sleeping true st
      else if sleeping && (canvas.sleeping == some true) then ⟨st, false⟩
      else if canvas.sleeping != some sleeping then drawBodyCore o m w body sleeping true st
      else drawBodyCore o m w body sleeping reload st

/-! ## Registration (source lines 286-399) -/

/-- Source `updateCanvasMetaInfo(canvas, shapeType)`. -/
def updateCanvasMetaInfo (o : Options) (t : Target) (shapeType : ShapeType) (st : State) :
    State :=
  let st1 :=
    if shapeType = .poly then
      match getSprite st t with
      | none => st
      | some canvas =>
          setHeight t (Math.abs (canvas.v_ymax - canvas.v_ymin) + o.strokex2)
            (setWidth t (Math.abs (canvas.v_xmax - canvas.v_xmin) + o.strokex2) st)
    else st
  modSprite t
    (fun canvas =>
      let c1 := { canvas with _start_x := o.stroke, _start_y := o.stroke }
      let c2 := { c1 with _width := c1.width - o.strokex2, _height := c1.height - o.strokex2 }
      let c3 := { c2 with _local_center_x := c2.width / 2, _local_center_y := c2.height / 2 }
      { c3 with _halfw := c3._width / 2, _halfh := c3._height / 2 })
    st1

/-- Source `copyCanvasProperty(from_canvas, to_canvas)`. -/
def copyCanvasProperty (from_canvas : Sprite) (to_canvas : Target) (st : State) : State :=
  modSprite to_canvas
    (fun c =>
      { c with
        _start_x := from_canvas._start_x, _start_y := from_canvas._start_y,
        _width := from_canvas._width, _height := from_canvas._height,
        _local_center_x := from_canvas._local_center_x,
        _local_center_y := from_canvas._local_center_y,
        _halfw := from_canvas._halfw, _halfh := from_canvas._halfh })
    (setHeight to_canvas from_canvas.height (setWidth to_canvas from_canvas.width st))

/-- Source lines 318-329: the body sprite is created for the first shape. -/
def createBodySprite (o : Options) (body : Ptr) (shape : Shape) (st : State) : State :=
  let t := Target.body body
  match getSprite st t with
  | some _ => st
  | none =>
      let size := getShapeBounding o shape
      let sa := putSprite t (Sprite.blank size.1 size.2)
        (emit t (.createCanvasSprite size.1 size.2) st)
      let sb := setZ t o.z sa
      let sc :=
        modSprite t
          (fun c => { c with v_xmin := .pinf, v_xmax := .ninf, v_ymin := .pinf, v_ymax := .ninf })
          sb
      emit t .sceneAdd sc

/-- One round of the loop of source lines 334-340. -/
def growExtents (vert : Vec) (c : Sprite) : Sprite :=
  { c with
    v_xmin := Math.min c.v_xmin vert.x, v_xmax := Math.max c.v_xmax vert.x,
    v_ymin := Math.min c.v_ymin vert.y, v_ymax := Math.max c.v_ymax vert.y }

/-- Source lines 331-341: the vertex extents of a polygon are accumulated. -/
def accumulateVerts (body : Ptr) (shape : Shape) (st : State) : State :=
  if shape.shapeType = .poly then
    shape.verts.foldl (fun s vert => modSprite (.body body) (growExtents vert) s) st
  else st

/-- Source `cpBodyEachShapeInitCallback(body, shape, data)`. -/
def cpBodyEachShapeInitCallback (o : Options) (body : Ptr) (st : State) (shape : Shape) :
    State :=
  updateCanvasMetaInfo o (.body body) shape.shapeType
    (accumulateVerts body shape (createBodySprite o body shape st))

/-- Source lines 355-367: the anchor sprite of the body is created once. -/
def createAnchorSprite (o : Options) (body : Ptr) (st : State) : State :=
  let t := Target.anchor body
  match getSprite st t with
  | some _ => st
  | none =>
      let sa := putSprite t (Sprite.blank o.dotsize o.dotsize)
        (emit t (.createCanvasSprite o.dotsize o.dotsize) st)
      let sb := setZ t o.z (emit t (.color o.red o.green o.blue) sa)
      let sc :=
        match getSprite sb (.body body) with
        | some parent => copyCanvasProperty parent t sb
        | none => sb
      emit t .sceneAdd sc

/-- Source lines 370-377: the connection sprite of the constraint is created;
the four statements in between address the anchor sprite `canvas`. -/
def createConnectionSprite (o : Options) (w : World) (body cptr : Ptr) (st : State) : State :=
  let t := Target.anchor body
  let pos : Vec := ⟨(w.pos body).x, cpY w.screenHeight (w.pos body).y⟩
  let sa := emit (.joint cptr) (.createSprite o.dotsize o.dotsize) st
  let sb :=
    setZ t o.z
      (emit t (.color o.red o.green o.blue)
        (setCenter t ⟨pos.x, pos.y⟩
          (setAnchorPoint t ⟨.fin (1 / 2), .fin (1 / 2)⟩ sa)))
  emit (.joint cptr) .sceneAdd (putSprite (.joint cptr) (Sprite.blank o.dotsize o.dotsize) sb)

/-- Source `cpBodyEachConstraintInitCallback(body, constraint, data)`; the constraint
is given by its pointer. -/
def cpBodyEachConstraintInitCallback (o : Options) (w : World) (body : Ptr) (st : State)
    (cptr : Ptr) : State :=
  let constraint_canvas := getSprite st (.joint cptr)
  let st1 := createAnchorSprite o body st
  if constraint_canvas.isNone && o.ConstraintConnection then
    createConnectionSprite o w body cptr st1
  else st1

/-- Source `initDebugCanvas(body)`. -/
def initDebugCanvas (o : Options) (w : World) (body : Ptr) (st : State) : State :=
  let st1 := (w.shapes body).foldl (cpBodyEachShapeInitCallback o body) st
  if o.Constraint then (w.constraints body).foldl (cpBodyEachConstraintInitCallback o w body) st1
  else st1

/-! ## Public methods (source lines 395-524).  A body argument is `none` for
`null`/`undefined`. -/

/-- Source `addBody(body)`. -/
def addBody (o : Options) (w : World) (body : Option Ptr) (st : State) : State :=
  match body with
  | none => st
  | some b => initDebugCanvas o w b { st with pBodies := addKey st.pBodies b }

/-- Source `addBodies(bodies)`. -/
def addBodies (o : Options) (w : World) (bodies : List (Option Ptr)) (st : State) : State :=
  bodies.foldl (fun s b => addBody o w b s) st

/-- The callback `showBody` passes to `cpBodyEachConstraint`. -/
def showConstraint (key : Ptr) (st : State) (ckey : Ptr) : State :=
  let st1 :=
    match getSprite st (.anchor key) with
    | some _ => emit (.anchor key) .show st
    | none => st
  match getSprite st1 (.joint ckey) with
  | some _ => emit (.joint ckey) .show st1
  | none => st1

/-- Source `showBody(body)`. -/
def showBody (w : World) (body : Option Ptr) (st : State) : State :=
  match body with
  | none => st
  | some key =>
      let st1 :=
        match getSprite st (.body key) with
        | some _ => emit (.body key) .show st
        | none => st
      (w.constraints key).foldl (showConstraint key) st1

/-- The callback `hideBody` passes to `cpBodyEachConstraint`. -/
def hideConstraint (key : Ptr) (st : State) (ckey : Ptr) : State :=
  let st1 :=
    match getSprite st (.anchor key) with
    | some _ => emit (.anchor key) .hide st
    | none => st
  match getSprite st1 (.joint ckey) with
  | some _ => emit (.joint ckey) .hide st1
  | none => st1

/-- Source `hideBody(body)`. -/
def hideBody (w : World) (body : Option Ptr) (st : State) : State :=
  match body with
  | none => st
  | some key =>
      let st1 :=
        match getSprite st (.body key) with
        | some _ => emit (.body key) .hide st
        | none => st
      (w.constraints key).foldl (hideConstraint key) st1

/-- Statements `scene.remove(s); s.dispose(); delete table[key]`, run when the
entry exists. -/
def removeSprite (t : Target) (st : State) : State :=
  match getSprite st t with
  | some _ => delSprite t (emit t .dispose (emit t .sceneRemove st))
  | none => st

/-- The callback `removeBody` passes to `cpBodyEachConstraint`. -/
def removeConstraint (key : Ptr) (st : State) (ckey : Ptr) : State :=
  removeSprite (.joint ckey) (removeSprite (.anchor key) st)

/-- Source `removeBody(body)`. -/
def removeBody (w : World) (body : Option Ptr) (st : State) : State :=
  match body with
  | none => st
  | some key =>
      let st1 := removeSprite (.body key) { st with pBodies := st.pBodies.filter (fun k => k != key) }
      (w.constraints key).foldl (removeConstraint key) st1

/-- Source `showAll()`. -/
def showAll (w : World) (st : State) : State :=
  { st.pBodies.foldl (fun s key => showBody w (some key) s) st with forceReloadAll := true }

/-- Source `hideAll()`. -/
def hideAll (w : World) (st : State) : State :=
  st.pBodies.foldl (fun s key => hideBody w (some key) s) st

/-- Source `removeBodies(bodies)`. -/
def removeBodies (w : World) (bodies : List (Option Ptr)) (st : State) : State :=
  bodies.foldl (fun s b => removeBody w b s) st

/-- The loop `for (var key in pBodies) drawBody(pBodies[key], reload)` over
the keys `keys`. -/
def drawAll (o : Options) (m : MathLib) (w : World) (reload : Bool) (keys : List Ptr)
    (r : Outcome) : Outcome :=
  keys.foldl (fun (r : Outcome) key => r.andThen fun s => drawBody o m w reload s key) r

/-- Source `update(reload)`. -/
def update (o : Options) (m : MathLib) (w : World) (reload : Bool) (st : State) : Outcome :=
  (drawAll o m w reload st.pBodies ⟨st, false⟩).andThen
    fun s => ⟨if s.forceReloadAll then { s with forceReloadAll := false } else s, false⟩

/-! ## Host traces -/

/-- One call of a public method by the host. -/
inductive Op where
  | addBody (body : Option Ptr)
  | addBodies (bodies : List (Option Ptr))
  | showBody (body : Option Ptr)
  | hideBody (body : Option Ptr)
  | removeBody (body : Option Ptr)
  | showAll
  | hideAll
  | removeBodies (bodies : List (Option Ptr))
  | update (reload : Bool)

/-- The state a public method call leaves behind (for `update`, also when it
ended in a `TypeError`). -/
def step (o : Options) (m : MathLib) (w : World) (op : Op) (st : State) : State :=
  match op with
  | .addBody body => addBody o w body st
  | .addBodies bodies => addBodies o w bodies st
  | .showBody body => showBody w body st
  | .hideBody body => hideBody w body st
  | .removeBody body => removeBody w body st
  | .showAll => showAll w st
  | .hideAll => hideAll w st
  | .removeBodies bodies => removeBodies w bodies st
  | .update reload => (update o m w reload st).st

/-- A sequence of public method calls, each with the engine snapshot it sees. -/
def run (o : Options) (m : MathLib) (trace : List (World × Op)) (st : State) : State :=
  trace.foldl (fun s x => step o m x.1 x.2 s) st

/-- Whether a call asks for the removal of body `B`. -/
def Op.removes (B : Ptr) : Op → Bool
  | .removeBody body => body == some B
  | .removeBodies bodies => bodies.contains (some B)
  | _ => false

/-! ## Counting and footprints -/

/-- Number of entries a table holds under `key`. -/
def keyCount {α : Type} (t : List (Ptr × α)) (k : Ptr) : Nat :=
  t.countP (fun e => e.1 == k)

/-- Number of sprites the matching table holds for a target. -/
def spriteCount (st : State) : Target → Nat
  | .body k => keyCount st.pDebugCanvas k
  | .anchor k => keyCount st.pConstraintDebugCanvas k
  | .joint k => keyCount st.pConstraintJointDebugCanvas k

/-- The elementary state changes every method is composed of. -/
inductive Prim where
  | emit (t : Target) (c : Call)
  | mod (t : Target) (f : Sprite → Sprite)
  | put (t : Target) (s : Sprite)
  | del (t : Target)
  | bodies (l : List Ptr)
  | force (b : Bool)

/-- Effect of an elementary state change. -/
def Prim.apply : Prim → State → State
  | .emit t c, st => DebugDraw.emit t c st
  | .mod t f, st => modSprite t f st
  | .put t s, st => putSprite t s st
  | .del t, st => delSprite t st
  | .bodies l, st => { st with pBodies := l }
  | .force b, st => { st with forceReloadAll := b }

/-- Which elementary state changes a piece of code may perform. -/
structure Footprint where
  emit : Target → Call → Prop
  mod : Target → Prop
  put : Target → Prop
  del : Target → Prop
  bodies : Prop
  force : Prop

/-- Whether a footprint admits an elementary state change. -/
def Footprint.allows (F : Footprint) : Prim → Prop
  | .emit t c => F.emit t c
  | .mod t _ => F.mod t
  | .put t _ => F.put t
  | .del t => F.del t
  | .bodies _ => F.bodies
  | .force _ => F.force

/-- Relation `Reach F st st1`: `st1` results from `st` by elementary state changes that
`F` admits. -/
inductive Reach (F : Footprint) (st : State) : State → Prop where
  | refl : Reach F st st
  | step {st1 : State} (p : Prim) : Reach F st st1 → F.allows p → Reach F st (p.apply st1)

/-- Footprint of code that only draws on, or assigns properties of, the
sprites selected by `S`. -/
def touching (S : Target → Prop) : Footprint :=
  { emit := fun t _ => S t, mod := S, put := fun _ => False, del := fun _ => False,
    bodies := False, force := False }

/-- Calls a shape drawing callback issues. -/
def Call.isShapeDraw : Call → Bool
  | .setStrokeWidth _ => true
  | .drawCircle _ _ _ => true
  | .fillRect _ _ _ _ => true
  | .drawLine _ _ _ _ => true
  | _ => false

/-- Whether a call is `drawRect`. -/
def Call.isDrawRect : Call → Bool
  | .drawRect _ _ _ _ => true
  | _ => false

/-- Footprint of the circle, dot and polygon drawing routines on sprite `t`. -/
def shapeDrawing (t : Target) : Footprint :=
  { emit := fun u c => u = t ∧ c.isShapeDraw = true, mod := fun _ => False,
    put := fun _ => False, del := fun _ => False, bodies := False, force := False }

/-- Sprites the constraint drawing callback of body `b` may touch: the anchor
sprite of `b` and the connection sprites of constraints whose body `b` is `b`. -/
def constraintTargets (w : World) (b : Ptr) (t : Target) : Prop :=
  t = .anchor b ∨ ∃ c, t = .joint c ∧ (w.constraint c).b = b

/-- Sprites `drawBody(b)` may touch. -/
def drawTargets (w : World) (b : Ptr) (t : Target) : Prop :=
  t = .body b ∨ constraintTargets w b t

/-- Sprites a per-body method may reach: the body sprite and the anchor sprite
of `b`, and connection sprites. -/
def bodyScope (b : Ptr) (t : Target) : Prop :=
  t = .body b ∨ t = .anchor b ∨ ∃ c, t = .joint c

/-- Footprint of registration code: creates, draws on and assigns properties
of the sprites selected by `S`. -/
def creating (S : Target → Prop) : Footprint :=
  { emit := fun t _ => S t, mod := S, put := S, del := fun _ => False,
    bodies := False, force := False }

/-- Footprint of removal code: issues calls on and deletes the sprites
selected by `S`, and may delete a key of `pBodies`. -/
def removingOf (S : Target → Prop) : Footprint :=
  { emit := fun t _ => S t, mod := fun _ => False, put := fun _ => False, del := S,
    bodies := True, force := False }

/-- Footprint of anything but the deletion of a sprite selected by `S`. -/
def keeping (S : Target → Prop) : Footprint :=
  { emit := fun _ _ => True, mod := fun _ => True, put := fun _ => True,
    del := fun t => ¬ S t, bodies := True, force := True }

/-! ## Vertex extents -/

/-- Least of `x` and the elements of `xs`. -/
def minOf (x : ℚ) (xs : List ℚ) : ℚ := xs.foldl min x

/-- Greatest of `x` and the elements of `xs`. -/
def maxOf (x : ℚ) (xs : List ℚ) : ℚ := xs.foldl max x

/-- A polygon vertex with finite coordinates. -/
def vert (p : ℚ × ℚ) : Vec := ⟨.fin p.1, .fin p.2⟩

/-- Every sprite except those `drawBody(B)` may touch: the body sprite and the
anchor sprite of `B`, and the connection sprites of constraints whose body `b`
is `B`. -/
def apartFrom (w : World) (B : Ptr) (t : Target) : Prop :=
  t ≠ .body B ∧ t ≠ .anchor B ∧ ∀ c, t = .joint c → (w.constraint c).b ≠ B

/-- The event `canvas.reload()` on the body sprite of `B`. -/
def isBodyReload (B : Ptr) (e : Event) : Bool :=
  decide (e.target = .body B) && decide (e.call = .reload)

/-- An event `canvas.drawRect(..)` on the body sprite of `B`. -/
def isBodyDrawRect (B : Ptr) (e : Event) : Bool :=
  decide (e.target = .body B) && e.call.isDrawRect

/-! ## Connection geometry in the words of the specification -/

/-- Render-space position of a constraint anchor: the body position plus the
anchor rotated by the body angle, with `y` converted by `cpY`. -/
def anchorRenderPos (m : MathLib) (w : World) (body : Ptr) (anchr : Vec) : Vec :=
  let c := m.cos (w.angle body)
  let s := m.sin (w.angle body)
  ⟨(w.pos body).x + (anchr.x * c - anchr.y * s),
   cpY w.screenHeight ((w.pos body).y + (anchr.x * s + anchr.y * c))⟩

/-- Euclidean distance of two render-space points. -/
def renderDistance (m : MathLib) (p q : Vec) : JsNum :=
  m.sqrt ((q.x - p.x) * (q.x - p.x) + (q.y - p.y) * (q.y - p.y))

/-- The angle the source assigns to a connection sprite: `cpAngle` of the
`atan2` angle from `p` to `q`, negated by `angle - angle * 2`. -/
def renderAngle (m : MathLib) (p q : Vec) : JsNum :=
  let angle := cpAngle m.PI (m.atan2 (q.y - p.y) (q.x - p.x))
  angle - (angle * 2)

/-- A connection sprite placed between the two anchors of constraint `cptr`. -/
def Placed (m : MathLib) (w : World) (cptr : Ptr) (anchr1 anchr2 : Vec) (st : State) : Prop :=
  ∃ j, getSprite st (.joint cptr) = some j ∧
    j.x = (anchorRenderPos m w (w.constraint cptr).a anchr1).x ∧
    j.y = (anchorRenderPos m w (w.constraint cptr).a anchr1).y ∧
    j.width = renderDistance m (anchorRenderPos m w (w.constraint cptr).a anchr1)
      (anchorRenderPos m w (w.constraint cptr).b anchr2) ∧
    j.angle = renderAngle m (anchorRenderPos m w (w.constraint cptr).a anchr1)
      (anchorRenderPos m w (w.constraint cptr).b anchr2)

/-- The cached vertex extents of a sprite lie within `[xmin, xmax] x [ymin, ymax]`
(a fresh sprite has `Infinity`, `-Infinity`, `Infinity`, `-Infinity`). -/
def extentsWithin (xmin xmax ymin ymax : ℚ) (s : Sprite) : Prop :=
  JsNum.le (.fin xmin) s.v_xmin = true ∧ JsNum.le s.v_xmax (.fin xmax) = true ∧
  JsNum.le (.fin ymin) s.v_ymin = true ∧ JsNum.le s.v_ymax (.fin ymax) = true

/-! ## Example inputs -/

/-- The square of the specification: `(0,0), (10,0), (10,10), (0,10)`. -/
def exSquare : Shape :=
  { shapeType := .poly, bb := ⟨0, 0, 10, 10⟩,
    verts := [vert (0, 0), vert (10, 0), vert (10, 10), vert (0, 10)] }

/-- A larger square, `(-5,-5), (5,-5), (5,5), (-5,5)`. -/
def exWideSquare : Shape :=
  { shapeType := .poly, bb := ⟨-5, -5, 5, 5⟩,
    verts := [vert (-5, -5), vert (5, -5), vert (5, 5), vert (-5, 5)] }

/-- A pin joint from body `a` to body `b` with both anchors at the body origin. -/
def exPin (a b : Ptr) : Constraint :=
  { a := a, b := b, kind := .pinJoint, joint := ⟨some (vert (0, 0)), some (vert (0, 0))⟩ }

/-- Bodies 1 and 2 carry the square and are linked by constraint 7; constraint 8
links body 1 to body 4; bodies 3 and 4 have no shape, body 3 no constraint.  All
bodies are awake, unrotated, body 1 at `(5, 5)` and the others at `(20, 5)`. -/
def exWorld : World :=
  { screenHeight := 100,
    shapes := fun b => if b = 1 ∨ b = 2 then [exSquare] else [],
    constraints := fun b =>
      if b = 1 then [7, 8] else if b = 2 then [7] else if b = 4 then [8] else [],
    constraint := fun c => if c = 8 then exPin 1 4 else exPin 1 2,
    sleeping := fun _ => false,
    pos := fun b => if b = 1 then vert (5, 5) else vert (20, 5),
    angle := fun _ => 0 }

/-- The same engine after every constraint was taken out of the space. -/
def exWorldUnlinked : World :=
  { exWorld with constraints := fun _ => [] }

/-- The same engine with every body asleep. -/
def exWorldAsleep : World :=
  { exWorld with sleeping := fun _ => true }

/-- Every body asleep, and body 1 moved to `(9, 5)`. -/
def exWorldAsleepMoved : World :=
  { exWorldAsleep with pos := fun b => if b = 1 then vert (9, 5) else vert (20, 5) }

/-- Body 1 carries the larger square. -/
def exWorldWide : World :=
  { exWorld with shapes := fun b => if b = 1 then [exWideSquare] else [] }

/-- Default options with constraint anchors and connections switched on. -/
def exOptions : Options :=
  { defaultOptions with Constraint := true, ConstraintConnection := true }

/-- Default options with the bounding box switched off. -/
def exOptionsNoBB : Options :=
  { defaultOptions with BB := false }

/-- A `Math` table that is exact at the arguments of the examples
(`cos 0 = 1`, `sin 0 = 0`, `sqrt 225 = 15`, `atan2(0, 15) = 0`); `PI` is the
approximation `355/113`. -/
def exMath : MathLib :=
  { cos := fun _ => 1, sin := fun _ => 0,
    sqrt := fun x => if x = 225 then 15 else x,
    atan2 := fun _ _ => 0, PI := .fin (355 / 113) }

/-- A polygon with the single vertex `(0, 0)`. -/
def exDot : Shape :=
  { shapeType := .poly, bb := ⟨0, 0, 0, 0⟩, verts := [vert (0, 0)] }

/-- Default options with polygon outlines switched on. -/
def exOptionsPoly : Options :=
  { defaultOptions with Poly := true }

/-- An engine in which body 1 carries the one-vertex polygon, has no constraint
and is asleep. -/
def exWorldDot : World :=
  { screenHeight := 100,
    shapes := fun b => if b = 1 then [exDot] else [],
    constraints := fun _ => [],
    constraint := fun _ => exPin 1 2,
    sleeping := fun _ => true,
    pos := fun _ => vert (5, 5),
    angle := fun _ => 0 }

/-- Body 1 with the one-vertex polygon, registered with polygon outlines on. -/
def exDotRegistered : State :=
  addBody exOptionsPoly exWorldDot (some 1) State.init

/-- The state the first `update` leaves behind for that body. -/
def exDotThrown : State :=
  (update exOptionsPoly exMath exWorldDot false exDotRegistered).st

/-- Bodies 1 and 2 registered, with anchors and connections. -/
def exRegistered : State :=
  addBody exOptions exWorld (some 2) (addBody exOptions exWorld (some 1) State.init)

/-- The state after a first `update` that saw every body asleep. -/
def exAsleep : State :=
  (update exOptions exMath exWorldAsleep false exRegistered).st

/-- The state after a first `update` that saw every body awake. -/
def exAwake : State :=
  (update exOptions exMath exWorld false exRegistered).st

/-- Body 1 registered without bounding box, and updated once while awake. -/
def exAwakeNoBB : State :=
  (update exOptionsNoBB exMath exWorld false
    (addBody exOptionsNoBB exWorld (some 1) State.init)).st


/-! ## Tables: basic facts -/

theorem Table.get_set {α : Type} (t : List (Ptr × α)) (k j : Ptr) (v : α) :
    Table.get (Table.set t k v) j = if j = k then some v else Table.get t j := by
  induction t with
  | nil =>
      by_cases h : j = k
      · simp [Table.set, Table.get, h]
      · have h2 : ¬ k = j := fun e => h e.symm
        simp [Table.set, Table.get, h, h2]
  | cons e t ih =>
      by_cases h1 : e.1 = k
      · by_cases h : j = k
        · simp [Table.set, Table.get, h1, h]
        · have h2 : ¬ k = j := fun e => h e.symm
          simp [Table.set, Table.get, h1, h, h2]
      · by_cases h : j = k
        · subst h
          simp [Table.set, Table.get, h1, ih]
        · by_cases h3 : e.1 = j
          · simp [Table.set, Table.get, h1, h, h3]
          · simp [Table.set, Table.get, h1, h, h3, ih]

theorem Table.get_modify {α : Type} (t : List (Ptr × α)) (k j : Ptr) (f : α → α) :
    Table.get (Table.modify t k f) j = if j = k then (Table.get t k).map f else Table.get t j := by
  induction t with
  | nil => simp [Table.modify, Table.get]
  | cons e t ih =>
      have ih2 : Table.get (List.map (fun e => if e.1 = k then (e.1, f e.2) else e) t) j =
          if j = k then (Table.get t k).map f else Table.get t j := ih
      by_cases h1 : e.1 = k
      · by_cases h : j = k
        · subst h
          simp [Table.modify, Table.get, h1]
        · have h2 : ¬ k = j := fun e => h e.symm
          have h3 : ¬ e.1 = j := fun e2 => h (e2.symm.trans h1)
          simp [Table.modify, Table.get, h1, h, h2, h3, ih2]
      · by_cases h : j = k
        · subst h
          simp [Table.modify, Table.get, h1, ih2]
        · by_cases h3 : e.1 = j
          · simp [Table.modify, Table.get, h1, h, h3]
          · simp [Table.modify, Table.get, h1, h, h3, ih2]

theorem Table.get_del {α : Type} (t : List (Ptr × α)) (k j : Ptr) :
    Table.get (Table.del t k) j = if j = k then none else Table.get t j := by
  induction t with
  | nil => simp [Table.del, Table.get]
  | cons e t ih =>
      have ih2 : Table.get (List.filter (fun e => e.1 != k) t) j =
          if j = k then none else Table.get t j := ih
      by_cases h1 : e.1 = k
      · have hb : (e.1 != k) = false := by simp [h1]
        by_cases h : j = k
        · subst h
          simp [Table.del, List.filter_cons, hb, ih2]
        · simp only [Table.del, List.filter_cons, hb, ih2, h, if_false, Table.get]
          have h3 : ¬ e.1 = j := fun e2 => h (e2.symm.trans h1)
          simp [h3, ih2, h]
      · have hb : (e.1 != k) = true := by simp [h1]
        by_cases h : j = k
        · subst h
          simp [Table.del, List.filter_cons, hb, Table.get, h1, ih2]
        · by_cases h3 : e.1 = j
          · simp [Table.del, List.filter_cons, hb, Table.get, h, h3]
          · simp [Table.del, List.filter_cons, hb, Table.get, h, h3, ih2]

theorem Table.del_of_get_none {α : Type} (t : List (Ptr × α)) (k : Ptr)
    (h : Table.get t k = none) : Table.del t k = t := by
  induction t with
  | nil => rfl
  | cons e t ih =>
      by_cases h1 : e.1 = k
      · simp [Table.get, h1] at h
      · simp only [Table.get, h1, if_false] at h
        have := ih h
        have hb : (e.1 != k) = true := by simp [h1]
        simp only [Table.del] at this ⊢
        simp [List.filter_cons, hb, this]

theorem keyCount_set {α : Type} (t : List (Ptr × α)) (k j : Ptr) (v : α) :
    keyCount (Table.set t k v) j = if j = k then max 1 (keyCount t k) else keyCount t j := by
  induction t with
  | nil =>
      by_cases h : j = k
      · simp [Table.set, keyCount, h]
      · have h2 : ¬ k = j := fun e => h e.symm
        simp [Table.set, keyCount, h, h2]
  | cons e t ih =>
      simp only [keyCount] at ih
      by_cases h1 : e.1 = k
      · by_cases h : j = k
        · subst h
          simp [Table.set, keyCount, h1, List.countP_cons]
        · have h2 : ¬ k = j := fun e => h e.symm
          have h3 : ¬ e.1 = j := fun e2 => h (e2.symm.trans h1)
          simp [Table.set, keyCount, h1, h, h2, h3, List.countP_cons]
      · by_cases h : j = k
        · subst h
          simp [Table.set, keyCount, h1, List.countP_cons, ih]
        · simp [Table.set, keyCount, h1, List.countP_cons, ih, h]

theorem keyCount_modify {α : Type} (t : List (Ptr × α)) (k j : Ptr) (f : α → α) :
    keyCount (Table.modify t k f) j = keyCount t j := by
  induction t with
  | nil => rfl
  | cons e t ih =>
      simp only [keyCount, Table.modify] at ih
      by_cases h1 : e.1 = k
      · simp [Table.modify, keyCount, h1, List.countP_cons, ih]
      · simp [Table.modify, keyCount, h1, List.countP_cons, ih]

theorem keyCount_del {α : Type} (t : List (Ptr × α)) (k j : Ptr) :
    keyCount (Table.del t k) j = if j = k then 0 else keyCount t j := by
  induction t with
  | nil => simp [Table.del, keyCount]
  | cons e t ih =>
      simp only [keyCount, Table.del] at ih
      by_cases h1 : e.1 = k
      · have hb : (e.1 != k) = false := by simp [h1]
        by_cases h : j = k
        · subst h
          simp only [Table.del, keyCount, List.filter_cons, hb, ih]
          simp
        · have h3 : ¬ e.1 = j := fun e2 => h (e2.symm.trans h1)
          simp only [Table.del, keyCount, List.filter_cons, hb, ih, h, if_false,
            List.countP_cons]
          simp [h3, ih, h]
      · have hb : (e.1 != k) = true := by simp [h1]
        by_cases h : j = k
        · subst h
          simp only [Table.del, keyCount, List.filter_cons, hb, if_true, List.countP_cons, ih]
          simp [h1]
        · simp only [Table.del, keyCount, List.filter_cons, hb, if_true, List.countP_cons, ih,
            h, if_false]

theorem keyCount_eq_zero {α : Type} (t : List (Ptr × α)) (k : Ptr) :
    keyCount t k = 0 ↔ Table.get t k = none := by
  induction t with
  | nil => simp [keyCount, Table.get]
  | cons e t ih =>
      simp only [keyCount] at ih
      by_cases h1 : e.1 = k
      · simp [keyCount, Table.get, h1, List.countP_cons]
      · simp [keyCount, Table.get, h1, List.countP_cons, ih]


/-! ## Elementary state changes: what they leave alone -/

theorem getSprite_emit (t : Target) (c : Call) (st : State) (u : Target) :
    getSprite (emit t c st) u = getSprite st u := by
  cases u <;> rfl

theorem getSprite_modSprite (t : Target) (f : Sprite → Sprite) (st : State) (u : Target) :
    getSprite (modSprite t f st) u = if u = t then (getSprite st t).map f else getSprite st u := by
  cases t <;> cases u <;> simp [getSprite, modSprite, Table.get_modify]

theorem getSprite_putSprite (t : Target) (s : Sprite) (st : State) (u : Target) :
    getSprite (putSprite t s st) u = if u = t then some s else getSprite st u := by
  cases t <;> cases u <;> simp [getSprite, putSprite, Table.get_set]

theorem getSprite_delSprite (t : Target) (st : State) (u : Target) :
    getSprite (delSprite t st) u = if u = t then none else getSprite st u := by
  cases t <;> cases u <;> simp [getSprite, delSprite, Table.get_del]

theorem spriteCount_emit (t : Target) (c : Call) (st : State) (u : Target) :
    spriteCount (emit t c st) u = spriteCount st u := by
  cases u <;> rfl

theorem spriteCount_modSprite (t : Target) (f : Sprite → Sprite) (st : State) (u : Target) :
    spriteCount (modSprite t f st) u = spriteCount st u := by
  cases t <;> cases u <;> simp [spriteCount, modSprite, keyCount_modify]

theorem spriteCount_putSprite (t : Target) (s : Sprite) (st : State) (u : Target) :
    spriteCount (putSprite t s st) u =
      if u = t then max 1 (spriteCount st t) else spriteCount st u := by
  cases t <;> cases u <;> simp [spriteCount, putSprite, keyCount_set]

theorem spriteCount_delSprite (t : Target) (st : State) (u : Target) :
    spriteCount (delSprite t st) u = if u = t then 0 else spriteCount st u := by
  cases t <;> cases u <;> simp [spriteCount, delSprite, keyCount_del]

theorem spriteCount_eq_zero (st : State) (t : Target) :
    spriteCount st t = 0 ↔ getSprite st t = none := by
  cases t <;> simp [spriteCount, getSprite, keyCount_eq_zero]

/-! ## Reachability by admitted state changes -/

theorem Reach.trans {F : Footprint} {a b c : State} (h1 : Reach F a b) (h2 : Reach F b c) :
    Reach F a c := by
  induction h2 with
  | refl => exact h1
  | step p _ hp ih => exact Reach.step p ih hp

theorem Reach.mono {F G : Footprint} {a b : State} (hFG : ∀ p, F.allows p → G.allows p)
    (h : Reach F a b) : Reach G a b := by
  induction h with
  | refl => exact Reach.refl
  | step p _ hp ih => exact Reach.step p ih (hFG p hp)

theorem Reach.emit {F : Footprint} {a s : State} (t : Target) (c : Call)
    (ha : F.emit t c) (h : Reach F a s) : Reach F a (emit t c s) :=
  Reach.step (.emit t c) h ha

theorem Reach.modSprite {F : Footprint} {a s : State} (t : Target) (f : Sprite → Sprite)
    (ha : F.mod t) (h : Reach F a s) : Reach F a (modSprite t f s) :=
  Reach.step (.mod t f) h ha

theorem Reach.putSprite {F : Footprint} {a s : State} (t : Target) (v : Sprite)
    (ha : F.put t) (h : Reach F a s) : Reach F a (putSprite t v s) :=
  Reach.step (.put t v) h ha

theorem Reach.delSprite {F : Footprint} {a s : State} (t : Target)
    (ha : F.del t) (h : Reach F a s) : Reach F a (delSprite t s) :=
  Reach.step (.del t) h ha

theorem Reach.setBodies {F : Footprint} {a s : State} (l : List Ptr)
    (ha : F.bodies) (h : Reach F a s) : Reach F a { s with pBodies := l } :=
  Reach.step (.bodies l) h ha

theorem Reach.setForce {F : Footprint} {a s : State} (b : Bool)
    (ha : F.force) (h : Reach F a s) : Reach F a { s with forceReloadAll := b } :=
  Reach.step (.force b) h ha

theorem Reach.foldl {F : Footprint} {β : Type} (f : State → β → State) (l : List β)
    (hf : ∀ s x, x ∈ l → Reach F s (f s x)) {a s : State} (h : Reach F a s) :
    Reach F a (l.foldl f s) := by
  induction l generalizing s with
  | nil => exact h
  | cons x l ih =>
      exact ih (fun s y hy => hf s y (List.mem_cons_of_mem _ hy))
        (h.trans (hf s x (List.mem_cons_self _ _)))

theorem Reach.andThen {F : Footprint} {a : State} {r : Outcome} (f : State → Outcome)
    (h : Reach F a r.st) (hf : ∀ s, Reach F s (f s).st) : Reach F a (r.andThen f).st := by
  unfold Outcome.andThen
  split
  · exact h
  · exact h.trans (hf _)

theorem Reach.foldlOutcome {F : Footprint} {β : Type} (g : State → β → Outcome) (l : List β)
    (hg : ∀ s x, x ∈ l → Reach F s (g s x).st) {a : State} {r : Outcome}
    (h : Reach F a r.st) :
    Reach F a (l.foldl (fun (r : Outcome) x => r.andThen fun s => g s x) r).st := by
  induction l generalizing r with
  | nil => exact h
  | cons x l ih =>
      refine ih (fun s y hy => hg s y (List.mem_cons_of_mem _ hy)) ?_
      exact Reach.andThen (fun s => g s x) h (fun s => hg s x (List.mem_cons_self _ _))

/-! ### What a footprint guarantees -/

theorem Reach.getSprite_eq {F : Footprint} {a b : State} (h : Reach F a b) (T : Target)
    (hm : ¬ F.mod T) (hp : ¬ F.put T) (hd : ¬ F.del T) : getSprite b T = getSprite a T := by
  induction h with
  | refl => rfl
  | step p _ hal ih =>
      rw [← ih]
      cases p with
      | emit t c => exact getSprite_emit t c _ T
      | mod t f =>
          have : T ≠ t := fun e => hm (e ▸ hal)
          simp [Prim.apply, getSprite_modSprite, this]
      | put t s =>
          have : T ≠ t := fun e => hp (e ▸ hal)
          simp [Prim.apply, getSprite_putSprite, this]
      | del t =>
          have : T ≠ t := fun e => hd (e ▸ hal)
          simp [Prim.apply, getSprite_delSprite, this]
      | bodies l => cases T <;> rfl
      | force v => cases T <;> rfl

theorem Reach.isSome_of {F : Footprint} {a b : State} (h : Reach F a b) (T : Target)
    (hd : ¬ F.del T) (hs : (getSprite a T).isSome = true) : (getSprite b T).isSome = true := by
  induction h with
  | refl => exact hs
  | step p _ hal ih =>
      cases p with
      | emit t c => simpa [Prim.apply, getSprite_emit] using ih
      | mod t f =>
          by_cases e : T = t
          · subst e
            simpa [Prim.apply, getSprite_modSprite] using ih
          · simpa [Prim.apply, getSprite_modSprite, e] using ih
      | put t s =>
          by_cases e : T = t
          · simp [Prim.apply, getSprite_putSprite, e]
          · simpa [Prim.apply, getSprite_putSprite, e] using ih
      | del t =>
          have : T ≠ t := fun e => hd (e ▸ hal)
          simpa [Prim.apply, getSprite_delSprite, this] using ih
      | bodies l => cases T <;> exact ih
      | force v => cases T <;> exact ih

theorem Reach.none_of {F : Footprint} {a b : State} (h : Reach F a b) (T : Target)
    (hp : ¬ F.put T) (hs : getSprite a T = none) : getSprite b T = none := by
  induction h with
  | refl => exact hs
  | step p _ hal ih =>
      cases p with
      | emit t c => simpa [Prim.apply, getSprite_emit] using ih
      | mod t f =>
          by_cases e : T = t
          · subst e
            simpa [Prim.apply, getSprite_modSprite] using ih
          · simpa [Prim.apply, getSprite_modSprite, e] using ih
      | put t s =>
          have : T ≠ t := fun e => hp (e ▸ hal)
          simpa [Prim.apply, getSprite_putSprite, this] using ih
      | del t =>
          by_cases e : T = t
          · simp [Prim.apply, getSprite_delSprite, e]
          · simpa [Prim.apply, getSprite_delSprite, e] using ih
      | bodies l => cases T <;> exact ih
      | force v => cases T <;> exact ih

theorem Reach.count_eq {F : Footprint} {a b : State} (h : Reach F a b) (T : Target)
    (hp : ¬ F.put T) (hd : ¬ F.del T) : spriteCount b T = spriteCount a T := by
  induction h with
  | refl => rfl
  | step p _ hal ih =>
      rw [← ih]
      cases p with
      | emit t c => exact spriteCount_emit t c _ T
      | mod t f => exact spriteCount_modSprite t f _ T
      | put t s =>
          have : T ≠ t := fun e => hp (e ▸ hal)
          simp [Prim.apply, spriteCount_putSprite, this]
      | del t =>
          have : T ≠ t := fun e => hd (e ▸ hal)
          simp [Prim.apply, spriteCount_delSprite, this]
      | bodies l => cases T <;> rfl
      | force v => cases T <;> rfl

theorem Reach.count_one {F : Footprint} {a b : State} (h : Reach F a b) (T : Target)
    (hd : ¬ F.del T) (hs : spriteCount a T = 1) : spriteCount b T = 1 := by
  induction h with
  | refl => exact hs
  | step p _ hal ih =>
      cases p with
      | emit t c => simpa [Prim.apply, spriteCount_emit] using ih
      | mod t f => simpa [Prim.apply, spriteCount_modSprite] using ih
      | put t s =>
          by_cases e : T = t
          · subst e
            simp [Prim.apply, spriteCount_putSprite, ih]
          · simpa [Prim.apply, spriteCount_putSprite, e] using ih
      | del t =>
          have : T ≠ t := fun e => hd (e ▸ hal)
          simpa [Prim.apply, spriteCount_delSprite, this] using ih
      | bodies l => cases T <;> exact ih
      | force v => cases T <;> exact ih

theorem Reach.log_eq {F : Footprint} {a b : State} (h : Reach F a b) :
    ∃ evs, b.log = a.log ++ evs ∧ ∀ e ∈ evs, F.emit e.target e.call := by
  induction h with
  | refl => exact ⟨[], by simp, by simp⟩
  | step p _ hal ih =>
      obtain ⟨evs, h1, h2⟩ := ih
      cases p with
      | emit t c =>
          refine ⟨evs ++ [⟨t, c⟩], ?_, ?_⟩
          · simp [Prim.apply, DebugDraw.emit, h1]
          · intro e he
            rcases List.mem_append.1 he with h3 | h3
            · exact h2 e h3
            · simp at h3
              subst h3
              exact hal
      | mod t f => exact ⟨evs, by cases t <;> simpa [Prim.apply, DebugDraw.modSprite] using h1, h2⟩
      | put t s => exact ⟨evs, by cases t <;> simpa [Prim.apply, DebugDraw.putSprite] using h1, h2⟩
      | del t => exact ⟨evs, by cases t <;> simpa [Prim.apply, DebugDraw.delSprite] using h1, h2⟩
      | bodies l => exact ⟨evs, h1, h2⟩
      | force v => exact ⟨evs, h1, h2⟩

theorem Reach.force_eq {F : Footprint} {a b : State} (h : Reach F a b) (hf : ¬ F.force) :
    b.forceReloadAll = a.forceReloadAll := by
  induction h with
  | refl => rfl
  | step p _ hal ih =>
      rw [← ih]
      cases p with
      | emit t c => rfl
      | mod t f => cases t <;> rfl
      | put t s => cases t <;> rfl
      | del t => cases t <;> rfl
      | bodies l => rfl
      | force v => exact absurd hal hf


/-! ### Comparing footprints -/

theorem touching_mono {S R : Target → Prop} (h : ∀ t, S t → R t) :
    ∀ p, (touching S).allows p → (touching R).allows p := by
  intro p hp
  cases p <;> simp_all [Footprint.allows, touching]

theorem shapeDrawing_le_touching {S : Target → Prop} {t : Target} (h : S t) :
    ∀ p, (shapeDrawing t).allows p → (touching S).allows p := by
  intro p hp
  cases p <;> simp_all [Footprint.allows, touching, shapeDrawing]

theorem touching_le_creating {S R : Target → Prop} (h : ∀ t, S t → R t) :
    ∀ p, (touching S).allows p → (creating R).allows p := by
  intro p hp
  cases p <;> simp_all [Footprint.allows, touching, creating]

theorem creating_mono {S R : Target → Prop} (h : ∀ t, S t → R t) :
    ∀ p, (creating S).allows p → (creating R).allows p := by
  intro p hp
  cases p <;> simp_all [Footprint.allows, creating]

theorem touching_le_keeping (S R : Target → Prop) :
    ∀ p, (touching S).allows p → (keeping R).allows p := by
  intro p hp
  cases p <;> simp_all [Footprint.allows, touching, keeping]

theorem creating_le_keeping (S R : Target → Prop) :
    ∀ p, (creating S).allows p → (keeping R).allows p := by
  intro p hp
  cases p <;> simp_all [Footprint.allows, creating, keeping]

theorem removingOf_le_keeping {S R : Target → Prop} (h : ∀ t, S t → ¬ R t) :
    ∀ p, (removingOf S).allows p → (keeping R).allows p := by
  intro p hp
  cases p <;> simp_all [Footprint.allows, removingOf, keeping]

/-! ### Footprints of the assignments -/

theorem Reach.setWidth {F : Footprint} {a s : State} (t : Target) (v : JsNum)
    (he : ∀ c, F.emit t c) (hm : F.mod t) (h : Reach F a s) : Reach F a (setWidth t v s) :=
  Reach.emit t _ (he _) (Reach.modSprite t _ hm h)

theorem Reach.setHeight {F : Footprint} {a s : State} (t : Target) (v : JsNum)
    (he : ∀ c, F.emit t c) (hm : F.mod t) (h : Reach F a s) : Reach F a (setHeight t v s) :=
  Reach.emit t _ (he _) (Reach.modSprite t _ hm h)

theorem Reach.setX {F : Footprint} {a s : State} (t : Target) (v : JsNum)
    (he : ∀ c, F.emit t c) (hm : F.mod t) (h : Reach F a s) : Reach F a (setX t v s) :=
  Reach.emit t _ (he _) (Reach.modSprite t _ hm h)

theorem Reach.setY {F : Footprint} {a s : State} (t : Target) (v : JsNum)
    (he : ∀ c, F.emit t c) (hm : F.mod t) (h : Reach F a s) : Reach F a (setY t v s) :=
  Reach.emit t _ (he _) (Reach.modSprite t _ hm h)

theorem Reach.setAngle {F : Footprint} {a s : State} (t : Target) (v : JsNum)
    (he : ∀ c, F.emit t c) (hm : F.mod t) (h : Reach F a s) : Reach F a (setAngle t v s) :=
  Reach.emit t _ (he _) (Reach.modSprite t _ hm h)

theorem Reach.setZ {F : Footprint} {a s : State} (t : Target) (v : JsNum)
    (he : ∀ c, F.emit t c) (hm : F.mod t) (h : Reach F a s) : Reach F a (setZ t v s) :=
  Reach.emit t _ (he _) (Reach.modSprite t _ hm h)

theorem Reach.setAnchorPoint {F : Footprint} {a s : State} (t : Target) (v : Vec)
    (he : ∀ c, F.emit t c) (hm : F.mod t) (h : Reach F a s) :
    Reach F a (setAnchorPoint t v s) :=
  Reach.emit t _ (he _) (Reach.modSprite t _ hm h)

theorem Reach.setCenter {F : Footprint} {a s : State} (t : Target) (v : Vec)
    (he : ∀ c, F.emit t c) (hm : F.mod t) (h : Reach F a s) : Reach F a (setCenter t v s) :=
  Reach.emit t _ (he _) (Reach.modSprite t _ hm h)

/-! ### Footprints of the drawing code -/

theorem drawBoundingBox_reach {F : Footprint} {a s : State} (o : Options) (t : Target)
    (he : ∀ c, F.emit t c) (h : Reach F a s) : Reach F a (drawBoundingBox o t s) := by
  unfold drawBoundingBox
  split
  · exact h
  · split
    · exact h
    · exact Reach.emit t _ (he _) (Reach.emit t _ (he _) h)

theorem drawCircle_reach (o : Options) (t : Target) (s : State) :
    Reach (shapeDrawing t) s (drawCircle o t s) := by
  unfold drawCircle
  split
  · exact Reach.refl
  · exact Reach.emit t _ ⟨rfl, rfl⟩ (Reach.emit t _ ⟨rfl, rfl⟩ Reach.refl)

theorem drawDot_reach (o : Options) (t : Target) (x y : JsNum) (s : State) :
    Reach (shapeDrawing t) s (drawDot o t x y s) := by
  unfold drawDot
  split
  · exact Reach.refl
  · exact Reach.emit t _ ⟨rfl, rfl⟩ Reach.refl

theorem polyLoop_reach (o : Options) (t : Target) (canvas : Sprite) (vs : List Vec)
    (prev : Option (Vec × Vec)) (s : State) :
    Reach (shapeDrawing t) s (polyLoop o t canvas vs prev s).st := by
  induction vs generalizing prev s with
  | nil => exact Reach.refl
  | cons v rest ih =>
      unfold polyLoop
      refine Reach.andThen _ ?_ (fun s3 => ih _ s3)
      have h1 : Reach (shapeDrawing t) s
          (if o.Vertex = true then drawDot o t v.x (-v.y) s else s) := by
        split
        · exact drawDot_reach o t _ _ s
        · exact Reach.refl
      cases prev with
      | none =>
          by_cases hp : o.Poly = true <;> by_cases hr : rest.isEmpty = true <;>
            simp [hp, hr] <;> exact h1
      | some pr =>
          obtain ⟨lastVert, vertStart⟩ := pr
          by_cases hp : o.Poly = true <;> by_cases hr : rest.isEmpty = true <;>
            simp [hp, hr]
          · exact Reach.emit t _ ⟨rfl, rfl⟩ (Reach.emit t _ ⟨rfl, rfl⟩ h1)
          · exact Reach.emit t _ ⟨rfl, rfl⟩ h1
          · exact h1
          · exact h1

theorem cpBodyEachShapeDrawCallback_reach (o : Options) (b : Ptr) (s : State) (shape : Shape) :
    Reach (shapeDrawing (.body b)) s (cpBodyEachShapeDrawCallback o b s shape).st := by
  unfold cpBodyEachShapeDrawCallback
  split
  · exact Reach.refl
  · split
    · exact drawCircle_reach o _ s
    · split
      · exact polyLoop_reach o _ _ _ _ s
      · exact Reach.refl

theorem eachShapeDraw_reach (o : Options) (w : World) (b : Ptr) (s : State) :
    Reach (shapeDrawing (.body b)) s (eachShapeDraw o w b s).st := by
  unfold eachShapeDraw
  exact Reach.foldlOutcome _ _ (fun s x _ => cpBodyEachShapeDrawCallback_reach o b s x)
    Reach.refl

theorem connectBodies_reach {F : Footprint} {a s : State} (m : MathLib) (w : World)
    (constraint : Constraint) (cptr : Ptr) (anchr1 anchr2 : Vec)
    (he : ∀ c, F.emit (.joint cptr) c) (hm : F.mod (.joint cptr)) (h : Reach F a s) :
    Reach F a (connectBodies m w constraint cptr anchr1 anchr2 s) := by
  unfold connectBodies
  exact Reach.setAngle _ _ he hm (Reach.setY _ _ he hm (Reach.setX _ _ he hm
    (Reach.setWidth _ _ he hm h)))

theorem followParent_reach {F : Footprint} {a s : State} (b : Ptr)
    (he : ∀ c, F.emit (.anchor b) c) (hm : F.mod (.anchor b)) (h : Reach F a s) :
    Reach F a (followParent b s) := by
  unfold followParent
  split
  · exact h
  · exact Reach.setAngle _ _ he hm (Reach.setAnchorPoint _ _ he hm
      (Reach.setY _ _ he hm (Reach.setX _ _ he hm h)))

theorem anchorDot_reach (o : Options) (b : Ptr) (anchr : Option Vec) (owner : Ptr)
    (s : State) : Reach (shapeDrawing (.anchor b)) s (anchorDot o b anchr owner s) := by
  unfold anchorDot
  split
  · split
    · exact drawDot_reach o _ _ _ s
    · exact Reach.refl
  · exact Reach.refl

theorem drawAnchors_reach (o : Options) (b : Ptr) (constraint : Constraint) (joint : Joint)
    (s : State) : Reach (touching (· = .anchor b)) s (drawAnchors o b constraint joint s) := by
  have hd : ∀ anchr owner s1, Reach (touching (· = .anchor b)) s1 (anchorDot o b anchr owner s1) :=
    fun anchr owner s1 =>
      Reach.mono (shapeDrawing_le_touching rfl) (anchorDot_reach o b anchr owner s1)
  have h1 : Reach (touching (· = .anchor b)) s
      (anchorDot o b joint.anchr2 constraint.b
        (anchorDot o b joint.anchr1 constraint.a (followParent b s))) :=
    ((followParent_reach b (fun _ => rfl) rfl Reach.refl).trans (hd _ _ _)).trans (hd _ _ _)
  unfold drawAnchors
  split
  · exact Reach.refl
  · simp only []
    split
    · exact Reach.emit _ _ rfl h1
    · exact h1

theorem constraintDraw_reach (o : Options) (m : MathLib) (w : World)
    (b : Ptr) (s : State) (cptr : Ptr) :
    Reach (touching (fun t => t = .anchor b ∨ t = .joint cptr)) s
      (cpBodyEachConstraintDrawCallback o m w b s cptr) := by
  have h2 : Reach (touching (fun t => t = .anchor b ∨ t = .joint cptr)) s
      (drawAnchors o b (w.constraint cptr) (getJointFromConstraint (w.constraint cptr)) s) :=
    Reach.mono (touching_mono (fun t ht => Or.inl ht)) (drawAnchors_reach o b _ _ s)
  unfold cpBodyEachConstraintDrawCallback
  simp only []
  split
  · split
    · exact connectBodies_reach m w _ cptr _ _ (fun _ => Or.inr rfl) (Or.inr rfl) h2
    · exact h2
  · exact h2

theorem cpBodyEachConstraintDrawCallback_reach (o : Options) (m : MathLib) (w : World)
    (b : Ptr) (s : State) (cptr : Ptr) :
    Reach (touching (constraintTargets w b)) s
      (cpBodyEachConstraintDrawCallback o m w b s cptr) := by
  by_cases hb : (w.constraint cptr).b = b
  · refine Reach.mono (touching_mono ?_) (constraintDraw_reach o m w b s cptr)
    intro t ht
    rcases ht with h | h
    · exact Or.inl h
    · exact Or.inr ⟨cptr, h, hb⟩
  · have e : cpBodyEachConstraintDrawCallback o m w b s cptr =
        drawAnchors o b (w.constraint cptr) (getJointFromConstraint (w.constraint cptr)) s := by
      unfold cpBodyEachConstraintDrawCallback
      simp only [hb, if_false]
      split <;> rfl
    rw [e]
    exact Reach.mono (touching_mono (fun t ht => Or.inl ht)) (drawAnchors_reach o b _ _ s)

theorem eachConstraintDraw_reach (o : Options) (m : MathLib) (w : World) (b : Ptr)
    (s : State) : Reach (touching (constraintTargets w b)) s (eachConstraintDraw o m w b s) := by
  unfold eachConstraintDraw
  exact Reach.foldl _ _ (fun s x _ => cpBodyEachConstraintDrawCallback_reach o m w b s x)
    Reach.refl

theorem refreshTransform_reach (o : Options) (m : MathLib) (w : World) (b : Ptr)
    (sleeping : Bool) (s : State) :
    Reach (touching (· = .body b)) s (refreshTransform o m w b sleeping s) := by
  unfold refreshTransform
  simp only []
  split
  · exact Reach.setAngle _ _ (fun _ => rfl) rfl (Reach.setCenter _ _ (fun _ => rfl) rfl
      (Reach.setAnchorPoint _ _ (fun _ => rfl) rfl (Reach.emit _ _ rfl Reach.refl)))
  · exact Reach.emit _ _ rfl Reach.refl

theorem reloadGeometry_reach (o : Options) (w : World) (b : Ptr) (s : State) :
    Reach (touching (· = .body b)) s (reloadGeometry o w b s).st := by
  unfold reloadGeometry
  simp only []
  refine Reach.andThen _ ?_ (fun s1 => Reach.emit _ _ rfl Reach.refl)
  have hb : Reach (touching (· = .body b)) s (drawBoundingBox o (.body b) s) :=
    drawBoundingBox_reach o _ (fun _ => rfl) Reach.refl
  split
  · exact hb.trans (Reach.mono (shapeDrawing_le_touching rfl) (eachShapeDraw_reach o w b _))
  · exact hb

theorem finishDraw_reach (o : Options) (m : MathLib) (w : World) (b : Ptr) (sleeping : Bool)
    (s : State) : Reach (touching (drawTargets w b)) s (finishDraw o m w b sleeping s) := by
  unfold finishDraw
  simp only []
  refine Reach.modSprite _ _ (Or.inl rfl) ?_
  split
  · exact Reach.mono (touching_mono (fun t ht => Or.inr ht)) (eachConstraintDraw_reach o m w b s)
  · exact Reach.refl

theorem drawBodyCore_reach (o : Options) (m : MathLib) (w : World) (b : Ptr)
    (sleeping reload : Bool) (s : State) :
    Reach (touching (drawTargets w b)) s (drawBodyCore o m w b sleeping reload s).st := by
  unfold drawBodyCore
  simp only []
  have h1 : Reach (touching (drawTargets w b)) s (refreshTransform o m w b sleeping s) :=
    Reach.mono (touching_mono (fun t ht => Or.inl ht)) (refreshTransform_reach o m w b sleeping s)
  refine Reach.andThen _ ?_ (fun s2 => finishDraw_reach o m w b sleeping s2)
  split
  · exact h1.trans (Reach.mono (touching_mono (fun t ht => Or.inl ht))
      (reloadGeometry_reach o w b _))
  · exact h1

theorem drawBody_reach (o : Options) (m : MathLib) (w : World) (reload : Bool) (s : State)
    (b : Ptr) : Reach (touching (drawTargets w b)) s (drawBody o m w reload s b).st := by
  unfold drawBody
  split
  · exact Reach.refl
  · simp only []
    split
    · exact drawBodyCore_reach o m w b _ _ s
    · split
      · exact Reach.refl
      · split
        · exact drawBodyCore_reach o m w b _ _ s
        · exact drawBodyCore_reach o m w b _ _ s


/-! ### Footprints of registration, visibility and removal -/

theorem updateCanvasMetaInfo_reach {F : Footprint} {a s : State} (o : Options) (t : Target)
    (shapeType : ShapeType) (he : ∀ c, F.emit t c) (hm : F.mod t) (h : Reach F a s) :
    Reach F a (updateCanvasMetaInfo o t shapeType s) := by
  unfold updateCanvasMetaInfo
  simp only []
  refine Reach.modSprite _ _ hm ?_
  split
  · split
    · exact h
    · exact Reach.setHeight _ _ he hm (Reach.setWidth _ _ he hm h)
  · exact h

theorem copyCanvasProperty_reach {F : Footprint} {a s : State} (from_canvas : Sprite)
    (t : Target) (he : ∀ c, F.emit t c) (hm : F.mod t) (h : Reach F a s) :
    Reach F a (copyCanvasProperty from_canvas t s) := by
  unfold copyCanvasProperty
  exact Reach.modSprite _ _ hm (Reach.setHeight _ _ he hm (Reach.setWidth _ _ he hm h))

theorem createBodySprite_reach (o : Options) (b : Ptr) (shape : Shape) (s : State) :
    Reach (creating (· = .body b)) s (createBodySprite o b shape s) := by
  unfold createBodySprite
  simp only []
  split
  · exact Reach.refl
  · exact Reach.emit _ _ rfl (Reach.modSprite _ _ rfl (Reach.setZ _ _ (fun _ => rfl) rfl
      (Reach.putSprite _ _ rfl (Reach.emit _ _ rfl Reach.refl))))

theorem accumulateVerts_reach (b : Ptr) (shape : Shape) (s : State) :
    Reach (touching (· = .body b)) s (accumulateVerts b shape s) := by
  unfold accumulateVerts
  split
  · exact Reach.foldl _ _ (fun s1 v _ => Reach.modSprite _ _ rfl Reach.refl) Reach.refl
  · exact Reach.refl

theorem cpBodyEachShapeInitCallback_reach (o : Options) (b : Ptr) (s : State) (shape : Shape) :
    Reach (creating (· = .body b)) s (cpBodyEachShapeInitCallback o b s shape) := by
  unfold cpBodyEachShapeInitCallback
  exact updateCanvasMetaInfo_reach o _ _ (fun _ => rfl) rfl
    ((createBodySprite_reach o b shape s).trans
      (Reach.mono (touching_le_creating (fun _ h => h)) (accumulateVerts_reach b shape _)))

theorem createAnchorSprite_reach (o : Options) (b : Ptr) (s : State) :
    Reach (creating (· = .anchor b)) s (createAnchorSprite o b s) := by
  unfold createAnchorSprite
  simp only []
  split
  · exact Reach.refl
  · refine Reach.emit _ _ rfl ?_
    have h1 : Reach (creating (· = .anchor b)) s
        (setZ (.anchor b) o.z (emit (.anchor b) (.color o.red o.green o.blue)
          (putSprite (.anchor b) (Sprite.blank o.dotsize o.dotsize)
            (emit (.anchor b) (.createCanvasSprite o.dotsize o.dotsize) s)))) :=
      Reach.setZ _ _ (fun _ => rfl) rfl (Reach.emit _ _ rfl
        (Reach.putSprite _ _ rfl (Reach.emit _ _ rfl Reach.refl)))
    split
    · exact copyCanvasProperty_reach _ _ (fun _ => rfl) rfl h1
    · exact h1

theorem createConnectionSprite_reach (o : Options) (w : World) (b cptr : Ptr) (s : State) :
    Reach (creating (fun t => t = .anchor b ∨ t = .joint cptr)) s
      (createConnectionSprite o w b cptr s) := by
  unfold createConnectionSprite
  simp only []
  have hA : ∀ c, (creating (fun t => t = .anchor b ∨ t = .joint cptr)).emit (.anchor b) c :=
    fun _ => Or.inl rfl
  exact Reach.emit _ _ (Or.inr rfl) (Reach.putSprite _ _ (Or.inr rfl)
    (Reach.setZ _ _ hA (Or.inl rfl) (Reach.emit _ _ (Or.inl rfl)
      (Reach.setCenter _ _ hA (Or.inl rfl) (Reach.setAnchorPoint _ _ hA (Or.inl rfl)
        (Reach.emit _ _ (Or.inr rfl) Reach.refl))))))

theorem cpBodyEachConstraintInitCallback_reach (o : Options) (w : World) (b : Ptr) (s : State)
    (cptr : Ptr) :
    Reach (creating (fun t => t = .anchor b ∨ t = .joint cptr)) s
      (cpBodyEachConstraintInitCallback o w b s cptr) := by
  unfold cpBodyEachConstraintInitCallback
  simp only []
  have h1 : Reach (creating (fun t => t = .anchor b ∨ t = .joint cptr)) s
      (createAnchorSprite o b s) :=
    Reach.mono (creating_mono (fun _ h => Or.inl h)) (createAnchorSprite_reach o b s)
  split
  · exact h1.trans (createConnectionSprite_reach o w b cptr _)
  · exact h1

theorem initDebugCanvas_reach (o : Options) (w : World) (b : Ptr) (s : State) :
    Reach (creating (bodyScope b)) s (initDebugCanvas o w b s) := by
  unfold initDebugCanvas
  simp only []
  have h1 : Reach (creating (bodyScope b)) s
      ((w.shapes b).foldl (cpBodyEachShapeInitCallback o b) s) :=
    Reach.foldl _ _
      (fun s1 x _ => Reach.mono (creating_mono (fun _ h => Or.inl h))
        (cpBodyEachShapeInitCallback_reach o b s1 x)) Reach.refl
  split
  · refine Reach.foldl _ _ (fun s1 x _ => Reach.mono (creating_mono ?_)
      (cpBodyEachConstraintInitCallback_reach o w b s1 x)) h1
    intro t ht
    rcases ht with h | h
    · exact Or.inr (Or.inl h)
    · exact Or.inr (Or.inr ⟨x, h⟩)
  · exact h1

theorem addBody_reach (o : Options) (w : World) (b : Ptr) (s : State) (S : Target → Prop) :
    Reach (keeping S) s (addBody o w (some b) s) := by
  unfold addBody
  exact (Reach.setBodies (addKey s.pBodies b) trivial Reach.refl).trans
    (Reach.mono (creating_le_keeping _ _) (initDebugCanvas_reach o w b _))

theorem showConstraint_reach (key : Ptr) (s : State) (ckey : Ptr) :
    Reach (touching (bodyScope key)) s (showConstraint key s ckey) := by
  unfold showConstraint
  simp only []
  have h1 : Reach (touching (bodyScope key)) s
      (match getSprite s (.anchor key) with
        | some _ => emit (.anchor key) .show s
        | none => s) := by
    split
    · exact Reach.emit _ _ (Or.inr (Or.inl rfl)) Reach.refl
    · exact Reach.refl
  split
  · exact Reach.emit _ _ (Or.inr (Or.inr ⟨ckey, rfl⟩)) h1
  · exact h1

theorem showBody_reach (w : World) (key : Ptr) (s : State) :
    Reach (touching (bodyScope key)) s (showBody w (some key) s) := by
  unfold showBody
  simp only []
  refine Reach.foldl _ _ (fun s1 x _ => showConstraint_reach key s1 x) ?_
  split
  · exact Reach.emit _ _ (Or.inl rfl) Reach.refl
  · exact Reach.refl

theorem hideConstraint_reach (key : Ptr) (s : State) (ckey : Ptr) :
    Reach (touching (bodyScope key)) s (hideConstraint key s ckey) := by
  unfold hideConstraint
  simp only []
  have h1 : Reach (touching (bodyScope key)) s
      (match getSprite s (.anchor key) with
        | some _ => emit (.anchor key) .hide s
        | none => s) := by
    split
    · exact Reach.emit _ _ (Or.inr (Or.inl rfl)) Reach.refl
    · exact Reach.refl
  split
  · exact Reach.emit _ _ (Or.inr (Or.inr ⟨ckey, rfl⟩)) h1
  · exact h1

theorem hideBody_reach (w : World) (key : Ptr) (s : State) :
    Reach (touching (bodyScope key)) s (hideBody w (some key) s) := by
  unfold hideBody
  simp only []
  refine Reach.foldl _ _ (fun s1 x _ => hideConstraint_reach key s1 x) ?_
  split
  · exact Reach.emit _ _ (Or.inl rfl) Reach.refl
  · exact Reach.refl

theorem removeSprite_reach {F : Footprint} {a s : State} (t : Target)
    (he : ∀ c, F.emit t c) (hd : F.del t) (h : Reach F a s) : Reach F a (removeSprite t s) := by
  unfold removeSprite
  split
  · exact Reach.delSprite _ hd (Reach.emit _ _ (he _) (Reach.emit _ _ (he _) h))
  · exact h

theorem removeConstraint_reach (key : Ptr) (s : State) (ckey : Ptr) :
    Reach (removingOf (bodyScope key)) s (removeConstraint key s ckey) := by
  unfold removeConstraint
  exact removeSprite_reach _ (fun _ => Or.inr (Or.inr ⟨ckey, rfl⟩)) (Or.inr (Or.inr ⟨ckey, rfl⟩))
    (removeSprite_reach _ (fun _ => Or.inr (Or.inl rfl)) (Or.inr (Or.inl rfl)) Reach.refl)

theorem removeBody_reach (w : World) (key : Ptr) (s : State) :
    Reach (removingOf (bodyScope key)) s (removeBody w (some key) s) := by
  unfold removeBody
  simp only []
  exact Reach.foldl _ _ (fun s1 x _ => removeConstraint_reach key s1 x)
    (removeSprite_reach _ (fun _ => Or.inl rfl) (Or.inl rfl)
      (Reach.setBodies _ trivial Reach.refl))

theorem update_reach (o : Options) (m : MathLib) (w : World) (reload : Bool) (s : State)
    (S : Target → Prop) : Reach (keeping S) s (update o m w reload s).st := by
  unfold update drawAll
  refine Reach.andThen _ ?_ ?_
  · exact Reach.foldlOutcome _ _
      (fun s1 x _ => Reach.mono (touching_le_keeping _ S) (drawBody_reach o m w reload s1 x))
      Reach.refl
  · intro s1
    simp only []
    split
    · exact Reach.setForce _ trivial Reach.refl
    · exact Reach.refl

/-- A public method call deletes only sprites in the scope of a body whose
removal it asks for. -/
theorem step_reach_of (o : Options) (m : MathLib) (w : World) (op : Op) (s : State)
    (S : Target → Prop)
    (hop : ∀ b, op.removes b = true → ∀ t, bodyScope b t → ¬ S t) :
    Reach (keeping S) s (step o m w op s) := by
  have hadd : ∀ body s1, Reach (keeping S) s1 (addBody o w body s1) := by
    intro body s1
    cases body with
    | none => exact Reach.refl
    | some b => exact addBody_reach o w b s1 S
  have hshow : ∀ body s1, Reach (keeping S) s1 (showBody w body s1) := by
    intro body s1
    cases body with
    | none => exact Reach.refl
    | some b => exact Reach.mono (touching_le_keeping _ _) (showBody_reach w b s1)
  have hhide : ∀ body s1, Reach (keeping S) s1 (hideBody w body s1) := by
    intro body s1
    cases body with
    | none => exact Reach.refl
    | some b => exact Reach.mono (touching_le_keeping _ _) (hideBody_reach w b s1)
  have hrem : ∀ body s1, (∀ b, body = some b → ∀ t, bodyScope b t → ¬ S t) →
      Reach (keeping S) s1 (removeBody w body s1) := by
    intro body s1 hb
    cases body with
    | none => exact Reach.refl
    | some b =>
        exact Reach.mono (removingOf_le_keeping (hb b rfl)) (removeBody_reach w b s1)
  cases op with
  | addBody body => exact hadd body s
  | addBodies bodies =>
      exact Reach.foldl _ _ (fun s1 x _ => hadd x s1) Reach.refl
  | showBody body => exact hshow body s
  | hideBody body => exact hhide body s
  | removeBody body =>
      refine hrem body s ?_
      intro b hb
      exact hop b (by simp [Op.removes, hb])
  | showAll =>
      exact Reach.setForce true trivial
        (Reach.foldl _ _ (fun s1 x _ => hshow (some x) s1) Reach.refl)
  | hideAll => exact Reach.foldl _ _ (fun s1 x _ => hhide (some x) s1) Reach.refl
  | removeBodies bodies =>
      refine Reach.foldl _ _ (fun s1 x hx => hrem x s1 ?_) Reach.refl
      intro b hb
      subst hb
      exact hop b (by simpa [Op.removes] using hx)
  | update reload => exact update_reach o m w reload s _

/-- A public method call that does not ask for the removal of `B` deletes no
body sprite of `B`. -/
theorem step_reach (o : Options) (m : MathLib) (w : World) (op : Op) (B : Ptr) (s : State)
    (hop : op.removes B = false) : Reach (keeping (· = .body B)) s (step o m w op s) := by
  refine step_reach_of o m w op s _ ?_
  intro b hb t ht e
  subst e
  rcases ht with h | h | ⟨c, h⟩
  · injection h with h
    subst h
    rw [hb] at hop
    cases hop
  · cases h
  · cases h

theorem run_reach (o : Options) (m : MathLib) (trace : List (World × Op)) (B : Ptr)
    (s : State) (h : ∀ x ∈ trace, x.2.removes B = false) :
    Reach (keeping (· = .body B)) s (run o m trace s) := by
  unfold run
  exact Reach.foldl _ _ (fun s1 x hx => step_reach o m x.1 x.2 B s1 (h x hx)) Reach.refl


/-! ## Coordinate conversion -/

/-- C7: for every screen height `h` and coordinate `y`, `cpY(y) = h - y` and
`cpY(cpY(y)) = y`, in every commutative group of exact numbers and on the
finite values of the number model. -/
theorem cpY_involutive {K : Type} [AddCommGroup K] (h y : K) (hq yq : ℚ) :
    (cpY h y = h - y ∧ cpY h (cpY h y) = y) ∧
    (cpY (JsNum.fin hq) (JsNum.fin yq) = JsNum.fin (hq - yq) ∧
      cpY (JsNum.fin hq) (cpY (JsNum.fin hq) (JsNum.fin yq)) = JsNum.fin yq) := by
  refine ⟨⟨rfl, ?_⟩, ?_, ?_⟩
  · simp [cpY]
  · show JsNum.fin (hq + -yq) = JsNum.fin (hq - yq)
    rw [sub_eq_add_neg]
  · show JsNum.fin (hq + -(hq + -yq)) = JsNum.fin yq
    congr 1
    ring

/-- C8: over the reals, `cpAngle(a) = -a * 180 / pi`, `toRad(cpAngle(a)) = a`
and `cpAngle(toRad(d)) = d`. -/
theorem cpAngle_toRad_inverse (a d : ℝ) :
    cpAngle Real.pi a = -a * 180 / Real.pi ∧
    toRad Real.pi (cpAngle Real.pi a) = a ∧
    cpAngle Real.pi (toRad Real.pi d) = d := by
  have hpi : Real.pi ≠ 0 := Real.pi_ne_zero
  refine ⟨rfl, ?_, ?_⟩
  · unfold toRad cpAngle
    field_simp
  · unfold toRad cpAngle
    field_simp

/-! ## Removal -/

theorem getSprite_removeSprite_self (t : Target) (s : State) :
    getSprite (removeSprite t s) t = none := by
  unfold removeSprite
  split
  · simp [getSprite_delSprite]
  · rename_i h
    exact h

theorem removeSprite_of_none (t : Target) (s : State) (h : getSprite s t = none) :
    removeSprite t s = s := by
  unfold removeSprite
  rw [h]

theorem removeConstraint_none (key : Ptr) (s : State) (ckey : Ptr) :
    getSprite (removeConstraint key s ckey) (.anchor key) = none ∧
    getSprite (removeConstraint key s ckey) (.joint ckey) = none := by
  unfold removeConstraint
  refine ⟨?_, getSprite_removeSprite_self _ _⟩
  have h : Reach (removingOf (· = .joint ckey)) (removeSprite (.anchor key) s)
      (removeSprite (.joint ckey) (removeSprite (.anchor key) s)) :=
    removeSprite_reach _ (fun _ => rfl) rfl Reach.refl
  exact h.none_of _ (fun h => h) (getSprite_removeSprite_self _ _)

theorem removeConstraint_foldl_none (key : Ptr) (l : List Ptr) (s : State) (t : Target)
    (h : getSprite s t = none) : getSprite (l.foldl (removeConstraint key) s) t = none := by
  have hr : Reach (removingOf (bodyScope key)) s (l.foldl (removeConstraint key) s) :=
    Reach.foldl _ _ (fun s1 x _ => removeConstraint_reach key s1 x) Reach.refl
  exact hr.none_of t (fun h => h) h

theorem removeConstraint_foldl (key : Ptr) (l : List Ptr) (s : State) :
    (l ≠ [] → getSprite (l.foldl (removeConstraint key) s) (.anchor key) = none) ∧
    ∀ c ∈ l, getSprite (l.foldl (removeConstraint key) s) (.joint c) = none := by
  induction l generalizing s with
  | nil => simp
  | cons x l ih =>
      refine ⟨fun _ => ?_, fun c hc => ?_⟩
      · exact removeConstraint_foldl_none key l _ _ (removeConstraint_none key s x).1
      · rcases List.mem_cons.1 hc with h | h
        · subst h
          exact removeConstraint_foldl_none key l _ _ (removeConstraint_none key s c).2
        · exact (ih (removeConstraint key s x)).2 c h

theorem removeBody_sprites_none (w : World) (st : State) (B : Ptr) :
    (w.constraints B ≠ [] → getSprite (removeBody w (some B) st) (.anchor B) = none) ∧
    ∀ c ∈ w.constraints B, getSprite (removeBody w (some B) st) (.joint c) = none :=
  removeConstraint_foldl B (w.constraints B)
    (removeSprite (.body B) { st with pBodies := st.pBodies.filter (fun k => k != B) })

/-- C2, amended: `removeBody(B)` leaves no anchor sprite of `B` when the
engine lists at least one constraint for `B` at removal time, and no
connection sprite of any constraint the engine lists for `B` at removal time. -/
theorem removeBody_listed_constraints (w : World) (st : State) (B : Ptr) :
    (w.constraints B ≠ [] →
      getSprite (removeBody w (some B) st) (.anchor B) = none ∧
      spriteCount (removeBody w (some B) st) (.anchor B) = 0) ∧
    ∀ c ∈ w.constraints B,
      getSprite (removeBody w (some B) st) (.joint c) = none ∧
      spriteCount (removeBody w (some B) st) (.joint c) = 0 := by
  have key := removeBody_sprites_none w st B
  refine ⟨fun h => ?_, fun c hc => ?_⟩
  · exact ⟨key.1 h, (spriteCount_eq_zero _ _).2 (key.1 h)⟩
  · exact ⟨key.2 c hc, (spriteCount_eq_zero _ _).2 (key.2 c hc)⟩

/-- C2 fails as stated: body 1 is registered while constraints 7 and 8
reference it; when the engine lists no constraint for body 1 at removal time,
`removeBody` leaves its anchor sprite and both connection sprites in the
tables. -/
theorem removeBody_leaves_sprites :
    7 ∈ exWorld.constraints 1 ∧ (exWorld.constraint 7).a = 1 ∧
    exWorldUnlinked.constraints 1 = [] ∧
    (getSprite (removeBody exWorldUnlinked (some 1)
      (addBody exOptions exWorld (some 1) State.init)) (.anchor 1)).isSome = true ∧
    (getSprite (removeBody exWorldUnlinked (some 1)
      (addBody exOptions exWorld (some 1) State.init)) (.joint 7)).isSome = true := by
  decide!

/-! ## Calls on a body that is not registered -/

theorem State.pBodies_self (st : State) : { st with pBodies := st.pBodies } = st := by
  cases st
  rfl

theorem showConstraint_foldl_id (key : Ptr) (l : List Ptr) (s : State)
    (h : ∀ c ∈ l, getSprite s (.anchor key) = none ∧ getSprite s (.joint c) = none) :
    l.foldl (showConstraint key) s = s := by
  induction l with
  | nil => rfl
  | cons x l ih =>
      have hx := h x (List.mem_cons_self _ _)
      have : showConstraint key s x = s := by
        unfold showConstraint
        simp only [hx.1, hx.2]
      rw [List.foldl_cons, this]
      exact ih (fun c hc => h c (List.mem_cons_of_mem _ hc))

theorem hideConstraint_foldl_id (key : Ptr) (l : List Ptr) (s : State)
    (h : ∀ c ∈ l, getSprite s (.anchor key) = none ∧ getSprite s (.joint c) = none) :
    l.foldl (hideConstraint key) s = s := by
  induction l with
  | nil => rfl
  | cons x l ih =>
      have hx := h x (List.mem_cons_self _ _)
      have : hideConstraint key s x = s := by
        unfold hideConstraint
        simp only [hx.1, hx.2]
      rw [List.foldl_cons, this]
      exact ih (fun c hc => h c (List.mem_cons_of_mem _ hc))

theorem removeConstraint_foldl_id (key : Ptr) (l : List Ptr) (s : State)
    (h : ∀ c ∈ l, getSprite s (.anchor key) = none ∧ getSprite s (.joint c) = none) :
    l.foldl (removeConstraint key) s = s := by
  induction l with
  | nil => rfl
  | cons x l ih =>
      have hx := h x (List.mem_cons_self _ _)
      have : removeConstraint key s x = s := by
        unfold removeConstraint
        rw [removeSprite_of_none _ _ hx.1, removeSprite_of_none _ _ hx.2]
      rw [List.foldl_cons, this]
      exact ih (fun c hc => h c (List.mem_cons_of_mem _ hc))

/-- C3, amended: for a body `B` that is not registered, has no body sprite,
and for which every constraint the engine lists finds neither an anchor sprite
of `B` nor a connection sprite of its own, `showBody(B)`, `hideBody(B)` and
`removeBody(B)` return the state unchanged (tables, flag and call log). -/
theorem unregistered_noop (w : World) (st : State) (B : Ptr)
    (hreg : B ∉ st.pBodies) (hbody : getSprite st (.body B) = none)
    (hcons : ∀ c ∈ w.constraints B,
      getSprite st (.anchor B) = none ∧ getSprite st (.joint c) = none) :
    showBody w (some B) st = st ∧ hideBody w (some B) st = st ∧
      removeBody w (some B) st = st := by
  refine ⟨?_, ?_, ?_⟩
  · unfold showBody
    simp only [hbody]
    exact showConstraint_foldl_id B _ st hcons
  · unfold hideBody
    simp only [hbody]
    exact hideConstraint_foldl_id B _ st hcons
  · unfold removeBody
    have hf : st.pBodies.filter (fun k => k != B) = st.pBodies := by
      rw [List.filter_eq_self]
      intro a ha
      have : a ≠ B := fun e => hreg (e ▸ ha)
      simp [this]
    simp only [hf, State.pBodies_self]
    rw [removeSprite_of_none _ _ hbody]
    exact removeConstraint_foldl_id B _ st hcons

/-- Witness for C3: body 4 was never added; the engine lists constraint 8 for
it, which has no connection sprite while only body 2 is registered. -/
theorem unregistered_noop_witness :
    showBody exWorld (some 4) (addBody exOptions exWorld (some 2) State.init) =
        addBody exOptions exWorld (some 2) State.init ∧
      hideBody exWorld (some 4) (addBody exOptions exWorld (some 2) State.init) =
        addBody exOptions exWorld (some 2) State.init ∧
      removeBody exWorld (some 4) (addBody exOptions exWorld (some 2) State.init) =
        addBody exOptions exWorld (some 2) State.init :=
  unregistered_noop exWorld (addBody exOptions exWorld (some 2) State.init) 4
    (by decide!) (by decide!) (by decide!)

/-- C3 fails as stated: body 2 was never added but shares constraint 7 with
the registered body 1; `removeBody(2)` deletes the connection sprite of
constraint 7 and `showBody(2)`, `hideBody(2)` issue calls on it. -/
theorem unregistered_touches_connection :
    2 ∉ (addBody exOptions exWorld (some 1) State.init).pBodies ∧
    (getSprite (addBody exOptions exWorld (some 1) State.init) (.joint 7)).isSome = true ∧
    getSprite (removeBody exWorld (some 2) (addBody exOptions exWorld (some 1) State.init))
      (.joint 7) = none ∧
    (showBody exWorld (some 2) (addBody exOptions exWorld (some 1) State.init)).log =
      (addBody exOptions exWorld (some 1) State.init).log ++ [⟨.joint 7, .show⟩] ∧
    (hideBody exWorld (some 2) (addBody exOptions exWorld (some 1) State.init)).log =
      (addBody exOptions exWorld (some 1) State.init).log ++ [⟨.joint 7, .hide⟩] := by
  decide!


/-! ## Registration creates at most one sprite per key -/

theorem Reach.count_le_one {F : Footprint} {a b : State} (h : Reach F a b) (T : Target)
    (hs : spriteCount a T ≤ 1) : spriteCount b T ≤ 1 := by
  induction h with
  | refl => exact hs
  | step p _ hal ih =>
      cases p with
      | emit t c => simpa [Prim.apply, spriteCount_emit] using ih
      | mod t f => simpa [Prim.apply, spriteCount_modSprite] using ih
      | put t s =>
          by_cases e : T = t
          · subst e
            simp only [Prim.apply, spriteCount_putSprite, if_true]
            omega
          · simpa [Prim.apply, spriteCount_putSprite, e] using ih
      | del t =>
          by_cases e : T = t
          · simp [Prim.apply, spriteCount_delSprite, e]
          · simpa [Prim.apply, spriteCount_delSprite, e] using ih
      | bodies l => cases T <;> exact ih
      | force v => cases T <;> exact ih

theorem createBodySprite_count (o : Options) (b : Ptr) (shape : Shape) (s : State)
    (hle : spriteCount s (.body b) ≤ 1) :
    spriteCount (createBodySprite o b shape s) (.body b) = 1 := by
  cases h : getSprite s (.body b) with
  | none =>
      have h0 := (spriteCount_eq_zero s (.body b)).2 h
      simp [createBodySprite, h, setZ, spriteCount_emit, spriteCount_modSprite,
        spriteCount_putSprite, h0]
  | some c =>
      have h0 : spriteCount s (.body b) ≠ 0 := by
        intro e
        rw [(spriteCount_eq_zero s (.body b)).1 e] at h
        cases h
      simp only [createBodySprite, h]
      omega

theorem createAnchorSprite_count (o : Options) (b : Ptr) (s : State)
    (hle : spriteCount s (.anchor b) ≤ 1) :
    spriteCount (createAnchorSprite o b s) (.anchor b) = 1 := by
  cases h : getSprite s (.anchor b) with
  | none =>
      have h0 := (spriteCount_eq_zero s (.anchor b)).2 h
      have h1 : spriteCount (putSprite (.anchor b) (Sprite.blank o.dotsize o.dotsize)
          (emit (.anchor b) (.createCanvasSprite o.dotsize o.dotsize) s)) (.anchor b) = 1 := by
        simp [spriteCount_putSprite, spriteCount_emit, h0]
      simp only [createAnchorSprite, h]
      rw [spriteCount_emit]
      split
      · simp [copyCanvasProperty, setWidth, setHeight, setZ, spriteCount_emit,
          spriteCount_modSprite, h1]
      · simp [setZ, spriteCount_emit, spriteCount_modSprite, h1]
  | some c =>
      have h0 : spriteCount s (.anchor b) ≠ 0 := by
        intro e
        rw [(spriteCount_eq_zero s (.anchor b)).1 e] at h
        cases h
      simp only [createAnchorSprite, h]
      omega

theorem cpBodyEachShapeInitCallback_count (o : Options) (b : Ptr) (s : State) (shape : Shape)
    (hle : spriteCount s (.body b) ≤ 1) :
    spriteCount (cpBodyEachShapeInitCallback o b s shape) (.body b) = 1 := by
  unfold cpBodyEachShapeInitCallback
  have h1 := createBodySprite_count o b shape s hle
  have hr : Reach (touching (· = .body b)) (createBodySprite o b shape s)
      (updateCanvasMetaInfo o (.body b) shape.shapeType
        (accumulateVerts b shape (createBodySprite o b shape s))) :=
    updateCanvasMetaInfo_reach o _ _ (fun _ => rfl) rfl (accumulateVerts_reach b shape _)
  exact hr.count_one _ (fun h => h) h1

theorem cpBodyEachConstraintInitCallback_count (o : Options) (w : World) (b : Ptr) (s : State)
    (cptr : Ptr) (hle : spriteCount s (.anchor b) ≤ 1) :
    spriteCount (cpBodyEachConstraintInitCallback o w b s cptr) (.anchor b) = 1 := by
  unfold cpBodyEachConstraintInitCallback
  simp only []
  have h1 := createAnchorSprite_count o b s hle
  split
  · exact (createConnectionSprite_reach o w b cptr _).count_one _ (fun h => h) h1
  · exact h1

theorem initDebugCanvas_body_count (o : Options) (w : World) (b : Ptr) (s : State)
    (hshapes : w.shapes b ≠ []) (hle : spriteCount s (.body b) ≤ 1) :
    spriteCount (initDebugCanvas o w b s) (.body b) = 1 := by
  cases hl : w.shapes b with
  | nil => exact absurd hl hshapes
  | cons x l =>
      have h1 := cpBodyEachShapeInitCallback_count o b s x hle
      have h2 : Reach (creating (bodyScope b)) (cpBodyEachShapeInitCallback o b s x)
          (l.foldl (cpBodyEachShapeInitCallback o b) (cpBodyEachShapeInitCallback o b s x)) :=
        Reach.foldl _ _
          (fun s1 y _ => Reach.mono (creating_mono (fun _ h => Or.inl h))
            (cpBodyEachShapeInitCallback_reach o b s1 y)) Reach.refl
      have h3 := h2.count_one _ (fun h => h) h1
      unfold initDebugCanvas
      simp only [hl, List.foldl_cons]
      split
      · refine Reach.count_one (F := creating (bodyScope b)) ?_ _ (fun h => h) h3
        exact Reach.foldl _ _ (fun s1 y _ => Reach.mono (creating_mono (fun t ht => by
          rcases ht with h | h
          · exact Or.inr (Or.inl h)
          · exact Or.inr (Or.inr ⟨y, h⟩))) (cpBodyEachConstraintInitCallback_reach o w b s1 y))
          Reach.refl
      · exact h3

theorem initDebugCanvas_anchor_count (o : Options) (w : World) (b : Ptr) (s : State)
    (hopt : o.Constraint = true) (hle : spriteCount s (.anchor b) ≤ 1) :
    spriteCount (initDebugCanvas o w b s) (.anchor b) =
      if w.constraints b = [] then spriteCount s (.anchor b) else 1 := by
  have h1 : Reach (creating (· = .body b)) s
      ((w.shapes b).foldl (cpBodyEachShapeInitCallback o b) s) :=
    Reach.foldl _ _ (fun s1 y _ => cpBodyEachShapeInitCallback_reach o b s1 y) Reach.refl
  have h2 : spriteCount ((w.shapes b).foldl (cpBodyEachShapeInitCallback o b) s) (.anchor b) =
      spriteCount s (.anchor b) :=
    h1.count_eq _ (fun h => by cases h) (fun h => h)
  unfold initDebugCanvas
  simp only [hopt, if_true]
  cases hl : w.constraints b with
  | nil => simpa using h2
  | cons x l =>
      simp only [List.foldl_cons]
      have h3 := cpBodyEachConstraintInitCallback_count o w b _ x (h2 ▸ hle)
      have h4 : Reach (creating (bodyScope b))
          (cpBodyEachConstraintInitCallback o w b
            ((w.shapes b).foldl (cpBodyEachShapeInitCallback o b) s) x)
          (l.foldl (cpBodyEachConstraintInitCallback o w b)
            (cpBodyEachConstraintInitCallback o w b
              ((w.shapes b).foldl (cpBodyEachShapeInitCallback o b) s) x)) :=
        Reach.foldl _ _ (fun s1 y _ => Reach.mono (creating_mono (fun t ht => by
          rcases ht with h | h
          · exact Or.inr (Or.inl h)
          · exact Or.inr (Or.inr ⟨y, h⟩))) (cpBodyEachConstraintInitCallback_reach o w b s1 y))
          Reach.refl
      simpa using h4.count_one _ (fun h => h) h3

/-- C9, amended: with the `Constraint` option enabled, `addBody(B)` leaves
exactly one anchor sprite for `B`, shared by all its constraints, when the
engine lists at least one constraint for `B`, and creates none when it lists
none. -/
theorem addBody_anchor_count (o : Options) (w : World) (st : State) (B : Ptr)
    (hopt : o.Constraint = true) (hle : spriteCount st (.anchor B) ≤ 1) :
    spriteCount (addBody o w (some B) st) (.anchor B) =
      if w.constraints B = [] then spriteCount st (.anchor B) else 1 := by
  unfold addBody
  exact initDebugCanvas_anchor_count o w B _ hopt hle

/-- Witness for C9: body 1 with its two constraints. -/
theorem addBody_anchor_count_witness :
    spriteCount (addBody exOptions exWorld (some 1) State.init) (.anchor 1) =
      if exWorld.constraints 1 = [] then spriteCount State.init (.anchor 1) else 1 :=
  addBody_anchor_count exOptions exWorld State.init 1 (by decide) (by decide)

/-- C9 fails as stated: body 1 is referenced by the two constraints 7 and 8
at registration, and the anchor-sprite table then holds one sprite. -/
theorem two_constraints_one_anchor :
    exOptions.Constraint = true ∧ exWorld.constraints 1 = [7, 8] ∧
    (exWorld.constraint 7).a = 1 ∧ (exWorld.constraint 8).a = 1 ∧
    (addBody exOptions exWorld (some 1) State.init).pConstraintDebugCanvas.length = 1 ∧
    spriteCount (addBody exOptions exWorld (some 1) State.init) (.anchor 1) = 1 := by
  decide!

/-! ## Life cycle of the body sprite -/

theorem removeSprite_pBodies (t : Target) (s : State) :
    (removeSprite t s).pBodies = s.pBodies := by
  unfold removeSprite
  split
  · cases t <;> rfl
  · rfl

theorem removeConstraint_foldl_pBodies (key : Ptr) (l : List Ptr) (s : State) :
    (l.foldl (removeConstraint key) s).pBodies = s.pBodies := by
  induction l generalizing s with
  | nil => rfl
  | cons x l ih =>
      rw [List.foldl_cons, ih]
      unfold removeConstraint
      rw [removeSprite_pBodies, removeSprite_pBodies]

theorem removeBody_unregisters (w : World) (B : Ptr) (s : State) :
    B ∉ (removeBody w (some B) s).pBodies ∧
    getSprite (removeBody w (some B) s) (.body B) = none := by
  have e : removeBody w (some B) s = (w.constraints B).foldl (removeConstraint B)
      (removeSprite (.body B) { s with pBodies := s.pBodies.filter (fun k => k != B) }) := rfl
  rw [e]
  refine ⟨?_, removeConstraint_foldl_none B _ _ _ (getSprite_removeSprite_self _ _)⟩
  rw [removeConstraint_foldl_pBodies, removeSprite_pBodies]
  simp

/-- C1, amended: for a body `B` with at least one shape, after `addBody(B)`
the body-sprite table holds exactly one sprite for `B`, and this stays so
across every sequence of public method calls that does not ask for the removal
of `B`; after `removeBody(B)` the body table and the body-sprite table have no
entry keyed by `B`, and the anchor-sprite table has none when the engine lists
at least one constraint for `B` at removal time. -/
theorem body_sprite_lifecycle (o : Options) (m : MathLib) (w : World) (st : State) (B : Ptr)
    (hshapes : w.shapes B ≠ []) (hle : spriteCount st (.body B) ≤ 1) :
    (∀ trace : List (World × Op), (∀ x ∈ trace, x.2.removes B = false) →
      spriteCount (run o m trace (addBody o w (some B) st)) (.body B) = 1) ∧
    (∀ (w2 : World) (s : State),
      B ∉ (removeBody w2 (some B) s).pBodies ∧
      spriteCount (removeBody w2 (some B) s) (.body B) = 0 ∧
      (w2.constraints B ≠ [] → spriteCount (removeBody w2 (some B) s) (.anchor B) = 0)) := by
  refine ⟨fun trace htrace => ?_, fun w2 s => ?_⟩
  · have h1 : spriteCount (addBody o w (some B) st) (.body B) = 1 := by
      unfold addBody
      exact initDebugCanvas_body_count o w B _ hshapes hle
    exact (run_reach o m trace B _ htrace).count_one _ (fun h => h rfl) h1
  · have h := removeBody_unregisters w2 B s
    exact ⟨h.1, (spriteCount_eq_zero _ _).2 h.2,
      fun hc => (spriteCount_eq_zero _ _).2 ((removeBody_sprites_none w2 s B).1 hc)⟩

/-- Witness for C1: body 1 with its square, added to the empty overlay. -/
theorem body_sprite_lifecycle_witness :
    (∀ trace : List (World × Op), (∀ x ∈ trace, x.2.removes 1 = false) →
      spriteCount (run exOptions exMath trace (addBody exOptions exWorld (some 1) State.init))
        (.body 1) = 1) ∧
    (∀ (w2 : World) (s : State),
      1 ∉ (removeBody w2 (some 1) s).pBodies ∧
      spriteCount (removeBody w2 (some 1) s) (.body 1) = 0 ∧
      (w2.constraints 1 ≠ [] → spriteCount (removeBody w2 (some 1) s) (.anchor 1) = 0)) :=
  body_sprite_lifecycle exOptions exMath exWorld State.init 1 (by decide) (by decide)

/-- C1 fails as stated: body 3 has no shape, and `addBody(3)` registers it
without creating a body sprite; body 1 is registered with constraints, and
after `removeBody(1)` at a time when the engine lists no constraint for it the
anchor-sprite table still has an entry keyed by body 1. -/
theorem no_shape_no_sprite_and_anchor_left :
    exWorld.shapes 3 = [] ∧
    3 ∈ (addBody exOptions exWorld (some 3) State.init).pBodies ∧
    spriteCount (addBody exOptions exWorld (some 3) State.init) (.body 3) = 0 ∧
    spriteCount (removeBody exWorldUnlinked (some 1)
      (addBody exOptions exWorld (some 1) State.init)) (.anchor 1) = 1 := by
  decide!


/-! ## The update loop -/

theorem drawAll_nil (o : Options) (m : MathLib) (w : World) (reload : Bool) (r : Outcome) :
    drawAll o m w reload [] r = r := rfl

theorem drawAll_cons (o : Options) (m : MathLib) (w : World) (reload : Bool) (k : Ptr)
    (l : List Ptr) (r : Outcome) :
    drawAll o m w reload (k :: l) r =
      drawAll o m w reload l (r.andThen fun s => drawBody o m w reload s k) := rfl

theorem drawAll_threw (o : Options) (m : MathLib) (w : World) (reload : Bool) (l : List Ptr)
    (r : Outcome) (h : r.threw = true) : drawAll o m w reload l r = r := by
  induction l with
  | nil => rfl
  | cons k l ih =>
      rw [drawAll_cons]
      have : (r.andThen fun s => drawBody o m w reload s k) = r := by
        simp [Outcome.andThen, h]
      rw [this, ih]

theorem drawAll_not_threw (o : Options) (m : MathLib) (w : World) (reload : Bool)
    (l : List Ptr) (r : Outcome) (h : (drawAll o m w reload l r).threw = false) :
    r.threw = false := by
  cases hr : r.threw with
  | false => rfl
  | true =>
      rw [drawAll_threw o m w reload l r hr] at h
      rw [hr] at h
      cases h

theorem drawAll_cons_ok (o : Options) (m : MathLib) (w : World) (reload : Bool) (k : Ptr)
    (l : List Ptr) (r : Outcome) (h : (drawAll o m w reload (k :: l) r).threw = false) :
    r.threw = false ∧ (drawBody o m w reload r.st k).threw = false ∧
    drawAll o m w reload (k :: l) r = drawAll o m w reload l (drawBody o m w reload r.st k) := by
  rw [drawAll_cons] at h
  have h1 := drawAll_not_threw o m w reload l _ h
  have hr : r.threw = false := by
    cases hr : r.threw with
    | false => rfl
    | true =>
        simp [Outcome.andThen, hr] at h1
  have e : (r.andThen fun s => drawBody o m w reload s k) = drawBody o m w reload r.st k := by
    simp [Outcome.andThen, hr]
  rw [e] at h1
  exact ⟨hr, h1, by rw [drawAll_cons, e]⟩

theorem drawAll_reach (o : Options) (m : MathLib) (w : World) (reload : Bool) (l : List Ptr)
    (F : Footprint) (hF : ∀ k ∈ l, ∀ s, Reach F s (drawBody o m w reload s k).st)
    (r : Outcome) : Reach F r.st (drawAll o m w reload l r).st := by
  unfold drawAll
  exact Reach.foldlOutcome _ _ (fun s k hk => hF k hk s) Reach.refl

theorem drawBody_apart (o : Options) (m : MathLib) (w : World) (reload : Bool) (s : State)
    (b B : Ptr) (hb : b ≠ B) :
    Reach (touching (apartFrom w B)) s (drawBody o m w reload s b).st := by
  refine Reach.mono (touching_mono ?_) (drawBody_reach o m w reload s b)
  intro t ht
  rcases ht with h | h | ⟨c, h, hc⟩
  · subst h
    exact ⟨fun e => hb (by injection e), fun e => Target.noConfusion e,
      fun c e => Target.noConfusion e⟩
  · subst h
    exact ⟨fun e => Target.noConfusion e, fun e => hb (by injection e),
      fun c e => Target.noConfusion e⟩
  · subst h
    refine ⟨fun e => Target.noConfusion e, fun e => Target.noConfusion e, fun c2 e => ?_⟩
    injection e with e
    subst e
    rw [hc]
    exact hb

theorem drawBody_asleep (o : Options) (m : MathLib) (w : World) (reload : Bool) (s : State)
    (B : Ptr) (c : Sprite) (hc : getSprite s (.body B) = some c) (hs : c.sleeping = some true)
    (hf : s.forceReloadAll = false) (hw : w.sleeping B = true) :
    drawBody o m w reload s B = ⟨s, false⟩ := by
  unfold drawBody
  simp [hc, hs, hf, hw]

theorem drawBodyCore_ok (o : Options) (m : MathLib) (w : World) (b : Ptr)
    (sleeping reload : Bool) (s : State)
    (h : (drawBodyCore o m w b sleeping reload s).threw = false) :
    ∃ s2, Reach (touching (· = .body b)) s s2 ∧
      (reload = true → reloadGeometry o w b (refreshTransform o m w b sleeping s) = ⟨s2, false⟩) ∧
      (reload = false → s2 = refreshTransform o m w b sleeping s) ∧
      (drawBodyCore o m w b sleeping reload s).st = finishDraw o m w b sleeping s2 := by
  unfold drawBodyCore at h ⊢
  simp only [] at h ⊢
  cases reload with
  | false =>
      refine ⟨_, refreshTransform_reach o m w b sleeping s, fun e => Bool.noConfusion e,
        fun _ => rfl, ?_⟩
      simp [Outcome.andThen]
  | true =>
      simp only [if_true] at h ⊢
      cases hr : (reloadGeometry o w b (refreshTransform o m w b sleeping s)).threw with
      | true => simp [Outcome.andThen, hr] at h
      | false =>
          refine ⟨(reloadGeometry o w b (refreshTransform o m w b sleeping s)).st,
            (refreshTransform_reach o m w b sleeping s).trans (reloadGeometry_reach o w b _),
            fun _ => ?_, fun e => Bool.noConfusion e, ?_⟩
          · rw [← hr]
          · simp [Outcome.andThen, hr]

theorem finishDraw_sleeping (o : Options) (m : MathLib) (w : World) (b : Ptr) (sleeping : Bool)
    (s : State) (hs : (getSprite s (.body b)).isSome = true) :
    ∃ c, getSprite (finishDraw o m w b sleeping s) (.body b) = some c ∧
      c.sleeping = some sleeping := by
  have h1 : Reach (touching (constraintTargets w b)) s
      (if o.Constraint = true then eachConstraintDraw o m w b s else s) := by
    split
    · exact eachConstraintDraw_reach o m w b s
    · exact Reach.refl
  have h2 := h1.isSome_of (.body b) (fun h => h) hs
  unfold finishDraw
  simp only [getSprite_modSprite, if_true]
  cases h3 : getSprite (if o.Constraint = true then eachConstraintDraw o m w b s else s)
      (.body b) with
  | none => simp [h3] at h2
  | some c => exact ⟨_, rfl, rfl⟩

theorem drawBodyCore_sleeping (o : Options) (m : MathLib) (w : World) (b : Ptr)
    (sleeping reload : Bool) (s : State)
    (h : (drawBodyCore o m w b sleeping reload s).threw = false)
    (hs : (getSprite s (.body b)).isSome = true) :
    ∃ c, getSprite (drawBodyCore o m w b sleeping reload s).st (.body b) = some c ∧
      c.sleeping = some sleeping := by
  obtain ⟨s2, hr, _, _, e⟩ := drawBodyCore_ok o m w b sleeping reload s h
  rw [e]
  exact finishDraw_sleeping o m w b sleeping s2 (hr.isSome_of _ (fun h => h) hs)

theorem drawBody_records (o : Options) (m : MathLib) (w : World) (reload : Bool) (s : State)
    (B : Ptr) (hs : (getSprite s (.body B)).isSome = true)
    (h : (drawBody o m w reload s B).threw = false) :
    ∃ c, getSprite (drawBody o m w reload s B).st (.body B) = some c ∧
      c.sleeping = some (w.sleeping B) := by
  cases hc : getSprite s (.body B) with
  | none => simp [hc] at hs
  | some c =>
      unfold drawBody at h ⊢
      simp only [hc] at h ⊢
      by_cases hf : s.forceReloadAll = true
      · simp only [hf, if_true] at h ⊢
        exact drawBodyCore_sleeping o m w B _ _ s h hs
      · simp only [hf, if_false] at h ⊢
        by_cases hk : (w.sleeping B && (c.sleeping == some true)) = true
        · simp only [hk, if_true]
          refine ⟨c, hc, ?_⟩
          simp only [Bool.and_eq_true, beq_iff_eq] at hk
          rw [hk.2, hk.1]
        · simp only [hk, if_false] at h ⊢
          by_cases hd : (c.sleeping != some (w.sleeping B)) = true
          · simp only [hd, if_true] at h ⊢
            exact drawBodyCore_sleeping o m w B _ _ s h hs
          · simp only [hd, if_false] at h ⊢
            exact drawBodyCore_sleeping o m w B _ _ s h hs


/-! ## When `update` returns normally -/

theorem polyLoop_returns (o : Options) (t : Target) (canvas : Sprite) (vs : List Vec)
    (prev : Option (Vec × Vec)) (s : State)
    (h : o.Poly = false ∨ prev.isSome = true ∨ vs.length ≠ 1) :
    (polyLoop o t canvas vs prev s).threw = false := by
  induction vs generalizing prev s with
  | nil => rfl
  | cons v rest ih =>
      unfold polyLoop
      simp only []
      have hnext : ∀ (q : Vec × Vec) (s3 : State),
          (polyLoop o t canvas rest (some q) s3).threw = false :=
        fun q s3 => ih (some q) s3 (Or.inr (Or.inl rfl))
      cases hp : o.Poly with
      | false => simp [Outcome.andThen, hnext]
      | true =>
          cases prev with
          | some pr =>
              by_cases hr : rest.isEmpty = true <;> simp [Outcome.andThen, hr, hnext]
          | none =>
              have hr : rest.isEmpty = false := by
                rcases h with h | h | h
                · rw [hp] at h
                  cases h
                · cases h
                · cases rest with
                  | nil => exact absurd rfl h
                  | cons _ _ => rfl
              simp [Outcome.andThen, hr, hnext]

theorem foldl_andThen_returns {β : Type} (g : State → β → Outcome) (l : List β)
    (hg : ∀ s x, x ∈ l → (g s x).threw = false) (r : Outcome) (hr : r.threw = false) :
    (l.foldl (fun (r : Outcome) x => r.andThen fun s => g s x) r).threw = false := by
  induction l generalizing r with
  | nil => exact hr
  | cons x l ih =>
      refine ih (fun s y hy => hg s y (List.mem_cons_of_mem _ hy)) _ ?_
      simp only [Outcome.andThen, hr]
      exact hg _ x (List.mem_cons_self _ _)

theorem drawBody_returns (o : Options) (m : MathLib) (w : World) (reload : Bool) (s : State)
    (b : Ptr) (h : o.Poly = false ∨ ∀ shape ∈ w.shapes b, shape.verts.length ≠ 1) :
    (drawBody o m w reload s b).threw = false := by
  have hshape : ∀ s1 shape, shape ∈ w.shapes b →
      (cpBodyEachShapeDrawCallback o b s1 shape).threw = false := by
    intro s1 shape hmem
    unfold cpBodyEachShapeDrawCallback
    split
    · rfl
    · split
      · rfl
      · split
        · refine polyLoop_returns o _ _ _ _ _ ?_
          rcases h with h | h
          · exact Or.inl h
          · exact Or.inr (Or.inr (h shape hmem))
        · rfl
  have hgeo : ∀ s1, (reloadGeometry o w b s1).threw = false := by
    intro s1
    unfold reloadGeometry
    simp only []
    have : (if (o.Circle || o.Poly || o.Vertex) = true then
        eachShapeDraw o w b (drawBoundingBox o (.body b) s1)
        else ⟨drawBoundingBox o (.body b) s1, false⟩).threw = false := by
      split
      · unfold eachShapeDraw
        exact foldl_andThen_returns _ _ hshape _ rfl
      · rfl
    simp only [Outcome.andThen, this]
    rfl
  have hcore : ∀ sleeping rl, (drawBodyCore o m w b sleeping rl s).threw = false := by
    intro sleeping rl
    unfold drawBodyCore
    simp only []
    cases rl with
    | false => simp [Outcome.andThen]
    | true => simp [Outcome.andThen, hgeo]
  unfold drawBody
  split
  · rfl
  · simp only []
    split
    · exact hcore _ _
    · split
      · rfl
      · split
        · exact hcore _ _
        · exact hcore _ _

/-- An `update` call returns normally when the `Poly` option is disabled or
no polygon of a registered body has exactly one vertex. -/
theorem update_returns (o : Options) (m : MathLib) (w : World) (reload : Bool) (st : State)
    (h : o.Poly = false ∨ ∀ b ∈ st.pBodies, ∀ shape ∈ w.shapes b, shape.verts.length ≠ 1) :
    (update o m w reload st).threw = false := by
  have hall : (drawAll o m w reload st.pBodies ⟨st, false⟩).threw = false := by
    unfold drawAll
    refine foldl_andThen_returns _ _ (fun s b hb => drawBody_returns o m w reload s b ?_) _ rfl
    rcases h with h | h
    · exact Or.inl h
    · exact Or.inr (h b hb)
  unfold update
  simp [Outcome.andThen, hall]

/-! ## A body that stays asleep -/

theorem update_ok (o : Options) (m : MathLib) (w : World) (reload : Bool) (st : State)
    (h : (update o m w reload st).threw = false) :
    (drawAll o m w reload st.pBodies ⟨st, false⟩).threw = false ∧
    (update o m w reload st).st.forceReloadAll = false ∧
    (∀ t, getSprite (update o m w reload st).st t =
      getSprite (drawAll o m w reload st.pBodies ⟨st, false⟩).st t) ∧
    (update o m w reload st).st.log = (drawAll o m w reload st.pBodies ⟨st, false⟩).st.log := by
  unfold update at h ⊢
  cases hr : (drawAll o m w reload st.pBodies ⟨st, false⟩).threw with
  | true => simp [Outcome.andThen, hr] at h
  | false =>
      simp only [Outcome.andThen, hr]
      refine ⟨trivial, ?_, fun t => ?_, ?_⟩
      · by_cases hf : (drawAll o m w reload st.pBodies ⟨st, false⟩).st.forceReloadAll = true
        · simp [hf]
        · simp [hf]
      · by_cases hf : (drawAll o m w reload st.pBodies ⟨st, false⟩).st.forceReloadAll = true
        · simp only [hf, if_true]
          cases t <;> rfl
        · simp [hf]
      · by_cases hf : (drawAll o m w reload st.pBodies ⟨st, false⟩).st.forceReloadAll = true
        · simp [hf]
        · simp [hf]

theorem update_st_of_force (o : Options) (m : MathLib) (w : World) (reload : Bool) (st : State)
    (hF : (drawAll o m w reload st.pBodies ⟨st, false⟩).st.forceReloadAll = false) :
    (update o m w reload st).st = (drawAll o m w reload st.pBodies ⟨st, false⟩).st := by
  unfold update
  cases hr : (drawAll o m w reload st.pBodies ⟨st, false⟩).threw with
  | true => simp [Outcome.andThen, hr]
  | false => simp [Outcome.andThen, hr, hF]

theorem drawAll_records (o : Options) (m : MathLib) (w : World) (reload : Bool) (B : Ptr)
    (hw : w.sleeping B = true) (l : List Ptr) (r : Outcome)
    (hok : (drawAll o m w reload l r).threw = false)
    (hs : (getSprite r.st (.body B)).isSome = true) :
    (B ∈ l ∨ ∃ c, getSprite r.st (.body B) = some c ∧ c.sleeping = some true) →
      ∃ c, getSprite (drawAll o m w reload l r).st (.body B) = some c ∧
        c.sleeping = some true := by
  induction l generalizing r with
  | nil =>
      intro h
      rcases h with h | h
      · cases h
      · exact h
  | cons k l ih =>
      obtain ⟨_, hk, e⟩ := drawAll_cons_ok o m w reload k l r hok
      rw [e] at hok ⊢
      have hs2 : (getSprite (drawBody o m w reload r.st k).st (.body B)).isSome = true :=
        (drawBody_reach o m w reload r.st k).isSome_of _ (fun h => h) hs
      intro h
      refine ih _ hok hs2 ?_
      by_cases hkB : k = B
      · subst hkB
        right
        have := drawBody_records o m w reload r.st k hs hk
        rw [hw] at this
        exact this
      · rcases h with h | h
        · rcases List.mem_cons.1 h with h | h
          · exact absurd h.symm hkB
          · exact Or.inl h
        · right
          have hr := drawBody_apart o m w reload r.st k B hkB
          rw [hr.getSprite_eq (.body B) (fun h => h.1 rfl) (fun h => h) (fun h => h)]
          exact h

theorem drawAll_asleep (o : Options) (m : MathLib) (w : World) (reload : Bool) (B : Ptr)
    (hw : w.sleeping B = true) (l : List Ptr) (r : Outcome)
    (hf : r.st.forceReloadAll = false)
    (hA : ∃ c, getSprite r.st (.body B) = some c ∧ c.sleeping = some true) :
    Reach (touching (apartFrom w B)) r.st (drawAll o m w reload l r).st := by
  induction l generalizing r with
  | nil => exact Reach.refl
  | cons k l ih =>
      rw [drawAll_cons]
      cases hr : r.threw with
      | true =>
          have : (r.andThen fun s => drawBody o m w reload s k) = r := by
            simp [Outcome.andThen, hr]
          rw [this]
          exact ih r hf hA
      | false =>
          have e : (r.andThen fun s => drawBody o m w reload s k) =
              drawBody o m w reload r.st k := by
            simp [Outcome.andThen, hr]
          rw [e]
          by_cases hkB : k = B
          · subst hkB
            obtain ⟨c, hc, hsl⟩ := hA
            rw [drawBody_asleep o m w reload r.st k c hc hsl hf hw]
            exact ih ⟨r.st, false⟩ hf ⟨c, hc, hsl⟩
          · have hr := drawBody_apart o m w reload r.st k B hkB
            refine hr.trans (ih _ ?_ ?_)
            · rw [hr.force_eq (fun h => h)]
              exact hf
            · rw [hr.getSprite_eq (.body B) (fun h => h.1 rfl) (fun h => h) (fun h => h)]
              exact hA

/-- A registered body with a body sprite that the engine reports as sleeping
at two consecutive `update` calls, the first of which returned normally,
gets no call at all from the second one: every call the second `update` logs
addresses a sprite other than the body sprite and the anchor sprite of the
body and the connection sprites drawn with the body, and the body sprite and
the anchor sprite are left as they were, for either value of `reload`. -/
theorem update_twice_asleep (o : Options) (m : MathLib) (w1 w2 : World) (reload1 reload2 : Bool)
    (st0 st1 : State) (B : Ptr)
    (hreg : B ∈ st0.pBodies) (hsprite : (getSprite st0 (.body B)).isSome = true)
    (h1 : w1.sleeping B = true) (h2 : w2.sleeping B = true)
    (hfirst : update o m w1 reload1 st0 = ⟨st1, false⟩) :
    ∃ evs, (update o m w2 reload2 st1).st.log = st1.log ++ evs ∧
      (∀ e ∈ evs, e.target ≠ .body B ∧ e.target ≠ .anchor B ∧
        ∀ c, e.target = .joint c → (w2.constraint c).b ≠ B) ∧
      getSprite (update o m w2 reload2 st1).st (.body B) = getSprite st1 (.body B) ∧
      getSprite (update o m w2 reload2 st1).st (.anchor B) = getSprite st1 (.anchor B) := by
  have hthrew : (update o m w1 reload1 st0).threw = false := by rw [hfirst]
  obtain ⟨hok, hforce, hget, _⟩ := update_ok o m w1 reload1 st0 hthrew
  have hrec := drawAll_records o m w1 reload1 B h1 st0.pBodies ⟨st0, false⟩ hok hsprite
    (Or.inl hreg)
  rw [← hget, hfirst] at hrec
  rw [hfirst] at hforce
  have hreach := drawAll_asleep o m w2 reload2 B h2 st1.pBodies ⟨st1, false⟩ hforce hrec
  have hst := update_st_of_force o m w2 reload2 st1
    ((hreach.force_eq (fun h => h)).trans hforce)
  rw [hst]
  obtain ⟨evs, hlog, hevs⟩ := hreach.log_eq
  exact ⟨evs, hlog, hevs,
    hreach.getSprite_eq (.body B) (fun h => h.1 rfl) (fun h => h) (fun h => h),
    hreach.getSprite_eq (.anchor B) (fun h => h.2.1 rfl) (fun h => h) (fun h => h)⟩


/-! ## A body whose sleep state changed -/

theorem log_emit (t : Target) (c : Call) (s : State) :
    (emit t c s).log = s.log ++ [⟨t, c⟩] := rfl

theorem log_modSprite (t : Target) (f : Sprite → Sprite) (s : State) :
    (modSprite t f s).log = s.log := by
  cases t <;> rfl

theorem countP_emit (p : Event → Bool) (t : Target) (c : Call) (s : State) :
    (emit t c s).log.countP p = s.log.countP p + if p ⟨t, c⟩ = true then 1 else 0 := by
  rw [log_emit, List.countP_append]
  by_cases h : p ⟨t, c⟩ = true <;> simp [List.countP_cons, h]

theorem Reach.countP_eq {F : Footprint} {a b : State} (h : Reach F a b) (p : Event → Bool)
    (hp : ∀ t c, F.emit t c → p ⟨t, c⟩ = false) : b.log.countP p = a.log.countP p := by
  obtain ⟨evs, h1, h2⟩ := h.log_eq
  rw [h1, List.countP_append]
  have : evs.countP p = 0 := by
    rw [List.countP_eq_zero]
    intro e he
    have := hp e.target e.call (h2 e he)
    simp [this]
  omega

theorem isBodyReload_target (B : Ptr) (t : Target) (c : Call)
    (h : isBodyReload B ⟨t, c⟩ = true) : t = .body B := by
  simp [isBodyReload] at h
  exact h.1

theorem isBodyDrawRect_target (B : Ptr) (t : Target) (c : Call)
    (h : isBodyDrawRect B ⟨t, c⟩ = true) : t = .body B := by
  simp [isBodyDrawRect] at h
  exact h.1

theorem refreshTransform_counts (o : Options) (m : MathLib) (w : World) (B : Ptr)
    (sleeping : Bool) (s : State) :
    (refreshTransform o m w B sleeping s).log.countP (isBodyReload B) =
        s.log.countP (isBodyReload B) ∧
      (refreshTransform o m w B sleeping s).log.countP (isBodyDrawRect B) =
        s.log.countP (isBodyDrawRect B) := by
  unfold refreshTransform
  cases sleeping <;>
    simp [setAngle, setCenter, setAnchorPoint, countP_emit, log_modSprite, isBodyReload,
      isBodyDrawRect, Call.isDrawRect]

theorem drawBoundingBox_counts (o : Options) (B : Ptr) (s : State)
    (hs : (getSprite s (.body B)).isSome = true) :
    (drawBoundingBox o (.body B) s).log.countP (isBodyReload B) =
        s.log.countP (isBodyReload B) ∧
      (drawBoundingBox o (.body B) s).log.countP (isBodyDrawRect B) =
        s.log.countP (isBodyDrawRect B) + if o.BB = true then 1 else 0 := by
  unfold drawBoundingBox
  cases hc : getSprite s (.body B) with
  | none => simp [hc] at hs
  | some c =>
      cases hb : o.BB <;>
        simp [countP_emit, isBodyReload, isBodyDrawRect, Call.isDrawRect]

theorem reloadGeometry_counts (o : Options) (w : World) (B : Ptr) (s s2 : State)
    (hs : (getSprite s (.body B)).isSome = true)
    (h : reloadGeometry o w B s = ⟨s2, false⟩) :
    s2.log.countP (isBodyReload B) = s.log.countP (isBodyReload B) + 1 ∧
      s2.log.countP (isBodyDrawRect B) =
        s.log.countP (isBodyDrawRect B) + if o.BB = true then 1 else 0 := by
  have hbb := drawBoundingBox_counts o B s hs
  have hshape : ∀ p : Event → Bool, (∀ t c, p ⟨t, c⟩ = true → c.isShapeDraw = false) →
      (eachShapeDraw o w B (drawBoundingBox o (.body B) s)).st.log.countP p =
        (drawBoundingBox o (.body B) s).log.countP p := by
    intro p hp
    refine (eachShapeDraw_reach o w B _).countP_eq p ?_
    intro t c htc
    cases hpc : p ⟨t, c⟩ with
    | false => rfl
    | true =>
        have := hp t c hpc
        rw [htc.2] at this
        cases this
  have hr1 : ∀ t c, isBodyReload B ⟨t, c⟩ = true → c.isShapeDraw = false := by
    intro t c h
    simp [isBodyReload] at h
    rw [h.2]
    rfl
  have hr2 : ∀ t c, isBodyDrawRect B ⟨t, c⟩ = true → c.isShapeDraw = false := by
    intro t c h
    simp [isBodyDrawRect] at h
    cases c <;> simp [Call.isDrawRect] at h
    rfl
  unfold reloadGeometry at h
  simp only [] at h
  by_cases hopt : (o.Circle || o.Poly || o.Vertex) = true
  · simp only [hopt, if_true] at h
    cases ht : (eachShapeDraw o w B (drawBoundingBox o (.body B) s)).threw with
    | true =>
        simp [Outcome.andThen, ht] at h
        rw [h] at ht
        cases ht
    | false =>
        simp only [Outcome.andThen, ht] at h
        injection h with h _
        subst h
        simp only [countP_emit, hshape _ hr1, hshape _ hr2, hbb.1, hbb.2]
        simp [isBodyReload, isBodyDrawRect, Call.isDrawRect]
  · simp only [hopt] at h
    simp only [Outcome.andThen] at h
    injection h with h _
    subst h
    simp only [countP_emit, hbb.1, hbb.2]
    simp [isBodyReload, isBodyDrawRect, Call.isDrawRect]
    exact hbb

theorem finishDraw_countP (o : Options) (m : MathLib) (w : World) (B : Ptr) (sleeping : Bool)
    (s : State) (p : Event → Bool) (hp : ∀ t c, p ⟨t, c⟩ = true → t = .body B) :
    (finishDraw o m w B sleeping s).log.countP p = s.log.countP p := by
  unfold finishDraw
  simp only [log_modSprite]
  split
  · refine (eachConstraintDraw_reach o m w B s).countP_eq p ?_
    intro t c htc
    cases hpc : p ⟨t, c⟩ with
    | false => rfl
    | true =>
        have := hp t c hpc
        subst this
        rcases htc with h | ⟨c2, h, _⟩ <;> cases h
  · rfl

theorem drawBodyCore_counts (o : Options) (m : MathLib) (w : World) (B : Ptr) (sleeping : Bool)
    (s : State) (hs : (getSprite s (.body B)).isSome = true)
    (h : (drawBodyCore o m w B sleeping true s).threw = false) :
    (drawBodyCore o m w B sleeping true s).st.log.countP (isBodyReload B) =
        s.log.countP (isBodyReload B) + 1 ∧
      (drawBodyCore o m w B sleeping true s).st.log.countP (isBodyDrawRect B) =
        s.log.countP (isBodyDrawRect B) + if o.BB = true then 1 else 0 := by
  obtain ⟨s2, _, hrel, _, e⟩ := drawBodyCore_ok o m w B sleeping true s h
  have hs1 : (getSprite (refreshTransform o m w B sleeping s) (.body B)).isSome = true :=
    (refreshTransform_reach o m w B sleeping s).isSome_of _ (fun h => h) hs
  have h1 := reloadGeometry_counts o w B _ s2 hs1 (hrel rfl)
  have h0 := refreshTransform_counts o m w B sleeping s
  rw [e, finishDraw_countP _ _ _ _ _ _ _ (isBodyReload_target B),
    finishDraw_countP _ _ _ _ _ _ _ (isBodyDrawRect_target B), h1.1, h1.2, h0.1, h0.2]
  exact ⟨rfl, rfl⟩

theorem drawBody_changed (o : Options) (m : MathLib) (w : World) (reload : Bool) (s : State)
    (B : Ptr) (c : Sprite) (hc : getSprite s (.body B) = some c)
    (hchg : c.sleeping ≠ some (w.sleeping B)) :
    drawBody o m w reload s B = drawBodyCore o m w B (w.sleeping B) true s := by
  unfold drawBody
  simp only [hc]
  by_cases hf : s.forceReloadAll = true
  · simp [hf]
  · have hk : ¬ (w.sleeping B && (c.sleeping == some true)) = true := by
      intro hk
      simp only [Bool.and_eq_true, beq_iff_eq] at hk
      exact hchg (by rw [hk.2, hk.1])
    have hd : (c.sleeping != some (w.sleeping B)) = true := by
      simp [bne, hchg]
    simp [hf, hk, hd]

theorem drawAll_counts (o : Options) (m : MathLib) (w : World) (reload : Bool) (B : Ptr)
    (p : Event → Bool) (K : Nat) (hp : ∀ t c, p ⟨t, c⟩ = true → t = .body B)
    (hK : ∀ s, (getSprite s (.body B)).isSome = true →
      (drawBodyCore o m w B (w.sleeping B) true s).threw = false →
      (drawBodyCore o m w B (w.sleeping B) true s).st.log.countP p = s.log.countP p + K)
    (l : List Ptr) (hnd : l.Nodup) (r : Outcome)
    (hok : (drawAll o m w reload l r).threw = false) :
    (B ∉ l → (drawAll o m w reload l r).st.log.countP p = r.st.log.countP p ∧
      getSprite (drawAll o m w reload l r).st (.body B) = getSprite r.st (.body B)) ∧
    (B ∈ l → (∃ c, getSprite r.st (.body B) = some c ∧ c.sleeping ≠ some (w.sleeping B)) →
      (drawAll o m w reload l r).st.log.countP p = r.st.log.countP p + K ∧
      ∃ c, getSprite (drawAll o m w reload l r).st (.body B) = some c ∧
        c.sleeping = some (w.sleeping B)) := by
  induction l generalizing r with
  | nil =>
      refine ⟨fun _ => ⟨rfl, rfl⟩, fun h => ?_⟩
      cases h
  | cons k l ih =>
      obtain ⟨_, hk, e⟩ := drawAll_cons_ok o m w reload k l r hok
      rw [e] at hok ⊢
      have hnd2 : l.Nodup := (List.nodup_cons.1 hnd).2
      have hkl : k ∉ l := (List.nodup_cons.1 hnd).1
      have IH := ih hnd2 _ hok
      have frame : k ≠ B →
          (drawBody o m w reload r.st k).st.log.countP p = r.st.log.countP p ∧
          getSprite (drawBody o m w reload r.st k).st (.body B) = getSprite r.st (.body B) := by
        intro hkB
        have hr := drawBody_apart o m w reload r.st k B hkB
        refine ⟨hr.countP_eq p ?_,
          hr.getSprite_eq (.body B) (fun h => h.1 rfl) (fun h => h) (fun h => h)⟩
        intro t c htc
        cases hpc : p ⟨t, c⟩ with
        | false => rfl
        | true => exact absurd (hp t c hpc) htc.1
      refine ⟨fun hB => ?_, fun hB hchg => ?_⟩
      · have hkB : k ≠ B := fun e => hB (e ▸ List.mem_cons_self _ _)
        have hBl : B ∉ l := fun h => hB (List.mem_cons_of_mem _ h)
        have h1 := IH.1 hBl
        have h2 := frame hkB
        exact ⟨h1.1.trans h2.1, h1.2.trans h2.2⟩
      · by_cases hkB : k = B
        · subst hkB
          obtain ⟨c, hc, hne⟩ := hchg
          have hs : (getSprite r.st (.body k)).isSome = true := by simp [hc]
          have hrec := drawBody_records o m w reload r.st k hs hk
          have h1 := IH.1 hkl
          rw [drawBody_changed o m w reload r.st k c hc hne] at hk hrec h1
          rw [drawBody_changed o m w reload r.st k c hc hne]
          refine ⟨h1.1.trans (hK r.st hs hk), ?_⟩
          rw [h1.2]
          exact hrec
        · have hBl : B ∈ l := by
            rcases List.mem_cons.1 hB with h | h
            · exact absurd h.symm hkB
            · exact h
          have h2 := frame hkB
          have h1 := IH.2 hBl (by rw [h2.2]; exact hchg)
          exact ⟨h1.1.trans (by rw [h2.1]), h1.2⟩

theorem reloadGeometry_split (o : Options) (w : World) (B : Ptr) (s s2 : State)
    (h : reloadGeometry o w B s = ⟨s2, false⟩) :
    ∃ rs, Reach (touching (· = .body B)) s rs ∧ s2 = emit (.body B) .reload rs := by
  have hb : Reach (touching (· = .body B)) s (drawBoundingBox o (.body B) s) :=
    drawBoundingBox_reach o _ (fun _ => rfl) Reach.refl
  unfold reloadGeometry at h
  simp only [] at h
  by_cases hopt : (o.Circle || o.Poly || o.Vertex) = true
  · simp only [hopt, if_true] at h
    cases ht : (eachShapeDraw o w B (drawBoundingBox o (.body B) s)).threw with
    | true =>
        simp [Outcome.andThen, ht] at h
        rw [h] at ht
        cases ht
    | false =>
        simp only [Outcome.andThen, ht] at h
        injection h with h _
        exact ⟨_, hb.trans (Reach.mono (shapeDrawing_le_touching rfl)
          (eachShapeDraw_reach o w B _)), h.symm⟩
  · simp only [hopt] at h
    simp only [Outcome.andThen] at h
    injection h with h _
    exact ⟨_, hb, h.symm⟩

theorem drawAll_reload_split (o : Options) (m : MathLib) (w : World) (reload : Bool) (B : Ptr)
    (l : List Ptr) (r : Outcome) (hok : (drawAll o m w reload l r).threw = false)
    (hB : B ∈ l)
    (hchg : ∃ c, getSprite r.st (.body B) = some c ∧ c.sleeping ≠ some (w.sleeping B)) :
    ∃ rs rest, Reach (touching (fun _ => True)) r.st rs ∧
      rs.log.countP (isBodyDrawRect B) =
        r.st.log.countP (isBodyDrawRect B) + (if o.BB = true then 1 else 0) ∧
      (drawAll o m w reload l r).st.log = rs.log ++ ⟨.body B, .reload⟩ :: rest := by
  induction l generalizing r with
  | nil => cases hB
  | cons k l ih =>
      obtain ⟨_, hk, e⟩ := drawAll_cons_ok o m w reload k l r hok
      rw [e] at hok ⊢
      by_cases hkB : k = B
      · subst hkB
        obtain ⟨c, hc, hne⟩ := hchg
        have hs : (getSprite r.st (.body k)).isSome = true := by simp [hc]
        rw [drawBody_changed o m w reload r.st k c hc hne] at hk hok ⊢
        obtain ⟨s2, _, hrel, _, e2⟩ := drawBodyCore_ok o m w k (w.sleeping k) true r.st hk
        have hs1 : (getSprite (refreshTransform o m w k (w.sleeping k) r.st) (.body k)).isSome
            = true :=
          (refreshTransform_reach o m w k (w.sleeping k) r.st).isSome_of _ (fun h => h) hs
        obtain ⟨rs, hrs, hs2⟩ := reloadGeometry_split o w k _ s2 (hrel rfl)
        have hcnt := (reloadGeometry_counts o w k _ s2 hs1 (hrel rfl)).2
        have h0 := (refreshTransform_counts o m w k (w.sleeping k) r.st).2
        have hfin : Reach (touching (fun _ => True)) s2
            (drawAll o m w reload l (drawBodyCore o m w k (w.sleeping k) true r.st)).st := by
          have h1 : Reach (touching (fun _ => True)) s2
              (drawBodyCore o m w k (w.sleeping k) true r.st).st := by
            rw [e2]
            exact Reach.mono (touching_mono (fun _ _ => trivial))
              (finishDraw_reach o m w k (w.sleeping k) s2)
          exact h1.trans (drawAll_reach o m w reload l _
            (fun j _ s1 => Reach.mono (touching_mono (fun _ _ => trivial))
              (drawBody_reach o m w reload s1 j)) _)
        obtain ⟨rest, hrest, _⟩ := hfin.log_eq
        refine ⟨rs, rest, ?_, ?_, ?_⟩
        · exact Reach.mono (touching_mono (fun _ _ => trivial))
            ((refreshTransform_reach o m w k (w.sleeping k) r.st).trans hrs)
        · rw [hs2, countP_emit, h0] at hcnt
          simpa [isBodyDrawRect, Call.isDrawRect] using hcnt
        · rw [hrest, hs2, log_emit]
          simp
      · have hBl : B ∈ l := by
          rcases List.mem_cons.1 hB with h | h
          · exact absurd h.symm hkB
          · exact h
        have hr := drawBody_apart o m w reload r.st k B hkB
        have hget := hr.getSprite_eq (.body B) (fun h => h.1 rfl) (fun h => h) (fun h => h)
        have hcount : (drawBody o m w reload r.st k).st.log.countP (isBodyDrawRect B) =
            r.st.log.countP (isBodyDrawRect B) := by
          refine hr.countP_eq _ ?_
          intro t c htc
          cases hpc : isBodyDrawRect B ⟨t, c⟩ with
          | false => rfl
          | true => exact absurd (isBodyDrawRect_target B t c hpc) htc.1
        obtain ⟨rs, rest, h1, h2, h3⟩ := ih _ hok hBl (by rw [hget]; exact hchg)
        refine ⟨rs, rest, ?_, ?_, h3⟩
        · exact (Reach.mono (touching_mono (fun _ _ => trivial))
            (drawBody_reach o m w reload r.st k)).trans h1
        · rw [h2, hcount]

/-- C5, amended: when the sleep state the engine reports for a registered body
differs from the one recorded on its body sprite, an `update` call that
returns normally issues exactly one `reload` call on that body sprite, for
either value of `reload`, preceded by exactly one bounding-box `drawRect` when
the `BB` option is enabled and by none when it is disabled, and records the
new sleep state on the sprite. -/
theorem update_on_sleep_change (o : Options) (m : MathLib) (w : World) (reload : Bool)
    (st : State) (B : Ptr) (c : Sprite)
    (hnd : st.pBodies.Nodup) (hreg : B ∈ st.pBodies)
    (hc : getSprite st (.body B) = some c) (hchg : c.sleeping ≠ some (w.sleeping B))
    (hok : (update o m w reload st).threw = false) :
    ∃ evs, (update o m w reload st).st.log = st.log ++ evs ∧
      evs.countP (isBodyReload B) = 1 ∧
      evs.countP (isBodyDrawRect B) = (if o.BB = true then 1 else 0) ∧
      (∃ c2, getSprite (update o m w reload st).st (.body B) = some c2 ∧
        c2.sleeping = some (w.sleeping B)) ∧
      ∃ pre post, evs = pre ++ ⟨.body B, .reload⟩ :: post ∧
        pre.countP (isBodyDrawRect B) = (if o.BB = true then 1 else 0) := by
  obtain ⟨hall, _, hget, hlog⟩ := update_ok o m w reload st hok
  have hA := (drawAll_counts o m w reload B (isBodyReload B) 1 (isBodyReload_target B)
    (fun s hs h => (drawBodyCore_counts o m w B _ s hs h).1)
    st.pBodies hnd ⟨st, false⟩ hall).2 hreg ⟨c, hc, hchg⟩
  have hB := (drawAll_counts o m w reload B (isBodyDrawRect B) (if o.BB = true then 1 else 0)
    (isBodyDrawRect_target B)
    (fun s hs h => (drawBodyCore_counts o m w B _ s hs h).2)
    st.pBodies hnd ⟨st, false⟩ hall).2 hreg ⟨c, hc, hchg⟩
  obtain ⟨evs, hevs, _⟩ := (update_reach o m w reload st (fun _ => False)).log_eq
  obtain ⟨rs, post, hrs, hrscount, hsplit⟩ := drawAll_reload_split o m w reload B st.pBodies
    ⟨st, false⟩ hall hreg ⟨c, hc, hchg⟩
  obtain ⟨pre, hpre, _⟩ := hrs.log_eq
  refine ⟨evs, hevs, ?_, ?_, ?_, pre, post, ?_, ?_⟩
  · have := hA.1
    rw [← hlog, hevs, List.countP_append] at this
    simp only [] at this
    omega
  · have := hB.1
    rw [← hlog, hevs, List.countP_append] at this
    simp only [] at this
    omega
  · rw [hget]
    exact hA.2
  · rw [← hlog, hevs, hpre, List.append_assoc] at hsplit
    exact List.append_cancel_left hsplit
  · rw [hpre, List.countP_append] at hrscount
    simp only [] at hrscount
    omega


/-! ## Connection sprites -/

theorem Placed.congr {m : MathLib} {w : World} {cptr : Ptr} {a1 a2 : Vec} {s s2 : State}
    (h : Placed m w cptr a1 a2 s) (e : getSprite s2 (.joint cptr) = getSprite s (.joint cptr)) :
    Placed m w cptr a1 a2 s2 := by
  unfold Placed at h ⊢
  rw [e]
  exact h

theorem connectBodies_placed (m : MathLib) (w : World) (cptr : Ptr) (a1 a2 : Vec) (s : State)
    (hs : (getSprite s (.joint cptr)).isSome = true) :
    Placed m w cptr a1 a2 (connectBodies m w (w.constraint cptr) cptr a1 a2 s) := by
  cases hj : getSprite s (.joint cptr) with
  | none => simp [hj] at hs
  | some j =>
      unfold Placed connectBodies
      simp only [setAngle, setY, setX, setWidth, getSprite_emit, getSprite_modSprite, if_true, hj,
        Option.map_some']
      exact ⟨_, rfl, rfl, rfl, rfl, rfl⟩

theorem constraintDraw_establishes (o : Options) (m : MathLib) (w : World) (s : State)
    (cptr : Ptr) (a1 a2 : Vec)
    (hj1 : (getJointFromConstraint (w.constraint cptr)).anchr1 = some a1)
    (hj2 : (getJointFromConstraint (w.constraint cptr)).anchr2 = some a2)
    (hs : (getSprite s (.joint cptr)).isSome = true) :
    Placed m w cptr a1 a2
      (cpBodyEachConstraintDrawCallback o m w (w.constraint cptr).b s cptr) := by
  have h2 := drawAnchors_reach o (w.constraint cptr).b (w.constraint cptr)
    (getJointFromConstraint (w.constraint cptr)) s
  have hs2 := h2.isSome_of (.joint cptr) (fun h => h) hs
  cases hj : getSprite s (.joint cptr) with
  | none => simp [hj] at hs
  | some j =>
      unfold cpBodyEachConstraintDrawCallback
      simp only [hj, hj1, hj2, if_true]
      exact connectBodies_placed m w cptr a1 a2 _ hs2

theorem constraintDraw_preserves (o : Options) (m : MathLib) (w : World) (b : Ptr) (s : State)
    (cptr c2 : Ptr) (a1 a2 : Vec)
    (hj1 : (getJointFromConstraint (w.constraint cptr)).anchr1 = some a1)
    (hj2 : (getJointFromConstraint (w.constraint cptr)).anchr2 = some a2)
    (h : Placed m w cptr a1 a2 s) :
    Placed m w cptr a1 a2 (cpBodyEachConstraintDrawCallback o m w b s c2) := by
  by_cases hc : c2 = cptr
  · subst hc
    have hs : (getSprite s (.joint c2)).isSome = true := by
      obtain ⟨j, hj, _⟩ := h
      simp [hj]
    by_cases hb : (w.constraint c2).b = b
    · subst hb
      exact constraintDraw_establishes o m w s c2 a1 a2 hj1 hj2 hs
    · have h2 := drawAnchors_reach o b (w.constraint c2)
        (getJointFromConstraint (w.constraint c2)) s
      have e : cpBodyEachConstraintDrawCallback o m w b s c2 =
          drawAnchors o b (w.constraint c2) (getJointFromConstraint (w.constraint c2)) s := by
        unfold cpBodyEachConstraintDrawCallback
        simp only [hj1, hj2, hb, if_false]
        split <;> rfl
      rw [e]
      exact h.congr (h2.getSprite_eq _ (fun h => by cases h) (fun h => h) (fun h => h))
  · have h2 := constraintDraw_reach o m w b s c2
    refine h.congr (h2.getSprite_eq _ ?_ (fun h => h) (fun h => h))
    intro h3
    rcases h3 with h3 | h3
    · cases h3
    · injection h3 with h3
      exact hc h3.symm

theorem eachConstraintDraw_preserves (o : Options) (m : MathLib) (w : World) (b : Ptr)
    (cptr : Ptr) (a1 a2 : Vec)
    (hj1 : (getJointFromConstraint (w.constraint cptr)).anchr1 = some a1)
    (hj2 : (getJointFromConstraint (w.constraint cptr)).anchr2 = some a2)
    (l : List Ptr) (s : State) (h : Placed m w cptr a1 a2 s) :
    Placed m w cptr a1 a2 (l.foldl (cpBodyEachConstraintDrawCallback o m w b) s) := by
  induction l generalizing s with
  | nil => exact h
  | cons x l ih => exact ih _ (constraintDraw_preserves o m w b s cptr x a1 a2 hj1 hj2 h)

theorem eachConstraintDraw_establishes (o : Options) (m : MathLib) (w : World)
    (cptr : Ptr) (a1 a2 : Vec)
    (hj1 : (getJointFromConstraint (w.constraint cptr)).anchr1 = some a1)
    (hj2 : (getJointFromConstraint (w.constraint cptr)).anchr2 = some a2)
    (l : List Ptr) (hl : cptr ∈ l) (s : State)
    (hs : (getSprite s (.joint cptr)).isSome = true) :
    Placed m w cptr a1 a2
      (l.foldl (cpBodyEachConstraintDrawCallback o m w (w.constraint cptr).b) s) := by
  induction l generalizing s with
  | nil => cases hl
  | cons x l ih =>
      rw [List.foldl_cons]
      by_cases hx : x = cptr
      · subst hx
        exact eachConstraintDraw_preserves o m w _ x a1 a2 hj1 hj2 l _
          (constraintDraw_establishes o m w s x a1 a2 hj1 hj2 hs)
      · have hl2 : cptr ∈ l := by
          rcases List.mem_cons.1 hl with h | h
          · exact absurd h.symm hx
          · exact h
        exact ih hl2 _
          ((constraintDraw_reach o m w _ s x).isSome_of _ (fun h => h) hs)

theorem finishDraw_preserves (o : Options) (m : MathLib) (w : World) (b : Ptr) (sleeping : Bool)
    (cptr : Ptr) (a1 a2 : Vec)
    (hj1 : (getJointFromConstraint (w.constraint cptr)).anchr1 = some a1)
    (hj2 : (getJointFromConstraint (w.constraint cptr)).anchr2 = some a2)
    (s : State) (h : Placed m w cptr a1 a2 s) :
    Placed m w cptr a1 a2 (finishDraw o m w b sleeping s) := by
  have h1 : Placed m w cptr a1 a2
      (if o.Constraint = true then eachConstraintDraw o m w b s else s) := by
    split
    · exact eachConstraintDraw_preserves o m w b cptr a1 a2 hj1 hj2 _ s h
    · exact h
  refine h1.congr ?_
  unfold finishDraw
  simp [getSprite_modSprite]

theorem finishDraw_establishes (o : Options) (m : MathLib) (w : World) (sleeping : Bool)
    (cptr : Ptr) (a1 a2 : Vec) (hopt : o.Constraint = true)
    (hj1 : (getJointFromConstraint (w.constraint cptr)).anchr1 = some a1)
    (hj2 : (getJointFromConstraint (w.constraint cptr)).anchr2 = some a2)
    (hl : cptr ∈ w.constraints (w.constraint cptr).b)
    (s : State) (hs : (getSprite s (.joint cptr)).isSome = true) :
    Placed m w cptr a1 a2 (finishDraw o m w (w.constraint cptr).b sleeping s) := by
  have h1 : Placed m w cptr a1 a2 (eachConstraintDraw o m w (w.constraint cptr).b s) :=
    eachConstraintDraw_establishes o m w cptr a1 a2 hj1 hj2 _ hl s hs
  refine h1.congr ?_
  unfold finishDraw
  simp [getSprite_modSprite, hopt]

theorem drawBodyCore_preserves (o : Options) (m : MathLib) (w : World) (b : Ptr)
    (sleeping reload : Bool) (cptr : Ptr) (a1 a2 : Vec)
    (hj1 : (getJointFromConstraint (w.constraint cptr)).anchr1 = some a1)
    (hj2 : (getJointFromConstraint (w.constraint cptr)).anchr2 = some a2)
    (s : State) (h : Placed m w cptr a1 a2 s) :
    Placed m w cptr a1 a2 (drawBodyCore o m w b sleeping reload s).st := by
  cases ht : (drawBodyCore o m w b sleeping reload s).threw with
  | false =>
      obtain ⟨s2, hr, _, _, e⟩ := drawBodyCore_ok o m w b sleeping reload s ht
      rw [e]
      exact finishDraw_preserves o m w b sleeping cptr a1 a2 hj1 hj2 s2
        (h.congr (hr.getSprite_eq _ (fun h => by cases h) (fun h => h) (fun h => h)))
  | true =>
      have hr : Reach (touching (· = .body b)) s (drawBodyCore o m w b sleeping reload s).st := by
        unfold drawBodyCore at ht ⊢
        simp only [] at ht ⊢
        have h1 := refreshTransform_reach o m w b sleeping s
        cases reload with
        | false => simp [Outcome.andThen] at ht
        | true =>
            simp only [if_true] at ht ⊢
            cases hg : (reloadGeometry o w b (refreshTransform o m w b sleeping s)).threw with
            | false => simp [Outcome.andThen, hg] at ht
            | true =>
                simp only [Outcome.andThen, hg, if_true]
                exact h1.trans (reloadGeometry_reach o w b _)
      exact h.congr (hr.getSprite_eq _ (fun h => by cases h) (fun h => h) (fun h => h))

theorem drawBody_preserves (o : Options) (m : MathLib) (w : World) (reload : Bool) (b : Ptr)
    (cptr : Ptr) (a1 a2 : Vec)
    (hj1 : (getJointFromConstraint (w.constraint cptr)).anchr1 = some a1)
    (hj2 : (getJointFromConstraint (w.constraint cptr)).anchr2 = some a2)
    (s : State) (h : Placed m w cptr a1 a2 s) :
    Placed m w cptr a1 a2 (drawBody o m w reload s b).st := by
  unfold drawBody
  split
  · exact h
  · simp only []
    split
    · exact drawBodyCore_preserves o m w b _ _ cptr a1 a2 hj1 hj2 s h
    · split
      · exact h
      · split
        · exact drawBodyCore_preserves o m w b _ _ cptr a1 a2 hj1 hj2 s h
        · exact drawBodyCore_preserves o m w b _ _ cptr a1 a2 hj1 hj2 s h

theorem drawBodyCore_establishes (o : Options) (m : MathLib) (w : World)
    (sleeping reload : Bool) (cptr : Ptr) (a1 a2 : Vec) (hopt : o.Constraint = true)
    (hj1 : (getJointFromConstraint (w.constraint cptr)).anchr1 = some a1)
    (hj2 : (getJointFromConstraint (w.constraint cptr)).anchr2 = some a2)
    (hl : cptr ∈ w.constraints (w.constraint cptr).b)
    (s : State) (hs : (getSprite s (.joint cptr)).isSome = true)
    (ht : (drawBodyCore o m w (w.constraint cptr).b sleeping reload s).threw = false) :
    Placed m w cptr a1 a2 (drawBodyCore o m w (w.constraint cptr).b sleeping reload s).st := by
  obtain ⟨s2, hr, _, _, e⟩ := drawBodyCore_ok o m w _ sleeping reload s ht
  rw [e]
  exact finishDraw_establishes o m w sleeping cptr a1 a2 hopt hj1 hj2 hl s2
    (hr.isSome_of _ (fun h => h) hs)

theorem drawBody_establishes (o : Options) (m : MathLib) (w : World) (reload : Bool)
    (cptr : Ptr) (a1 a2 : Vec) (hopt : o.Constraint = true)
    (hj1 : (getJointFromConstraint (w.constraint cptr)).anchr1 = some a1)
    (hj2 : (getJointFromConstraint (w.constraint cptr)).anchr2 = some a2)
    (hl : cptr ∈ w.constraints (w.constraint cptr).b)
    (s : State) (canvas : Sprite)
    (hc : getSprite s (.body (w.constraint cptr).b) = some canvas)
    (hawake : s.forceReloadAll = true ∨
      ¬ (w.sleeping (w.constraint cptr).b = true ∧ canvas.sleeping = some true))
    (hs : (getSprite s (.joint cptr)).isSome = true)
    (ht : (drawBody o m w reload s (w.constraint cptr).b).threw = false) :
    Placed m w cptr a1 a2 (drawBody o m w reload s (w.constraint cptr).b).st := by
  unfold drawBody at ht ⊢
  simp only [hc] at ht ⊢
  by_cases hf : s.forceReloadAll = true
  · simp only [hf, if_true] at ht ⊢
    exact drawBodyCore_establishes o m w _ _ cptr a1 a2 hopt hj1 hj2 hl s hs ht
  · have hk : ¬ (w.sleeping (w.constraint cptr).b && (canvas.sleeping == some true)) = true := by
      intro hk
      simp only [Bool.and_eq_true, beq_iff_eq] at hk
      rcases hawake with h | h
      · exact hf h
      · exact h hk
    simp only [hf, hk, if_false] at ht ⊢
    by_cases hd : (canvas.sleeping != some (w.sleeping (w.constraint cptr).b)) = true
    · simp only [hd, if_true] at ht ⊢
      exact drawBodyCore_establishes o m w _ _ cptr a1 a2 hopt hj1 hj2 hl s hs ht
    · simp only [hd, if_false] at ht ⊢
      exact drawBodyCore_establishes o m w _ _ cptr a1 a2 hopt hj1 hj2 hl s hs ht

theorem drawAll_placed (o : Options) (m : MathLib) (w : World) (reload : Bool)
    (cptr : Ptr) (a1 a2 : Vec) (hopt : o.Constraint = true)
    (hj1 : (getJointFromConstraint (w.constraint cptr)).anchr1 = some a1)
    (hj2 : (getJointFromConstraint (w.constraint cptr)).anchr2 = some a2)
    (hl : cptr ∈ w.constraints (w.constraint cptr).b)
    (l : List Ptr) (r : Outcome) (hok : (drawAll o m w reload l r).threw = false)
    (h : Placed m w cptr a1 a2 r.st ∨
      ((w.constraint cptr).b ∈ l ∧ (getSprite r.st (.joint cptr)).isSome = true ∧
        ∃ canvas, getSprite r.st (.body (w.constraint cptr).b) = some canvas ∧
          (r.st.forceReloadAll = true ∨
            ¬ (w.sleeping (w.constraint cptr).b = true ∧ canvas.sleeping = some true)))) :
    Placed m w cptr a1 a2 (drawAll o m w reload l r).st := by
  induction l generalizing r with
  | nil =>
      rcases h with h | ⟨h, _⟩
      · exact h
      · cases h
  | cons k l ih =>
      obtain ⟨_, hk, e⟩ := drawAll_cons_ok o m w reload k l r hok
      rw [e] at hok ⊢
      refine ih _ hok ?_
      rcases h with h | ⟨hmem, hs, canvas, hc, hawake⟩
      · exact Or.inl (drawBody_preserves o m w reload k cptr a1 a2 hj1 hj2 r.st h)
      · by_cases hkb : k = (w.constraint cptr).b
        · subst hkb
          exact Or.inl (drawBody_establishes o m w reload cptr a1 a2 hopt hj1 hj2 hl r.st canvas
            hc hawake hs hk)
        · have hr := drawBody_reach o m w reload r.st k
          have hmem2 : (w.constraint cptr).b ∈ l := by
            rcases List.mem_cons.1 hmem with h | h
            · exact absurd h.symm hkb
            · exact h
          have hnot : ¬ drawTargets w k (.body (w.constraint cptr).b) := by
            intro h
            rcases h with h | h | ⟨c, h, _⟩
            · injection h with h
              exact hkb h.symm
            · cases h
            · cases h
          refine Or.inr ⟨hmem2, hr.isSome_of _ (fun h => h) hs, canvas, ?_, ?_⟩
          · rw [hr.getSprite_eq _ hnot (fun h => h) (fun h => h)]
            exact hc
          · rw [hr.force_eq (fun h => h)]
            exact hawake

/-- What the last statement of the placement computes: for a finite `atan2`
result `r` and a finite non-zero `Math.PI`, the angle assigned is `r` in
degrees. -/
theorem renderAngle_degrees (m : MathLib) (p q : Vec) (r pi : ℚ) (hpi : pi ≠ 0)
    (hPI : m.PI = .fin pi) (hr : m.atan2 (q.y - p.y) (q.x - p.x) = .fin r) :
    renderAngle m p q = .fin (r * 180 / pi) := by
  unfold renderAngle cpAngle
  rw [hPI, hr]
  show JsNum.add (JsNum.div (JsNum.mul (JsNum.neg (.fin r)) (.fin 180)) (.fin pi))
    (JsNum.neg (JsNum.mul (JsNum.div (JsNum.mul (JsNum.neg (.fin r)) (.fin 180)) (.fin pi))
      (.fin 2))) = _
  simp only [JsNum.neg, JsNum.mul, JsNum.div, hpi, if_false, JsNum.add]
  congr 1
  field_simp
  ring

/-- C10, amended: with the `Constraint` option enabled, for a constraint that
has a connection sprite and two anchors, is listed by the engine for its body
`b`, and whose body `b` is registered with a body sprite, every `update` call
that returns normally and does not skip body `b` as still sleeping (a forced
reload is pending, or the engine reports `b` awake, or its sprite is not
recorded asleep) recomputes the connection sprite, for either value of
`reload`: `x`, `y` are the render-space position of anchor 1, `width` the
distance between the two anchors, `angle` the `atan2` angle between them in
degrees. -/
theorem update_places_connection (o : Options) (m : MathLib) (w : World) (reload : Bool)
    (st : State) (cptr : Ptr) (a1 a2 : Vec) (canvas : Sprite)
    (hopt : o.Constraint = true)
    (hj1 : (getJointFromConstraint (w.constraint cptr)).anchr1 = some a1)
    (hj2 : (getJointFromConstraint (w.constraint cptr)).anchr2 = some a2)
    (hjoint : (getSprite st (.joint cptr)).isSome = true)
    (hreg : (w.constraint cptr).b ∈ st.pBodies)
    (hlisted : cptr ∈ w.constraints (w.constraint cptr).b)
    (hcanvas : getSprite st (.body (w.constraint cptr).b) = some canvas)
    (hawake : st.forceReloadAll = true ∨
      ¬ (w.sleeping (w.constraint cptr).b = true ∧ canvas.sleeping = some true))
    (hok : (update o m w reload st).threw = false) :
    Placed m w cptr a1 a2 (update o m w reload st).st ∧
    ∀ r pi : ℚ, pi ≠ 0 → m.PI = .fin pi →
      m.atan2
        ((anchorRenderPos m w (w.constraint cptr).b a2).y -
          (anchorRenderPos m w (w.constraint cptr).a a1).y)
        ((anchorRenderPos m w (w.constraint cptr).b a2).x -
          (anchorRenderPos m w (w.constraint cptr).a a1).x) = .fin r →
      renderAngle m (anchorRenderPos m w (w.constraint cptr).a a1)
        (anchorRenderPos m w (w.constraint cptr).b a2) = .fin (r * 180 / pi) := by
  obtain ⟨hall, _, hget, _⟩ := update_ok o m w reload st hok
  refine ⟨?_, fun r pi hpi hPI hr => renderAngle_degrees m _ _ r pi hpi hPI hr⟩
  have h := drawAll_placed o m w reload cptr a1 a2 hopt hj1 hj2 hlisted st.pBodies ⟨st, false⟩
    hall (Or.inr ⟨hreg, hjoint, canvas, hcanvas, hawake⟩)
  exact h.congr (hget _)


/-! ## Size of a polygon sprite -/

theorem minOf_le (x : ℚ) (xs : List ℚ) : minOf x xs ≤ x := by
  unfold minOf
  induction xs generalizing x with
  | nil => exact le_refl _
  | cons y ys ih => exact le_trans (ih (min x y)) (min_le_left _ _)

theorem le_maxOf (x : ℚ) (xs : List ℚ) : x ≤ maxOf x xs := by
  unfold maxOf
  induction xs generalizing x with
  | nil => exact le_refl _
  | cons y ys ih => exact le_trans (le_max_left _ _) (ih (max x y))

theorem foldl_min_min (a x : ℚ) (xs : List ℚ) :
    xs.foldl min (min a x) = min a (xs.foldl min x) := by
  induction xs generalizing x with
  | nil => rfl
  | cons y ys ih => rw [List.foldl_cons, List.foldl_cons, min_assoc, ih]

theorem foldl_max_max (a x : ℚ) (xs : List ℚ) :
    xs.foldl max (max a x) = max a (xs.foldl max x) := by
  induction xs generalizing x with
  | nil => rfl
  | cons y ys ih => rw [List.foldl_cons, List.foldl_cons, max_assoc, ih]

theorem mathMin_fin (a b : ℚ) : Math.min (.fin a) (.fin b) = .fin (min a b) := by
  by_cases h : a ≤ b
  · simp [Math.min, JsNum.le, h]
  · have : b ≤ a := le_of_lt (not_le.1 h)
    simp [Math.min, JsNum.le, h, this]

theorem mathMax_fin (a b : ℚ) : Math.max (.fin a) (.fin b) = .fin (max a b) := by
  by_cases h : a ≤ b
  · simp [Math.max, JsNum.le, h]
  · have : b ≤ a := le_of_lt (not_le.1 h)
    simp [Math.max, JsNum.le, h, this]

theorem foldl_Math_min_fin (xs : List ℚ) (q : ℚ) :
    xs.foldl (fun a x => Math.min a (.fin x)) (.fin q) = .fin (xs.foldl min q) := by
  induction xs generalizing q with
  | nil => rfl
  | cons y ys ih => rw [List.foldl_cons, List.foldl_cons, mathMin_fin, ih]

theorem foldl_Math_max_fin (xs : List ℚ) (q : ℚ) :
    xs.foldl (fun a x => Math.max a (.fin x)) (.fin q) = .fin (xs.foldl max q) := by
  induction xs generalizing q with
  | nil => rfl
  | cons y ys ih => rw [List.foldl_cons, List.foldl_cons, mathMax_fin, ih]

theorem foldl_Math_min (a : JsNum) (x : ℚ) (xs : List ℚ)
    (h : JsNum.le (.fin (minOf x xs)) a = true) :
    (x :: xs).foldl (fun a x => Math.min a (.fin x)) a = .fin (minOf x xs) := by
  rw [List.foldl_cons]
  cases a with
  | fin q =>
      simp only [JsNum.le, decide_eq_true_eq] at h
      rw [mathMin_fin, foldl_Math_min_fin, foldl_min_min]
      unfold minOf at h ⊢
      rw [min_eq_right h]
  | pinf =>
      have : Math.min .pinf (.fin x) = .fin x := by simp [Math.min, JsNum.le]
      rw [this, foldl_Math_min_fin]
      rfl
  | ninf => simp [JsNum.le] at h
  | nan => simp [JsNum.le] at h

theorem foldl_Math_max (a : JsNum) (x : ℚ) (xs : List ℚ)
    (h : JsNum.le a (.fin (maxOf x xs)) = true) :
    (x :: xs).foldl (fun a x => Math.max a (.fin x)) a = .fin (maxOf x xs) := by
  rw [List.foldl_cons]
  cases a with
  | fin q =>
      simp only [JsNum.le, decide_eq_true_eq] at h
      rw [mathMax_fin, foldl_Math_max_fin, foldl_max_max]
      unfold maxOf at h ⊢
      rw [max_eq_right h]
  | ninf =>
      have : Math.max .ninf (.fin x) = .fin x := by simp [Math.max, JsNum.le]
      rw [this, foldl_Math_max_fin]
      rfl
  | pinf => simp [JsNum.le] at h
  | nan => simp [JsNum.le] at h

theorem getSprite_foldl_modSprite {β : Type} (t : Target) (g : β → Sprite → Sprite)
    (l : List β) (s : State) :
    getSprite (l.foldl (fun s v => modSprite t (g v) s) s) t =
      (getSprite s t).map (fun c => l.foldl (fun c v => g v c) c) := by
  induction l generalizing s with
  | nil => simp
  | cons v l ih =>
      rw [List.foldl_cons, ih, getSprite_modSprite]
      cases getSprite s t <;> simp

theorem growExtents_foldl (ps : List (ℚ × ℚ)) (c : Sprite) :
    ((ps.map vert).foldl (fun c v => growExtents v c) c).v_xmin =
        (ps.map Prod.fst).foldl (fun a x => Math.min a (.fin x)) c.v_xmin ∧
      ((ps.map vert).foldl (fun c v => growExtents v c) c).v_xmax =
        (ps.map Prod.fst).foldl (fun a x => Math.max a (.fin x)) c.v_xmax ∧
      ((ps.map vert).foldl (fun c v => growExtents v c) c).v_ymin =
        (ps.map Prod.snd).foldl (fun a x => Math.min a (.fin x)) c.v_ymin ∧
      ((ps.map vert).foldl (fun c v => growExtents v c) c).v_ymax =
        (ps.map Prod.snd).foldl (fun a x => Math.max a (.fin x)) c.v_ymax := by
  induction ps generalizing c with
  | nil => exact ⟨rfl, rfl, rfl, rfl⟩
  | cons p ps ih =>
      simp only [List.map_cons, List.foldl_cons]
      exact ih (growExtents (vert p) c)

theorem createBodySprite_within (o : Options) (B : Ptr) (shape : Shape) (st : State)
    (xmin xmax ymin ymax : ℚ)
    (h : ∀ s0, getSprite st (.body B) = some s0 → extentsWithin xmin xmax ymin ymax s0) :
    ∃ s1, getSprite (createBodySprite o B shape st) (.body B) = some s1 ∧
      extentsWithin xmin xmax ymin ymax s1 := by
  cases hc : getSprite st (.body B) with
  | some s0 =>
      refine ⟨s0, ?_, h s0 hc⟩
      simp [createBodySprite, hc]
  | none =>
      simp only [createBodySprite, hc, setZ, getSprite_emit, getSprite_modSprite,
        getSprite_putSprite, if_true, Option.map_some']
      exact ⟨_, rfl, rfl, rfl, rfl, rfl⟩

theorem accumulateVerts_extents (B : Ptr) (bb : BB) (p : ℚ × ℚ) (ps : List (ℚ × ℚ))
    (s : State) (s1 : Sprite) (h1 : getSprite s (.body B) = some s1)
    (hw : extentsWithin (minOf p.1 (ps.map Prod.fst)) (maxOf p.1 (ps.map Prod.fst))
      (minOf p.2 (ps.map Prod.snd)) (maxOf p.2 (ps.map Prod.snd)) s1) :
    ∃ s2, getSprite (accumulateVerts B ⟨.poly, bb, (p :: ps).map vert⟩ s) (.body B) = some s2 ∧
      s2.v_xmin = .fin (minOf p.1 (ps.map Prod.fst)) ∧
      s2.v_xmax = .fin (maxOf p.1 (ps.map Prod.fst)) ∧
      s2.v_ymin = .fin (minOf p.2 (ps.map Prod.snd)) ∧
      s2.v_ymax = .fin (maxOf p.2 (ps.map Prod.snd)) := by
  unfold accumulateVerts
  simp only [if_true]
  rw [getSprite_foldl_modSprite, h1]
  refine ⟨_, rfl, ?_, ?_, ?_, ?_⟩
  · rw [(growExtents_foldl (p :: ps) s1).1]
    exact foldl_Math_min _ _ _ hw.1
  · rw [(growExtents_foldl (p :: ps) s1).2.1]
    exact foldl_Math_max _ _ _ hw.2.1
  · rw [(growExtents_foldl (p :: ps) s1).2.2.1]
    exact foldl_Math_min _ _ _ hw.2.2.1
  · rw [(growExtents_foldl (p :: ps) s1).2.2.2]
    exact foldl_Math_max _ _ _ hw.2.2.2

theorem extent_size (lo hi stroke : ℚ) (h : lo ≤ hi) :
    Math.abs (JsNum.fin hi - JsNum.fin lo) + JsNum.fin stroke * 2 =
      JsNum.fin (hi - lo + 2 * stroke) := by
  show JsNum.add (Math.abs (JsNum.add (.fin hi) (JsNum.neg (.fin lo))))
    (JsNum.mul (.fin stroke) (.fin 2)) = _
  simp only [JsNum.neg, JsNum.add, Math.abs, JsNum.mul]
  congr 1
  rw [abs_of_nonneg (by linarith)]
  ring

theorem half_fin (q : ℚ) : JsNum.fin q / 2 = JsNum.fin (q / 2) := by
  show JsNum.div (.fin q) (.fin 2) = _
  simp [JsNum.div]

theorem updateCanvasMetaInfo_poly (o : Options) (B : Ptr) (s : State) (s2 : Sprite)
    (xmin xmax ymin ymax stroke : ℚ) (hx : xmin ≤ xmax) (hy : ymin ≤ ymax)
    (hstroke : o.stroke = .fin stroke)
    (h2 : getSprite s (.body B) = some s2)
    (e1 : s2.v_xmin = .fin xmin) (e2 : s2.v_xmax = .fin xmax)
    (e3 : s2.v_ymin = .fin ymin) (e4 : s2.v_ymax = .fin ymax) :
    ∃ s3, getSprite (updateCanvasMetaInfo o (.body B) .poly s) (.body B) = some s3 ∧
      s3.width = .fin (xmax - xmin + 2 * stroke) ∧
      s3.height = .fin (ymax - ymin + 2 * stroke) ∧
      s3._local_center_x = .fin ((xmax - xmin + 2 * stroke) / 2) ∧
      s3._local_center_y = .fin ((ymax - ymin + 2 * stroke) / 2) := by
  simp only [updateCanvasMetaInfo, if_true, h2, setHeight, setWidth, getSprite_emit,
    getSprite_modSprite, Option.map_some', e1, e2, e3, e4, Options.strokex2, hstroke,
    extent_size _ _ _ hx, extent_size _ _ _ hy, half_fin]
  exact ⟨_, rfl, rfl, rfl, rfl, rfl⟩

/-- C6, amended: for a body whose only shape is a polygon with at least one
vertex, and whose body sprite, if one exists already, has cached vertex
extents within those of the polygon, after `addBody` the body sprite has
`width = (max x - min x) + 2*stroke`, `height = (max y - min y) + 2*stroke`,
`_local_center_x = width/2` and `_local_center_y = height/2`. -/
theorem addBody_polygon_size (o : Options) (w : World) (st : State) (B : Ptr) (bb : BB)
    (p : ℚ × ℚ) (ps : List (ℚ × ℚ)) (stroke : ℚ)
    (hshape : w.shapes B = [⟨.poly, bb, (p :: ps).map vert⟩])
    (hstroke : o.stroke = .fin stroke)
    (hcache : ∀ s0, getSprite st (.body B) = some s0 →
      extentsWithin (minOf p.1 (ps.map Prod.fst)) (maxOf p.1 (ps.map Prod.fst))
        (minOf p.2 (ps.map Prod.snd)) (maxOf p.2 (ps.map Prod.snd)) s0) :
    ∃ s, getSprite (addBody o w (some B) st) (.body B) = some s ∧
      s.width =
        .fin (maxOf p.1 (ps.map Prod.fst) - minOf p.1 (ps.map Prod.fst) + 2 * stroke) ∧
      s.height =
        .fin (maxOf p.2 (ps.map Prod.snd) - minOf p.2 (ps.map Prod.snd) + 2 * stroke) ∧
      s._local_center_x =
        .fin ((maxOf p.1 (ps.map Prod.fst) - minOf p.1 (ps.map Prod.fst) + 2 * stroke) / 2) ∧
      s._local_center_y =
        .fin ((maxOf p.2 (ps.map Prod.snd) - minOf p.2 (ps.map Prod.snd) + 2 * stroke) / 2) := by
  obtain ⟨s1, h1, hw⟩ := createBodySprite_within o B ⟨.poly, bb, (p :: ps).map vert⟩
    { st with pBodies := addKey st.pBodies B } _ _ _ _ hcache
  obtain ⟨s2, h2, e1, e2, e3, e4⟩ := accumulateVerts_extents B bb p ps _ s1 h1 hw
  obtain ⟨s3, h3, r⟩ := updateCanvasMetaInfo_poly o B _ s2 _ _ _ _ stroke
    (le_trans (minOf_le _ _) (le_maxOf _ _)) (le_trans (minOf_le _ _) (le_maxOf _ _))
    hstroke h2 e1 e2 e3 e4
  refine ⟨s3, ?_, r⟩
  rw [← h3]
  unfold addBody initDebugCanvas
  simp only [hshape, List.foldl_cons, List.foldl_nil]
  split
  · have hr : Reach (creating (fun t => t = .anchor B ∨ ∃ c, t = .joint c))
        (cpBodyEachShapeInitCallback o B { st with pBodies := addKey st.pBodies B }
          ⟨.poly, bb, (p :: ps).map vert⟩)
        ((w.constraints B).foldl (cpBodyEachConstraintInitCallback o w B)
          (cpBodyEachShapeInitCallback o B { st with pBodies := addKey st.pBodies B }
            ⟨.poly, bb, (p :: ps).map vert⟩)) :=
      Reach.foldl _ _ (fun s1 y _ => Reach.mono (creating_mono (fun t ht => by
        rcases ht with h | h
        · exact Or.inl h
        · exact Or.inr ⟨y, h⟩)) (cpBodyEachConstraintInitCallback_reach o w B s1 y)) Reach.refl
    rw [hr.getSprite_eq (.body B)]
    · rfl
    · intro h
      rcases h with h | ⟨c, h⟩ <;> cases h
    · intro h
      rcases h with h | ⟨c, h⟩ <;> cases h
    · exact fun h => h
  · rfl

/-- Witness for C6, the example of the specification: the
square `(0,0), (10,0), (10,10), (0,10)` with stroke 2 gives width and height 14
and local centre 7. -/
theorem addBody_polygon_size_witness :
    ∃ s, getSprite (addBody defaultOptions exWorld (some 1) State.init) (.body 1) = some s ∧
      s.width = 14 ∧ s.height = 14 ∧ s._local_center_x = 7 ∧ s._local_center_y = 7 := by
  obtain ⟨s, h, hw, hh, hx, hy⟩ := addBody_polygon_size defaultOptions exWorld State.init 1
    ⟨0, 0, 10, 10⟩ (0, 0) [(10, 0), (10, 10), (0, 10)] 2 (by decide!) rfl
    (fun s0 h0 => by simp [getSprite, State.init, Table.get] at h0)
  refine ⟨s, h, ?_, ?_, ?_, ?_⟩
  · rw [hw]; decide!
  · rw [hh]; decide!
  · rw [hx]; decide!
  · rw [hy]; decide!

/-- C6 fails as stated: body 1 was registered while it carried the larger
square; now its only shape is the square of side 10, and after `addBody` the
sprite is 19 wide and high (15 + 2*2), not 14, with local centre 19/2. -/
theorem stale_extents_widen :
    exWorld.shapes 1 = [exSquare] ∧
    (getSprite (addBody defaultOptions exWorld (some 1)
        (addBody defaultOptions exWorldWide (some 1) State.init)) (.body 1)).map
      (fun s => (s.width, s.height, s._local_center_x, s._local_center_y)) =
      some (19, 19, .fin (19 / 2), .fin (19 / 2)) := by
  decide!


/-! ## The theorems at the example inputs -/

/-- Example of a first `update` that returned: bodies 1 and 2 asleep at two consecutive
`update` calls, body 1 moved by the engine in between. -/
theorem update_twice_asleep_witness :
    ∃ evs, (update exOptions exMath exWorldAsleepMoved true exAsleep).st.log =
        exAsleep.log ++ evs ∧
      (∀ e ∈ evs, e.target ≠ .body 1 ∧ e.target ≠ .anchor 1 ∧
        ∀ c, e.target = .joint c → (exWorldAsleepMoved.constraint c).b ≠ 1) ∧
      getSprite (update exOptions exMath exWorldAsleepMoved true exAsleep).st (.body 1) =
        getSprite exAsleep (.body 1) ∧
      getSprite (update exOptions exMath exWorldAsleepMoved true exAsleep).st (.anchor 1) =
        getSprite exAsleep (.anchor 1) :=
  update_twice_asleep exOptions exMath exWorldAsleep exWorldAsleepMoved false true
    exRegistered exAsleep 1 (by decide!) (by decide!) rfl rfl (by decide!)

/-- C4 fails on the code: with the `Poly` option enabled, body 1, whose only
shape is a polygon with one vertex, is registered with a body sprite and
reported asleep at two consecutive `update` calls.  The first call ends in the
`TypeError` of source line 138 (`vertStart.x` read before line 141 assigns
`vertStart`), so line 283 never records the sleep state on the sprite, and the
second call issues `color`, `setStrokeWidth` and `drawRect` on the body sprite,
for either value of `reload`. -/
theorem asleep_body_redrawn_after_throw :
    1 ∈ exDotRegistered.pBodies ∧
    (getSprite exDotRegistered (.body 1)).isSome = true ∧
    exWorldDot.sleeping 1 = true ∧
    (update exOptionsPoly exMath exWorldDot false exDotRegistered).threw = true ∧
    (getSprite exDotThrown (.body 1)).map (fun c => c.sleeping) = some none ∧
    (update exOptionsPoly exMath exWorldDot false exDotThrown).st.log =
      exDotThrown.log ++
        [⟨.body 1, .color 1 1 1⟩, ⟨.body 1, .setStrokeWidth 2⟩,
          ⟨.body 1, .drawRect 2 2 0 0⟩] ∧
    (update exOptionsPoly exMath exWorldDot true exDotThrown).st.log =
      exDotThrown.log ++
        [⟨.body 1, .color 1 1 1⟩, ⟨.body 1, .setStrokeWidth 2⟩,
          ⟨.body 1, .drawRect 2 2 0 0⟩] := by
  decide!

/-- Witness for C5: body 1, recorded awake, is reported
asleep; `update(false)` reloads its sprite once and redraws the bounding box
once. -/
theorem update_on_sleep_change_witness :
    ∃ evs, (update exOptions exMath exWorldAsleep false exAwake).st.log = exAwake.log ++ evs ∧
      evs.countP (isBodyReload 1) = 1 ∧
      evs.countP (isBodyDrawRect 1) = (if exOptions.BB = true then 1 else 0) ∧
      (∃ c2, getSprite (update exOptions exMath exWorldAsleep false exAwake).st (.body 1) =
          some c2 ∧
        c2.sleeping = some (exWorldAsleep.sleeping 1)) ∧
      ∃ pre post, evs = pre ++ ⟨.body 1, .reload⟩ :: post ∧
        pre.countP (isBodyDrawRect 1) = (if exOptions.BB = true then 1 else 0) :=
  update_on_sleep_change exOptions exMath exWorldAsleep false exAwake 1
    ((getSprite exAwake (.body 1)).getD (Sprite.blank 0 0))
    (by decide!) (by decide!) (by decide!) (by decide!) (by decide!)

/-- C5 fails as stated: with the `BB` option disabled, body 1, recorded awake,
is reported asleep, and the next `update` issues `color` and `reload` on its
sprite and no bounding-box `drawRect`. -/
theorem sleep_change_without_bounding_box :
    exOptionsNoBB.BB = false ∧
    (getSprite exAwakeNoBB (.body 1)).map (fun c => c.sleeping) = some (some false) ∧
    exWorldAsleep.sleeping 1 = true ∧
    (update exOptionsNoBB exMath exWorldAsleep false exAwakeNoBB).st.log =
      exAwakeNoBB.log ++ [⟨.body 1, .color 1 1 1⟩, ⟨.body 1, .reload⟩] := by
  decide!

/-- Witness for C10: constraint 7 between the awake
bodies 1 and 2. -/
theorem update_places_connection_witness :
    Placed exMath exWorld 7 (vert (0, 0)) (vert (0, 0))
      (update exOptions exMath exWorld false exRegistered).st ∧
    ∀ r pi : ℚ, pi ≠ 0 → exMath.PI = .fin pi →
      exMath.atan2
        ((anchorRenderPos exMath exWorld (exWorld.constraint 7).b (vert (0, 0))).y -
          (anchorRenderPos exMath exWorld (exWorld.constraint 7).a (vert (0, 0))).y)
        ((anchorRenderPos exMath exWorld (exWorld.constraint 7).b (vert (0, 0))).x -
          (anchorRenderPos exMath exWorld (exWorld.constraint 7).a (vert (0, 0))).x) = .fin r →
      renderAngle exMath (anchorRenderPos exMath exWorld (exWorld.constraint 7).a (vert (0, 0)))
        (anchorRenderPos exMath exWorld (exWorld.constraint 7).b (vert (0, 0))) =
          .fin (r * 180 / pi) :=
  update_places_connection exOptions exMath exWorld false exRegistered 7 (vert (0, 0))
    (vert (0, 0)) ((getSprite exRegistered (.body 2)).getD (Sprite.blank 0 0))
    (by decide!) (by decide!) (by decide!) (by decide!) (by decide!) (by decide!) (by decide!)
    (Or.inr (by decide!)) (by decide!)

/-- C10 fails as stated: constraint 7 has a connection sprite and two anchors;
both bodies were asleep at the previous `update` and still are, the engine has
moved body 1 from `x = 5` to `x = 9`, and `update` leaves the connection sprite
at `x = 5`, `width = 15`, for either value of `reload`. -/
theorem asleep_connection_not_recomputed :
    (getSprite exAsleep (.joint 7)).isSome = true ∧
    (getJointFromConstraint (exWorldAsleepMoved.constraint 7)).anchr1 = some (vert (0, 0)) ∧
    (getJointFromConstraint (exWorldAsleepMoved.constraint 7)).anchr2 = some (vert (0, 0)) ∧
    (anchorRenderPos exMath exWorldAsleepMoved (exWorldAsleepMoved.constraint 7).a
      (vert (0, 0))).x = 9 ∧
    (getSprite (update exOptions exMath exWorldAsleepMoved false exAsleep).st (.joint 7)).map
      (fun j => (j.x, j.width)) = some (5, 15) ∧
    (getSprite (update exOptions exMath exWorldAsleepMoved true exAsleep).st (.joint 7)).map
      (fun j => (j.x, j.width)) = some (5, 15) := by
  decide!


/-! ## Every state the host can reach is well formed -/

theorem Reach.pBodies_eq {F : Footprint} {a b : State} (h : Reach F a b) (hb : ¬ F.bodies) :
    b.pBodies = a.pBodies := by
  induction h with
  | refl => rfl
  | step p _ hal ih =>
      rw [← ih]
      cases p with
      | emit t c => rfl
      | mod t f => cases t <;> rfl
      | put t s => cases t <;> rfl
      | del t => cases t <;> rfl
      | bodies l => exact absurd hal hb
      | force v => rfl

theorem addKey_nodup (l : List Ptr) (k : Ptr) (h : l.Nodup) : (addKey l k).Nodup := by
  unfold addKey
  split
  · exact h
  · rename_i hk
    rw [List.nodup_append]
    refine ⟨h, List.nodup_singleton k, ?_⟩
    intro a ha hb
    simp only [List.mem_singleton] at hb
    subst hb
    exact hk ha

theorem step_nodup (o : Options) (m : MathLib) (w : World) (op : Op) (s : State)
    (h : s.pBodies.Nodup) : (step o m w op s).pBodies.Nodup := by
  have hadd : ∀ body s1, s1.pBodies.Nodup → (addBody o w body s1).pBodies.Nodup := by
    intro body s1 h1
    cases body with
    | none => exact h1
    | some b =>
        unfold addBody
        rw [(initDebugCanvas_reach o w b _).pBodies_eq (fun h => h)]
        exact addKey_nodup _ _ h1
  have hshow : ∀ body s1, (showBody w body s1).pBodies = s1.pBodies := by
    intro body s1
    cases body with
    | none => rfl
    | some b => exact (showBody_reach w b s1).pBodies_eq (fun h => h)
  have hhide : ∀ body s1, (hideBody w body s1).pBodies = s1.pBodies := by
    intro body s1
    cases body with
    | none => rfl
    | some b => exact (hideBody_reach w b s1).pBodies_eq (fun h => h)
  have hrem : ∀ body s1, s1.pBodies.Nodup → (removeBody w body s1).pBodies.Nodup := by
    intro body s1 h1
    cases body with
    | none => exact h1
    | some b =>
        have e : removeBody w (some b) s1 = (w.constraints b).foldl (removeConstraint b)
            (removeSprite (.body b)
              { s1 with pBodies := s1.pBodies.filter (fun k => k != b) }) := rfl
        rw [e, removeConstraint_foldl_pBodies, removeSprite_pBodies]
        exact h1.filter _
  have hfold : ∀ {β : Type} (f : State → β → State) (l : List β),
      (∀ s1 x, s1.pBodies.Nodup → (f s1 x).pBodies.Nodup) →
      ∀ s1, s1.pBodies.Nodup → (l.foldl f s1).pBodies.Nodup := by
    intro β f l hf
    induction l with
    | nil => exact fun s1 h1 => h1
    | cons x l ih => exact fun s1 h1 => ih _ (hf s1 x h1)
  cases op with
  | addBody body => exact hadd body s h
  | addBodies bodies => exact hfold _ _ (fun s1 x h1 => hadd x s1 h1) s h
  | showBody body => exact (hshow body s).symm ▸ h
  | hideBody body => exact (hhide body s).symm ▸ h
  | removeBody body => exact hrem body s h
  | showAll => exact hfold _ _ (fun s1 x h1 => (hshow (some x) s1).symm ▸ h1) s h
  | hideAll => exact hfold _ _ (fun s1 x h1 => (hhide (some x) s1).symm ▸ h1) s h
  | removeBodies bodies => exact hfold _ _ (fun s1 x h1 => hrem x s1 h1) s h
  | update reload =>
      have h1 : Reach (touching (fun _ => True)) s
          (drawAll o m w reload s.pBodies ⟨s, false⟩).st :=
        drawAll_reach o m w reload _ _
          (fun k _ s1 => Reach.mono (touching_mono (fun _ _ => trivial))
            (drawBody_reach o m w reload s1 k)) ⟨s, false⟩
      have h2 := h1.pBodies_eq (fun h => h)
      have h3 : (update o m w reload s).st.pBodies =
          (drawAll o m w reload s.pBodies ⟨s, false⟩).st.pBodies := by
        unfold update Outcome.andThen
        split
        · rfl
        · simp only []
          split <;> rfl
      show (update o m w reload s).st.pBodies.Nodup
      rw [h3, h2]
      exact h

/-- Every state reached from the initial one by public method calls lists a
body at most once in `pBodies` and holds at most one sprite per key in each
sprite table. -/
theorem run_wellformed (o : Options) (m : MathLib) (trace : List (World × Op)) :
    (run o m trace State.init).pBodies.Nodup ∧
    ∀ t, spriteCount (run o m trace State.init) t ≤ 1 := by
  refine ⟨?_, fun t => ?_⟩
  · unfold run
    have : ∀ (l : List (World × Op)) (s : State), s.pBodies.Nodup →
        (l.foldl (fun s x => step o m x.1 x.2 s) s).pBodies.Nodup := by
      intro l
      induction l with
      | nil => exact fun s h => h
      | cons x l ih => exact fun s h => ih _ (step_nodup o m x.1 x.2 s h)
    exact this trace State.init List.nodup_nil
  · have hr : Reach (keeping (fun _ => False)) State.init (run o m trace State.init) := by
      unfold run
      exact Reach.foldl _ _
        (fun s1 x _ => step_reach_of o m x.1 x.2 s1 _ (fun _ _ _ _ h => h)) Reach.refl
    refine hr.count_le_one t ?_
    cases t <;> simp [spriteCount, State.init, keyCount]

end DebugDraw
